import Mathlib

/-!
# MapSpecials (SLADE) : a shallow embedding of `src/src/MapSpecials.cpp`

The development follows the source file function by function.

* Script text and tokens are lists of characters; `long`/`int` values are
  integers with an explicit wrap to the machine width where the source narrows
  a value.
* `double` values are rationals: the arithmetic of the source is modelled
  exactly, without rounding.
* Pointers to map objects are indices into the lists of the map; a null
  pointer is `none`.
* A `while` loop without a bound in the source is a function with a step
  budget that returns `none` when the budget is used up.
-/

namespace MapSpecials

/-! ## Colours and the tag colour table -/

/-- Modelled from the spec: the colour type `rgba_t` is declared outside `src/`.
The spec calls it an RGB value whose alpha is implicitly 255, so a channel is
a byte, held here as a natural number below 256. -/
structure rgba_t where
  r : Nat
  g : Nat
  b : Nat
  a : Nat
deriving DecidableEq, Repr

/-- Narrowing of an integer to an unsigned byte, as done when an `int` is
passed for a colour channel. -/
def toUInt8 (v : Int) : Nat := (v % 256).toNat

/-- The call `colour.set(r, g, b, a)` on integer arguments. -/
def rgba_t.set (r g b a : Int) : rgba_t :=
  { r := toUInt8 r, g := toUInt8 g, b := toUInt8 b, a := toUInt8 a }

/-- The struct `sector_colour_t` of the source: one entry of `sector_colours`. -/
structure sector_colour_t where
  tag : Int
  colour : rgba_t
deriving DecidableEq, Repr

/-- The call `v.clear()` on a vector: no element is left. -/
def vectorClear {α : Type} (_v : List α) : List α := []

/-- `MapSpecials::reset`: clears the colour table. -/
def reset (sector_colours : List sector_colour_t) : List sector_colour_t :=
  vectorClear sector_colours

/-- `MapSpecials::getTagColour`: scans `sector_colours` from index 0; at the
first entry with the tag it writes r, g, b and alpha 255 into `colour` and
returns true; when the scan ends it returns false and `colour` is as it was. -/
def getTagColour : List sector_colour_t → Int → rgba_t → Bool × rgba_t
  | [], _, colour => (false, colour)
  | sc :: rest, tag, colour =>
    if sc.tag = tag then
      (true, { r := sc.colour.r, g := sc.colour.g, b := sc.colour.b, a := 255 })
    else getTagColour rest tag colour

/-- `MapSpecials::tagColoursSet`. -/
def tagColoursSet (sector_colours : List sector_colour_t) : Bool :=
  !sector_colours.isEmpty

/-! ## The script tokenizer -/

/-- A token is a string, held as its list of characters. -/
abbrev Token := List Char

/-- Characters that separate tokens and belong to none. -/
def isWhitespace (c : Char) : Bool :=
  c == ' ' || c == '\t' || c == '\n' || c == '\r'

/-- The argument of `tz.setSpecialCharacters` in `processACSScripts`. -/
def specialCharacters : List Char :=
  [';', ',', ':', '|', '=', '{', '}', '/', '(', ')']

/-- A pending word becomes a token unless it is empty. -/
def flushToken (cur : Token) : List Token :=
  if cur = [] then [] else [cur]

/-- Modelled from the spec: the class `Tokenizer` is not under `src/`. The
spec says it turns a byte blob into a stream of lexical tokens, the special
characters breaking tokens: white space separates words and every special
character is a token of its own. Comments and quoted strings, of which the
spec says nothing, are not modelled. -/
def readTokens : Token → List Char → List Token
  | cur, [] => flushToken cur
  | cur, c :: cs =>
    if isWhitespace c then flushToken cur ++ readTokens [] cs
    else if specialCharacters.contains c then flushToken cur ++ [c] :: readTokens [] cs
    else readTokens (cur ++ [c]) cs

/-- Modelled from the spec: the state of a `Tokenizer` is the stream of tokens
not read yet. -/
structure Tokenizer where
  rest : List Token
deriving DecidableEq, Repr

/-- `Tokenizer::openMem` on the bytes of an entry. -/
def Tokenizer.openMem (data : List Char) : Tokenizer :=
  { rest := readTokens [] data }

/-- `Tokenizer::getToken`: the next token; at the end of the stream the token
is the empty string and the state stays at the end. -/
def Tokenizer.getToken (tz : Tokenizer) : Token × Tokenizer :=
  match tz.rest with
  | [] => ([], tz)
  | t :: ts => (t, { rest := ts })

/-- `Tokenizer::skipToken`: reads a token and drops it. -/
def Tokenizer.skipToken (tz : Tokenizer) : Tokenizer :=
  tz.getToken.2

/-- `Tokenizer::isAtEnd`: nothing is left to read. -/
def Tokenizer.isAtEnd (tz : Tokenizer) : Bool :=
  tz.rest.isEmpty

/-- `Tokenizer::getTokensUntil`: the tokens up to the next occurrence of
`stop`, which is read and dropped; at the end of the stream it stops too. -/
def Tokenizer.getTokensUntil (tz : Tokenizer) (stop : Token) : List Token × Tokenizer :=
  (tz.rest.takeWhile (fun t => t != stop),
   { rest := (tz.rest.dropWhile (fun t => t != stop)).drop 1 })

/-- The comparison `S_CMPNOCASE(a, b)`: equality up to the case of letters. -/
def cmpNoCase (a b : Token) : Bool :=
  a.map Char.toLower == b.map Char.toLower

/-! ## Numeric literals -/

/-- Value of a decimal digit. -/
def digitVal (c : Char) : Option Nat :=
  if 48 ≤ c.toNat ∧ c.toNat ≤ 57 then some (c.toNat - 48) else none

/-- Reads a run of decimal digits, most significant first. -/
def parseDigits : List Char → Nat → Option Nat
  | [], acc => some acc
  | c :: cs, acc =>
    match digitVal c with
    | none => none
    | some d => parseDigits cs (acc * 10 + d)

/-- Number of bits of a `long` (LP64). -/
def LONG_BITS : Nat := 64

/-- The call `s.ToLong(&val)` of the string library in base 10: an optional
sign and at least one digit, nothing else, and the value must fit a `long`. -/
def ToLong (s : Token) : Option Int :=
  match s with
  | [] => none
  | c :: cs =>
    if c = '-' then
      (if cs = [] then none else
        match parseDigits cs 0 with
        | none => none
        | some n => if n ≤ 2 ^ (LONG_BITS - 1) then some (-(n : Int)) else none)
    else if c = '+' then
      (if cs = [] then none else
        match parseDigits cs 0 with
        | none => none
        | some n => if n < 2 ^ (LONG_BITS - 1) then some (n : Int) else none)
    else
      match parseDigits (c :: cs) 0 with
      | none => none
      | some n => if n < 2 ^ (LONG_BITS - 1) then some (n : Int) else none

/-- Narrowing of a `long` to a 32-bit `int` (two's complement wrap). -/
def toInt32 (v : Int) : Int :=
  (v + 2 ^ 31) % 2 ^ 32 - 2 ^ 31

/-! ## processACSScripts -/

/-- The locals `tag`, `r`, `g`, `b` of the parameter loop. -/
structure Params where
  tag : Int
  r : Int
  g : Int
  b : Int
deriving DecidableEq, Repr

/-- The initial values of the locals: all -1. -/
def Params.unset : Params := { tag := -1, r := -1, g := -1, b := -1 }

/-- Body of the parameter loop after a successful `ToLong`: the value goes to
the first of `tag`, `r`, `g`, `b` that is negative. -/
def assignParam (p : Params) (val : Int) : Params :=
  if p.tag < 0 then { p with tag := toInt32 val }
  else if p.r < 0 then { p with r := toInt32 val }
  else if p.g < 0 then { p with g := toInt32 val }
  else if p.b < 0 then { p with b := toInt32 val }
  else p

/-- The loop over `parameters` (source lines 229-242). -/
def parseParameters : List Token → Params → Params
  | [], p => p
  | t :: ts, p =>
    match ToLong t with
    | some val => parseParameters ts (assignParam p val)
    | none => parseParameters ts p

/-- The block run at a `Sector_SetColor` token (source lines 219-256): reads the
tokens up to `)`, parses them, and appends a binding unless `b` is negative. -/
def sectorSetColor (tz : Tokenizer) (sector_colours : List sector_colour_t) :
    Tokenizer × List sector_colour_t :=
  let res := tz.getTokensUntil [')']
  let p := parseParameters res.1 Params.unset
  if p.b < 0 then (res.2, sector_colours)
  else (res.2, sector_colours ++ [{ tag := p.tag, colour := rgba_t.set p.r p.g p.b 255 }])

/-- The loop `while (token != "{") tz.getToken(&token);`. -/
def skipToBrace : Nat → Token → Tokenizer → Option (Token × Tokenizer)
  | 0, _, _ => none
  | n + 1, token, tz =>
    if token != ['{'] then skipToBrace n tz.getToken.1 tz.getToken.2
    else some (token, tz)

/-- The loop `while (token != "}")` over the body of an OPEN script. -/
def scriptBody : Nat → Token → Tokenizer → List sector_colour_t →
    Option (Token × Tokenizer × List sector_colour_t)
  | 0, _, _, _ => none
  | n + 1, token, tz, cols =>
    if token != ['}'] then
      let st := if cmpNoCase token "Sector_SetColor".toList then sectorSetColor tz cols
                else (tz, cols)
      scriptBody n st.1.getToken.1 st.1.getToken.2 st.2
    else some (token, tz, cols)

/-- The loop `while (!tz.isAtEnd())` of `processACSScripts`; `fuel` is the
budget handed to each inner loop. -/
def scanLoop (fuel : Nat) : Nat → Token → Tokenizer → List sector_colour_t →
    Option (List sector_colour_t)
  | 0, _, _, _ => none
  | n + 1, token, tz, cols =>
    if !tz.isAtEnd then
      if cmpNoCase token "script".toList then
        let tz1 := tz.skipToken
        let token1 := tz1.getToken.1
        let tz2 := tz1.getToken.2
        if cmpNoCase token1 "OPEN".toList then
          match skipToBrace fuel token1 tz2 with
          | none => none
          | some (_, tz3) =>
            match scriptBody fuel tz3.getToken.1 tz3.getToken.2 cols with
            | none => none
            | some (_, tz4, cols4) => scanLoop fuel n tz4.getToken.1 tz4.getToken.2 cols4
        else scanLoop fuel n tz2.getToken.1 tz2.getToken.2 cols
      else scanLoop fuel n tz.getToken.1 tz.getToken.2 cols
    else some cols

/-- `MapSpecials::processACSScripts`. The entry is `none` for a null pointer
and otherwise its bytes; the result is the new `sector_colours`, or `none`
when the scan is still running after `fuel` rounds of a loop. -/
def processACSScripts (fuel : Nat) (entry : Option (List Char))
    (sector_colours : List sector_colour_t) : Option (List sector_colour_t) :=
  let cleared := vectorClear sector_colours
  match entry with
  | none => some cleared
  | some data =>
    if data.length = 0 then some cleared
    else
      let tz := Tokenizer.openMem data
      scanLoop fuel fuel tz.getToken.1 tz.getToken.2 cleared

/-! ## Planes and points -/

/-- Modelled from the spec: `plane_t` is declared outside `src/`. A plane holds
the coefficients of `a x + b y + c z = d`. -/
structure plane_t where
  a : ℚ
  b : ℚ
  c : ℚ
  d : ℚ
deriving DecidableEq, Repr

/-- Modelled from the spec: `plane_t::flat`, the flat plane at height `h`. -/
def plane_t.flat (h : ℚ) : plane_t := { a := 0, b := 0, c := 1, d := h }

/-- Modelled from the spec: `plane_t::height_at`, the height of the plane over
the point (x, y). -/
def plane_t.height_at (pl : plane_t) (x y : ℚ) : ℚ :=
  (-pl.a * x + -pl.b * y + pl.d) / pl.c

/-- Modelled from the spec: `fpoint3_t`, a point or vector of 3-space. -/
structure fpoint3_t where
  x : ℚ
  y : ℚ
  z : ℚ
deriving DecidableEq, Repr

/-- Sum of two vectors, the `+` of `fpoint3_t`. -/
def fpoint3_t.add (p q : fpoint3_t) : fpoint3_t :=
  { x := p.x + q.x, y := p.y + q.y, z := p.z + q.z }

/-- Modelled from the spec: `MathStuff::planeFromTriangle`, the plane through
three points. Its normal is the cross product of `p3 - p1` and `p2 - p1`, left
as it is (the source of `MathStuff` is not under `src/`; a normal of length one
would need a square root). -/
def planeFromTriangle (p1 p2 p3 : fpoint3_t) : plane_t :=
  let v1x := p3.x - p1.x
  let v1y := p3.y - p1.y
  let v1z := p3.z - p1.z
  let v2x := p2.x - p1.x
  let v2y := p2.y - p1.y
  let v2z := p2.z - p1.z
  let nx := v1y * v2z - v1z * v2y
  let ny := v1z * v2x - v1x * v2z
  let nz := v1x * v2y - v1y * v2x
  { a := nx, b := ny, c := nz, d := nx * p1.x + ny * p1.y + nz * p1.z }

/-! ## The map -/

/-- The two planes of a sector, the template argument `p` of the source. -/
inductive PlaneType where
  | FLOOR_PLANE
  | CEILING_PLANE
deriving DecidableEq, Repr

/-- A vertex with its position and its two UDMF height properties. -/
structure MapVertex where
  x : ℚ
  y : ℚ
  zfloor : ℚ
  zceiling : ℚ
deriving DecidableEq, Repr

/-- A sector: tag, scalar heights, the two planes, and the vertices that
`getVertices` returns. -/
structure MapSector where
  tag : Int
  heightfloor : ℚ
  heightceiling : ℚ
  plane_floor : plane_t
  plane_ceiling : plane_t
  vertices : List MapVertex
deriving DecidableEq, Repr

/-- A line: special, its five arguments, its id, its end points, the sectors
of its two sides, and the two properties the line specials write. -/
structure MapLine where
  special : Int
  arg0 : Int
  arg1 : Int
  arg2 : Int
  arg3 : Int
  arg4 : Int
  id : Int
  x1 : ℚ
  y1 : ℚ
  x2 : ℚ
  y2 : ℚ
  front : Option Nat
  back : Option Nat
  alpha : ℚ
  renderstyle : String
deriving DecidableEq, Repr

/-- A thing: type, position, facing angle, first argument, height. -/
structure MapThing where
  type : Int
  x : ℚ
  y : ℚ
  angle : Int
  arg0 : Int
  height : ℚ
deriving DecidableEq, Repr

/-- The map: its lines, sectors and things, in index order. -/
structure SLADEMap where
  lines : List MapLine
  sectors : List MapSector
  things : List MapThing
deriving DecidableEq, Repr

/-- What the source takes from outside the map and this file: the game
configuration, the spatial query of the map, and the numeric routines. A
`double` is a rational here, so `PI`, `cos` and `sin` are rational valued. -/
structure Env where
  currentPort : String
  vertexProperty : String → Bool
  sectorAt : ℚ → ℚ → Int
  lineSide : ℚ → ℚ → ℚ → ℚ → ℚ → ℚ → ℚ
  distanceTo : MapLine → ℚ → ℚ → ℚ
  PI : ℚ
  cos : ℚ → ℚ
  sin : ℚ → ℚ

/-- `getPlane<p>()` of a sector. -/
def MapSector.getPlane (p : PlaneType) (s : MapSector) : plane_t :=
  match p with
  | .FLOOR_PLANE => s.plane_floor
  | .CEILING_PLANE => s.plane_ceiling

/-- `setPlane<p>(plane)` of a sector. -/
def MapSector.setPlane (p : PlaneType) (s : MapSector) (pl : plane_t) : MapSector :=
  match p with
  | .FLOOR_PLANE => { s with plane_floor := pl }
  | .CEILING_PLANE => { s with plane_ceiling := pl }

/-- `getPlaneHeight<p>()` of a sector: its scalar floor or ceiling height. -/
def MapSector.getPlaneHeight (p : PlaneType) (s : MapSector) : ℚ :=
  match p with
  | .FLOOR_PLANE => s.heightfloor
  | .CEILING_PLANE => s.heightceiling

/-- Writes through a sector pointer: the sector at index `i` becomes `f` of
itself; an index outside the map writes nothing. -/
def SLADEMap.updateSector (m : SLADEMap) (i : Nat) (f : MapSector → MapSector) : SLADEMap :=
  match m.sectors[i]? with
  | some s => { m with sectors := m.sectors.set i (f s) }
  | none => m

/-- Writes through a line pointer, like `updateSector`. -/
def SLADEMap.updateLine (m : SLADEMap) (i : Nat) (f : MapLine → MapLine) : SLADEMap :=
  match m.lines[i]? with
  | some l => { m with lines := m.lines.set i (f l) }
  | none => m

/-- Modelled from the spec: `SLADEMap::getLinesById`, the indices of the lines
whose id is `id`, in index order. -/
def SLADEMap.getLinesById (m : SLADEMap) (id : Int) : List Nat :=
  (List.range m.lines.length).filter fun i =>
    match m.lines[i]? with
    | some l => l.id == id
    | none => false

/-- Modelled from the spec: `SLADEMap::getSectorsByTag`, the indices of the
sectors whose tag is `tag`, in index order. -/
def SLADEMap.getSectorsByTag (m : SLADEMap) (tag : Int) : List Nat :=
  (List.range m.sectors.length).filter fun i =>
    match m.sectors[i]? with
    | some s => s.tag == tag
    | none => false

/-! ## Line specials -/

/-- The two writes of the loop body: `setFloatProperty("alpha", alpha)` and
`setStringProperty("renderstyle", type)`. -/
def MapLine.setTranslucency (alpha : ℚ) (type : String) (ln : MapLine) : MapLine :=
  { ln with alpha := alpha, renderstyle := type }

/-- The loop over `tagged` in `processZDoomLineSpecial`: sets the two
properties on each line of the list. -/
def setTranslucent (alpha : ℚ) (type : String) : List Nat → SLADEMap → SLADEMap
  | [], m => m
  | l :: rest, m =>
    setTranslucent alpha type rest (m.updateLine l (MapLine.setTranslucency alpha type))

/-- `MapSpecials::processZDoomLineSpecial` on the line at index `line`. -/
def processZDoomLineSpecial (m : SLADEMap) (line : Nat) : SLADEMap :=
  match m.lines[line]? with
  | none => m
  | some ln =>
    if ln.special = 0 then m
    else if ln.special = 208 then
      let tagged := if ln.arg0 > 0 then m.getLinesById ln.arg0 else [line]
      let alpha : ℚ := (ln.arg1 : ℚ) / 255
      let type := if ln.arg2 = 0 then "translucent" else "add"
      setTranslucent alpha type tagged m
    else m

/-! ## The slope solver -/

/-- The first loop of `processZDoomSlopes`: both planes of a sector become the
flat planes at its scalar heights. -/
def resetSector (s : MapSector) : MapSector :=
  { s with plane_floor := plane_t.flat (s.getPlaneHeight .FLOOR_PLANE),
           plane_ceiling := plane_t.flat (s.getPlaneHeight .CEILING_PLANE) }

/-- The search loop of `applyPlaneAlign`: a vertex replaces the current one
when its distance to the line is greater than the greatest so far. -/
def furthestVertex (E : Env) (line : MapLine) :
    List MapVertex → ℚ → Option MapVertex → ℚ × Option MapVertex
  | [], furthest_dist, furthest_vertex => (furthest_dist, furthest_vertex)
  | this_vertex :: rest, furthest_dist, furthest_vertex =>
    let this_dist := E.distanceTo line this_vertex.x this_vertex.y
    if this_dist > furthest_dist then furthestVertex E line rest this_dist (some this_vertex)
    else furthestVertex E line rest furthest_dist furthest_vertex

/-- `MapSpecials::applyPlaneAlign<p>(line, target, model)`. -/
def applyPlaneAlign (E : Env) (p : PlaneType) (line : MapLine) (target model : Nat)
    (m : SLADEMap) : SLADEMap :=
  match m.sectors[target]?, m.sectors[model]? with
  | some t, some md =>
    let found := furthestVertex E line t.vertices 0 none
    match found.2 with
    | none => m
    | some furthest_vertex =>
      if found.1 < 1 / 100 then m
      else
        let modelz := md.getPlaneHeight p
        let targetz := t.getPlaneHeight p
        let p1 : fpoint3_t := { x := line.x1, y := line.y1, z := modelz }
        let p2 : fpoint3_t := { x := line.x2, y := line.y2, z := modelz }
        let p3 : fpoint3_t := { x := furthest_vertex.x, y := furthest_vertex.y, z := targetz }
        m.updateSector target fun s => s.setPlane p (planeFromTriangle p1 p2 p3)
  | _, _ => m

/-- Body of the Plane_Align loop of `processZDoomSlopes` for one line. -/
def planeAlignLine (E : Env) (m : SLADEMap) (line : MapLine) : SLADEMap :=
  if line.special ≠ 181 then m
  else
    match line.front, line.back with
    | some sector1, some sector2 =>
      if sector1 = sector2 then m
      else
        let m1 :=
          if line.arg0 = 1 then applyPlaneAlign E .FLOOR_PLANE line sector1 sector2 m
          else if line.arg0 = 2 then applyPlaneAlign E .FLOOR_PLANE line sector2 sector1 m
          else m
        if line.arg1 = 1 then applyPlaneAlign E .CEILING_PLANE line sector1 sector2 m1
        else if line.arg1 = 2 then applyPlaneAlign E .CEILING_PLANE line sector2 sector1 m1
        else m1
    | _, _ => m

/-- The loop over the matching lines in `applyLineSlopeThing`. `thingz` is
`none` while `containing_sector` is still null. -/
def lineSlopeLoop (E : Env) (p : PlaneType) (thing : MapThing) :
    List MapLine → Option ℚ → SLADEMap → SLADEMap
  | [], _, m => m
  | line :: rest, thingz, m =>
    let side := E.lineSide thing.x thing.y line.x1 line.y1 line.x2 line.y2
    let target : Option Nat :=
      if side < 0 then line.back else if side > 0 then line.front else none
    match target with
    | none => lineSlopeLoop E p thing rest thingz m
    | some tidx =>
      match m.sectors[tidx]? with
      | none => lineSlopeLoop E p thing rest thingz m
      | some t =>
        let resolved : Option ℚ :=
          match thingz with
          | some z => some z
          | none =>
            let containing_sector_idx := E.sectorAt thing.x thing.y
            if containing_sector_idx < 0 then none
            else
              match m.sectors[containing_sector_idx.toNat]? with
              | none => none
              | some cs => some ((cs.getPlane p).height_at thing.x thing.y + thing.height)
        match resolved with
        | none => m
        | some z =>
          let target_plane := t.getPlane p
          let p1 : fpoint3_t :=
            { x := line.x1, y := line.y1, z := target_plane.height_at line.x1 line.y1 }
          let p2 : fpoint3_t :=
            { x := line.x2, y := line.y2, z := target_plane.height_at line.x2 line.y2 }
          let p3 : fpoint3_t := { x := thing.x, y := thing.y, z := z }
          lineSlopeLoop E p thing rest (some z)
            (m.updateSector tidx fun s => s.setPlane p (planeFromTriangle p1 p2 p3))

/-- `MapSpecials::applyLineSlopeThing<p>(map, thing)`. -/
def applyLineSlopeThing (E : Env) (p : PlaneType) (m : SLADEMap) (thing : MapThing) : SLADEMap :=
  let lineid := thing.arg0
  if lineid = 0 then m
  else
    let lines := (m.getLinesById lineid).filterMap fun i => m.lines[i]?
    lineSlopeLoop E p thing lines none m

/-- Number of radians in the unit circle, the constant `TAU`. -/
def TAU (E : Env) : ℚ := E.PI * 2

/-- `MapSpecials::applySectorTiltThing<p>(map, thing)`. -/
def applySectorTiltThing (E : Env) (p : PlaneType) (m : SLADEMap) (thing : MapThing) : SLADEMap :=
  let target_idx := E.sectorAt thing.x thing.y
  if target_idx < 0 then m
  else
    match m.sectors[target_idx.toNat]? with
    | none => m
    | some target =>
      let raw_angle := thing.arg0
      if raw_angle = 0 ∨ raw_angle = 180 then m
      else
        let angle : ℚ := (thing.angle : ℚ) / 360 * TAU E
        let tilt : ℚ := ((raw_angle - 90 : Int) : ℚ) / 360 * TAU E
        let z := target.getPlaneHeight p + thing.height
        let point : fpoint3_t := { x := thing.x, y := thing.y, z := z }
        let cos_angle := E.cos angle
        let sin_angle := E.sin angle
        let cos_tilt := E.cos tilt
        let sin_tilt := E.sin tilt
        let vec1 : fpoint3_t := { x := -sin_angle, y := cos_angle, z := 0 }
        let vec2 : fpoint3_t :=
          { x := cos_tilt * cos_angle, y := cos_tilt * sin_angle, z := sin_tilt }
        m.updateSector target_idx.toNat fun s =>
          s.setPlane p (planeFromTriangle point (point.add vec1) (point.add vec2))

/-- Body of the first loop over things in `processZDoomSlopes`. -/
def directionalThing (E : Env) (m : SLADEMap) (thing : MapThing) : SLADEMap :=
  if thing.type = 9500 then applyLineSlopeThing E .FLOOR_PLANE m thing
  else if thing.type = 9501 then applyLineSlopeThing E .CEILING_PLANE m thing
  else if thing.type = 9502 then applySectorTiltThing E .FLOOR_PLANE m thing
  else if thing.type = 9503 then applySectorTiltThing E .CEILING_PLANE m thing
  else m

/-- Body of the slope copy loop of `processZDoomSlopes` for one thing. -/
def slopeCopyThing (E : Env) (m : SLADEMap) (thing : MapThing) : SLADEMap :=
  if thing.type = 9510 ∨ thing.type = 9511 then
    let target_idx := E.sectorAt thing.x thing.y
    if target_idx < 0 then m
    else
      let tag := thing.arg0
      if tag = 0 then m
      else
        match m.getSectorsByTag tag with
        | [] => m
        | first :: _ =>
          match m.sectors[first]? with
          | none => m
          | some src =>
            if thing.type = 9510 then
              m.updateSector target_idx.toNat fun s => { s with plane_floor := src.plane_floor }
            else
              m.updateSector target_idx.toNat fun s => { s with plane_ceiling := src.plane_ceiling }
  else m

/-- The property name of `applyVertexHeightSlope<p>`. -/
def vertexHeightProp (p : PlaneType) : String :=
  match p with
  | .FLOOR_PLANE => "zfloor"
  | .CEILING_PLANE => "zceiling"

/-- The call `floatProperty(prop)` on a vertex, for the two names above. -/
def MapVertex.floatProperty (p : PlaneType) (v : MapVertex) : ℚ :=
  match p with
  | .FLOOR_PLANE => v.zfloor
  | .CEILING_PLANE => v.zceiling

/-- `MapSpecials::applyVertexHeightSlope<p>(target, vertices)` on a sector
with three vertices. -/
def applyVertexHeightSlope (E : Env) (p : PlaneType) (target : MapSector)
    (v0 v1 v2 : MapVertex) : MapSector :=
  if !E.vertexProperty (vertexHeightProp p) then target
  else
    let z1 := v0.floatProperty p
    let z2 := v1.floatProperty p
    let z3 := v2.floatProperty p
    if z1 ≠ 0 ∨ z2 ≠ 0 ∨ z3 ≠ 0 then
      let p1 : fpoint3_t := { x := v0.x, y := v0.y, z := z1 }
      let p2 : fpoint3_t := { x := v1.x, y := v1.y, z := z2 }
      let p3 : fpoint3_t := { x := v2.x, y := v2.y, z := z3 }
      target.setPlane p (planeFromTriangle p1 p2 p3)
    else target

/-- Body of the vertex height loop of `processZDoomSlopes` for one sector. -/
def vertexHeightSector (E : Env) (target : MapSector) : MapSector :=
  match target.vertices with
  | [v0, v1, v2] =>
    applyVertexHeightSlope E .CEILING_PLANE
      (applyVertexHeightSlope E .FLOOR_PLANE target v0 v1 v2) v0 v1 v2
  | _ => target

/-- The expression `share & mask` on a 32-bit `int` and a small mask. -/
def bitAnd (share : Int) (mask : Nat) : Nat :=
  Nat.land (share % 2 ^ 32).toNat mask

/-- Body of the Plane_Copy loop of `processZDoomSlopes` for one line. -/
def planeCopyLine (m : SLADEMap) (line : MapLine) : SLADEMap :=
  if line.special ≠ 118 then m
  else
    match line.front, line.back with
    | some front, some back =>
      match m.sectors[front]?, m.sectors[back]? with
      | some _, some _ =>
        let share := line.arg4
        let m1 :=
          if bitAnd share 3 = 1 then
            match m.sectors[front]? with
            | some f => m.updateSector back fun s => { s with plane_floor := f.plane_floor }
            | none => m
          else if bitAnd share 3 = 2 then
            match m.sectors[back]? with
            | some b => m.updateSector front fun s => { s with plane_floor := b.plane_floor }
            | none => m
          else m
        if bitAnd share 12 = 4 then
          match m1.sectors[front]? with
          | some f => m1.updateSector back fun s => { s with plane_ceiling := f.plane_ceiling }
          | none => m1
        else if bitAnd share 12 = 8 then
          match m1.sectors[back]? with
          | some b => m1.updateSector front fun s => { s with plane_ceiling := b.plane_ceiling }
          | none => m1
        else m1
      | _, _ => m
    | _, _ => m

/-- `MapSpecials::processZDoomSlopes`: the reset and the five passes, each a
loop in index order over the lines, things or sectors of the map. -/
def processZDoomSlopes (E : Env) (m : SLADEMap) : SLADEMap :=
  let m0 : SLADEMap := { m with sectors := m.sectors.map resetSector }
  let m1 := m0.lines.foldl (planeAlignLine E) m0
  let m2 := m1.things.foldl (directionalThing E) m1
  let m3 := m2.things.foldl (slopeCopyThing E) m2
  let m4 : SLADEMap := { m3 with sectors := m3.sectors.map (vertexHeightSector E) }
  m4.lines.foldl planeCopyLine m4

/-! ## Entry points -/

/-- `MapSpecials::processZDoomMapSpecials`: the line special of every line, in
index order, then the slopes. -/
def processZDoomMapSpecials (E : Env) (m : SLADEMap) : SLADEMap :=
  processZDoomSlopes E ((List.range m.lines.length).foldl processZDoomLineSpecial m)

/-- `MapSpecials::processMapSpecials`. The state is the colour table of the
object and the map. -/
def processMapSpecials (E : Env) (sector_colours : List sector_colour_t) (m : SLADEMap) :
    List sector_colour_t × SLADEMap :=
  if E.currentPort = "zdoom" then (sector_colours, processZDoomMapSpecials E m)
  else (sector_colours, m)

/-- `MapSpecials::processLineSpecial` on the line at index `line`. -/
def processLineSpecial (E : Env) (sector_colours : List sector_colour_t) (m : SLADEMap)
    (line : Nat) : List sector_colour_t × SLADEMap :=
  if E.currentPort = "zdoom" then (sector_colours, processZDoomLineSpecial m line)
  else (sector_colours, m)

/-! ## Notions used in the statements -/

/-- The `int` values that the parameter loop gets from a token list: the
tokens that `ToLong` accepts, in order, narrowed to `int`. -/
def numericValues (tokens : List Token) : List Int :=
  (tokens.filterMap ToLong).map toInt32

/-- The values of `numericValues` that are not negative, in order. -/
def acceptedValues (tokens : List Token) : List Int :=
  (numericValues tokens).filter fun v => decide (0 ≤ v)

/-- The state of the locals of the parameter loop after the non-negative values
`acc` have been seen: the first four of them sit in `tag`, `r`, `g`, `b`, the
next local is negative, and the locals after it are still -1. -/
def SlotsFilled (p : Params) (acc : List Int) : Prop :=
  (acc = [] ∧ p.tag < 0 ∧ p.r = -1 ∧ p.g = -1 ∧ p.b = -1) ∨
  (∃ t, acc = [t] ∧ 0 ≤ t ∧ p.tag = t ∧ p.r < 0 ∧ p.g = -1 ∧ p.b = -1) ∨
  (∃ t r, acc = [t, r] ∧ 0 ≤ t ∧ 0 ≤ r ∧ p.tag = t ∧ p.r = r ∧ p.g < 0 ∧ p.b = -1) ∨
  (∃ t r g, acc = [t, r, g] ∧ 0 ≤ t ∧ 0 ≤ r ∧ 0 ≤ g ∧ p.tag = t ∧ p.r = r ∧ p.g = g ∧ p.b < 0) ∨
  (∃ t r g b rest, acc = t :: r :: g :: b :: rest ∧ 0 ≤ t ∧ 0 ≤ r ∧ 0 ≤ g ∧ 0 ≤ b ∧
    p.tag = t ∧ p.r = r ∧ p.g = g ∧ p.b = b)

/-- The character of a decimal digit. -/
def digitChar (d : Nat) : Char := Char.ofNat (48 + d)

/-- The decimal literal of a natural number, without leading zeros. -/
def decimal (n : Nat) : Token :=
  if n = 0 then ['0'] else (Nat.digits 10 n).reverse.map digitChar

/-- The buffer `script N OPEN { Sector_SetColor(t, r, g, b); }` with the five
numbers written as decimal literals. -/
def scriptBuffer (N t r g b : Nat) : List Char :=
  "script ".toList ++ decimal N ++ " OPEN \x7b Sector_SetColor(".toList ++ decimal t ++
    ", ".toList ++ decimal r ++ ", ".toList ++ decimal g ++ ", ".toList ++ decimal b ++
    "); \x7d".toList

/-- A character that is neither white space nor special. -/
def PlainChar (c : Char) : Prop :=
  isWhitespace c = false ∧ specialCharacters.contains c = false

instance : DecidablePred PlainChar := fun c => by
  unfold PlainChar
  infer_instance

/-! ## Example inputs -/

/-- The colour that `getTagColour` writes for a binding. -/
def writtenColour (sc : sector_colour_t) : rgba_t :=
  { r := sc.colour.r, g := sc.colour.g, b := sc.colour.b, a := 255 }

/-- A table in which tag 7 occurs twice. -/
def exampleTable : List sector_colour_t :=
  [{ tag := 3, colour := { r := 1, g := 2, b := 3, a := 255 } },
   { tag := 7, colour := { r := 10, g := 20, b := 30, a := 255 } },
   { tag := 7, colour := { r := 40, g := 50, b := 60, a := 255 } }]

/-- A line with no special, all arguments and its id zero, alpha 0. -/
def plainLine : MapLine :=
  { special := 0, arg0 := 0, arg1 := 0, arg2 := 0, arg3 := 0, arg4 := 0, id := 0,
    x1 := 0, y1 := 0, x2 := 0, y2 := 0, front := none, back := none,
    alpha := 0, renderstyle := "" }

/-- A line with special 208 and arguments [0, 128, 0]. -/
def untaggedLine : MapLine := { plainLine with special := 208, arg1 := 128 }

/-- A map of two lines: `untaggedLine` and a plain line. -/
def untaggedMap : SLADEMap :=
  { lines := [untaggedLine, plainLine], sectors := [], things := [] }

/-- A line with special 208, arguments [5, 255, 1] and id 5. -/
def taggedLine : MapLine :=
  { plainLine with special := 208, arg0 := 5, arg1 := 255, arg2 := 1, id := 5 }

/-- A map of five lines: `taggedLine`, three other lines of id 5, and a line
of id 9. -/
def taggedMap : SLADEMap :=
  { lines := [taggedLine, { plainLine with id := 5 }, { plainLine with id := 5 },
              { plainLine with id := 5 }, { plainLine with id := 9 }],
    sectors := [], things := [] }

/-- A line with special 208 and arguments [5, 255, 1] whose own id is 0. -/
def strayLine : MapLine :=
  { plainLine with special := 208, arg0 := 5, arg1 := 255, arg2 := 1 }

/-- A map of four lines: `strayLine` and three lines of id 5. -/
def strayMap : SLADEMap :=
  { lines := [strayLine, { plainLine with id := 5 }, { plainLine with id := 5 },
              { plainLine with id := 5 }],
    sectors := [], things := [] }

/-- A map whose first line has special 181 and whose second has none. -/
def otherSpecialMap : SLADEMap :=
  { lines := [{ plainLine with special := 181, arg0 := 1, arg1 := 64, arg2 := 1 }, plainLine],
    sectors := [], things := [] }

/-- An environment for the port `port`, with no sector at any point and
constant numeric routines. -/
def portEnv (port : String) : Env :=
  { currentPort := port, vertexProperty := fun _ => false, sectorAt := fun _ _ => -1,
    lineSide := fun _ _ _ _ _ _ => 0, distanceTo := fun _ _ _ => 0, PI := 0,
    cos := fun _ => 0, sin := fun _ => 0 }

/-- The tokens of the parameter list `(12, 255, 0, 0`. -/
def redParams : List Token :=
  ["(".toList, "12".toList, ",".toList, "255".toList, ",".toList, "0".toList, ",".toList,
   "0".toList]

/-- The tokens of the parameter list `(-5, 1, 2, 3`. -/
def negativeParams : List Token :=
  ["(".toList, "-5".toList, ",".toList, "1".toList, ",".toList, "2".toList, ",".toList,
   "3".toList]

/-- A tokenizer that is about to read `(12, 255, 0, 0); }`. -/
def redCall : Tokenizer :=
  { rest := redParams ++ [")".toList, ";".toList, "\x7d".toList] }

/-- A tokenizer that is about to read `(12, 255, 0); }`. -/
def shortCall : Tokenizer :=
  { rest := ["(".toList, "12".toList, ",".toList, "255".toList, ",".toList, "0".toList,
             ")".toList, ";".toList, "\x7d".toList] }

/-- A tokenizer that is about to read `(-1, 255, 0, 0); }`. -/
def negativeCall : Tokenizer :=
  { rest := ["(".toList, "-1".toList, ",".toList, "255".toList, ",".toList, "0".toList,
             ",".toList, "0".toList, ")".toList, ";".toList, "\x7d".toList] }

/-- Two maps with the same lines and things whose sectors differ at most in
their planes. -/
def SameFrame (m m' : SLADEMap) : Prop :=
  m'.lines = m.lines ∧ m'.things = m.things ∧
  ∀ j : Nat, (m'.sectors[j]?).map resetSector = (m.sectors[j]?).map resetSector

/-- The reset loop of `processZDoomSlopes` as a map transformer. -/
def resetPass (m : SLADEMap) : SLADEMap :=
  { m with sectors := m.sectors.map resetSector }

/-- The Plane_Align loop of `processZDoomSlopes`. -/
def planeAlignPass (E : Env) (m : SLADEMap) : SLADEMap :=
  m.lines.foldl (planeAlignLine E) m

/-- The loop over line slope and sector tilt things of `processZDoomSlopes`. -/
def directionalPass (E : Env) (m : SLADEMap) : SLADEMap :=
  m.things.foldl (directionalThing E) m

/-- The loop over slope copy things of `processZDoomSlopes`. -/
def slopeCopyPass (E : Env) (m : SLADEMap) : SLADEMap :=
  m.things.foldl (slopeCopyThing E) m

/-- The vertex height loop of `processZDoomSlopes`. -/
def vertexHeightPass (E : Env) (m : SLADEMap) : SLADEMap :=
  { m with sectors := m.sectors.map (vertexHeightSector E) }

/-- The Plane_Copy loop of `processZDoomSlopes`. -/
def planeCopyPass (m : SLADEMap) : SLADEMap :=
  m.lines.foldl planeCopyLine m

/-- The sector a line slope thing targets at a line: the back sector when the
line side value of the thing is negative, the front sector when it is
positive, none when it is zero. -/
def lineSlopeTarget (E : Env) (thing : MapThing) (line : MapLine) : Option Nat :=
  if E.lineSide thing.x thing.y line.x1 line.y1 line.x2 line.y2 < 0 then line.back
  else if E.lineSide thing.x thing.y line.x1 line.y1 line.x2 line.y2 > 0 then line.front
  else none

/-- The plane a line slope thing fits to a target with plane `old`: through
the two end points of the line at the heights of `old` and through the thing
at height `z`. -/
def lineSlopePlane (thing : MapThing) (line : MapLine) (old : plane_t) (z : ℚ) : plane_t :=
  planeFromTriangle { x := line.x1, y := line.y1, z := old.height_at line.x1 line.y1 }
    { x := line.x2, y := line.y2, z := old.height_at line.x2 line.y2 }
    { x := thing.x, y := thing.y, z := z }

/-- One matched line of a line slope thing whose height `z` is known: the
target, when there is one, gets the fitted plane. -/
def lineSlopeFit (E : Env) (p : PlaneType) (thing : MapThing) (z : ℚ) (m : SLADEMap)
    (line : MapLine) : SLADEMap :=
  match lineSlopeTarget E thing line with
  | none => m
  | some t =>
    match m.sectors[t]? with
    | none => m
    | some T => m.updateSector t fun s =>
        s.setPlane p (lineSlopePlane thing line (T.getPlane p) z)

/-- A line without the two properties that the line specials write. -/
def MapLine.bare (l : MapLine) : MapLine :=
  { l with alpha := 0, renderstyle := "" }

/-- What the special of the line `ln`, at index `i`, does to the line `l` at
index `j`. -/
def lineEffect (ln : MapLine) (i j : Nat) (l : MapLine) : MapLine :=
  if ln.special = 208 ∧ ((0 < ln.arg0 ∧ l.id = ln.arg0) ∨ (¬ 0 < ln.arg0 ∧ j = i)) then
    l.setTranslucency ((ln.arg1 : ℚ) / 255) (if ln.arg2 = 0 then "translucent" else "add")
  else l

/-- What the specials of the lines `L` at the indices `is`, in that order, do
to the line `l` at index `j`. -/
def lineEffects (L : List MapLine) (j : Nat) : List Nat → MapLine → MapLine
  | [], l => l
  | i :: is, l =>
    lineEffects L j is
      (match L[i]? with
       | some ln => lineEffect ln i j l
       | none => l)

/-- The loop over the lines in `processZDoomMapSpecials`. -/
def lineSpecialPass (m : SLADEMap) : SLADEMap :=
  (List.range m.lines.length).foldl processZDoomLineSpecial m

/-- A vertex at (x, y) with no declared heights. -/
def vtx (x y : ℚ) : MapVertex := { x := x, y := y, zfloor := 0, zceiling := 0 }

/-- An environment for maps whose lines are vertical: the distance of a point
to a line is the difference of the x coordinates, the line side value is the
usual cross product, sector 0 lies left of x = 0 and sector 1 right of it, and
vertex heights are known properties. -/
def gridEnv : Env :=
  { currentPort := "zdoom", vertexProperty := fun _ => true,
    sectorAt := fun x _ => if x < 0 then 0 else 1,
    lineSide := fun x y x1 y1 x2 y2 => -((y - y1) * (x2 - x1) - (x - x1) * (y2 - y1)),
    distanceTo := fun line x _ => |x - line.x1|,
    PI := 355 / 113, cos := fun _ => 1, sin := fun _ => 0 }

/-- The sector left of the line x = 0: floor height 0, a rectangle. -/
def frontSector : MapSector :=
  { tag := 0, heightfloor := 0, heightceiling := 128,
    plane_floor := plane_t.flat 5, plane_ceiling := plane_t.flat 5,
    vertices := [vtx 0 0, vtx 0 64, vtx (-50) 64, vtx (-50) 0] }

/-- The sector right of the line x = 0: floor height 64, a rectangle whose
farthest vertices are at distance 100 from the line. -/
def backSector : MapSector :=
  { tag := 7, heightfloor := 64, heightceiling := 192,
    plane_floor := plane_t.flat 5, plane_ceiling := plane_t.flat 5,
    vertices := [vtx 0 0, vtx 0 64, vtx 100 64, vtx 100 0] }

/-- The line from (0, 0) to (0, 64) with special 181 and the given arg0,
front sector 0 and back sector 1. -/
def alignLine (arg0 : Int) : MapLine :=
  { plainLine with special := 181, arg0 := arg0, x1 := 0, y1 := 0, x2 := 0, y2 := 64,
                   front := some 0, back := some 1 }

/-- The map of the two sectors with the one Plane_Align line. -/
def alignMap (arg0 : Int) : SLADEMap :=
  { lines := [alignLine arg0], sectors := [frontSector, backSector], things := [] }

/-- A slope copy thing for the floor, left of x = 0, with tag 7. -/
def copyThing : MapThing :=
  { type := 9510, x := -10, y := 32, angle := 0, arg0 := 7, height := 0 }

/-- A sector tilt thing with the tilt argument 180. -/
def verticalTiltThing : MapThing :=
  { type := 9502, x := -10, y := 32, angle := 0, arg0 := 180, height := 0 }

/-- A line slope thing for the floor, right of x = 0, with line id 3 and
height 8. -/
def slopeThing : MapThing :=
  { type := 9500, x := 10, y := 32, angle := 0, arg0 := 3, height := 8 }

/-- The map of the two sectors with one line of id 3 and the line slope
thing. -/
def slopeMap : SLADEMap :=
  { lines := [{ plainLine with id := 3, x1 := 0, y1 := 0, x2 := 0, y2 := 64,
                               front := some 0, back := some 1 }],
    sectors := [frontSector, backSector], things := [slopeThing] }

/-- A sector with three vertices, none with a declared height. -/
def triSector : MapSector :=
  { tag := 0, heightfloor := 16, heightceiling := 96,
    plane_floor := plane_t.flat 16, plane_ceiling := plane_t.flat 96,
    vertices := [vtx 0 0, vtx 64 0, vtx 0 64] }

/-- A line with special 118 and share argument 6 between sectors 0 and 1. -/
def copyLine : MapLine :=
  { plainLine with special := 118, arg4 := 6, front := some 0, back := some 1 }

/-- A wall: a line with no special from (x1, y1) to (x2, y2) with the sector
`front` on its front side and no back side. -/
def wall (x1 y1 x2 y2 : ℚ) (front : Nat) : MapLine :=
  { plainLine with x1 := x1, y1 := y1, x2 := x2, y2 := y2, front := some front }

/-- A player start: a thing of type 1 in the front sector. -/
def startThing : MapThing :=
  { type := 1, x := -25, y := 32, angle := 0, arg0 := 0, height := 0 }

/-- The two rectangles as rooms: every side of both sectors is a line. The
Plane_Align line `alignLine 2` between the rooms is line 1; the other six
lines are walls. -/
def roomMap : SLADEMap :=
  { lines := [wall 0 64 100 64 1, alignLine 2, wall 100 64 100 0 1, wall 100 0 0 0 1,
              wall 0 0 (-50) 0 0, wall (-50) 0 (-50) 64 0, wall (-50) 64 0 64 0],
    sectors := [frontSector, backSector], things := [startThing] }

/-- The rooms of `roomMap` with one more line after the others: a Plane_Copy
line with share argument 1, front sector 0 and back sector 1. -/
def copiedRoomMap : SLADEMap :=
  { roomMap with
    lines := roomMap.lines ++
      [{ plainLine with special := 118, arg4 := 1, front := some 0, back := some 1 }] }

/-! ## Theorems -/

theorem getTagColour_true_iff (cols : List sector_colour_t) (tag : Int) (colour : rgba_t) :
    (getTagColour cols tag colour).1 = true ↔ ∃ sc ∈ cols, sc.tag = tag := by
  induction cols with
  | nil => simp [getTagColour]
  | cons sc rest ih =>
    by_cases h : sc.tag = tag
    · simp [getTagColour, h]
    · simp [getTagColour, h, ih]

theorem getTagColour_split (pre : List sector_colour_t) (sc : sector_colour_t)
    (post : List sector_colour_t) (tag : Int) (colour : rgba_t)
    (hpre : ∀ x ∈ pre, x.tag ≠ tag) (hsc : sc.tag = tag) :
    getTagColour (pre ++ sc :: post) tag colour = (true, writtenColour sc) := by
  induction pre with
  | nil => simp [getTagColour, hsc, writtenColour]
  | cons x xs ih =>
    have hx : x.tag ≠ tag := hpre x (by simp)
    have hxs : ∀ y ∈ xs, y.tag ≠ tag := fun y hy => hpre y (by simp [hy])
    simp [getTagColour, hx, ih hxs]

theorem getTagColour_none (cols : List sector_colour_t) (tag : Int) (colour : rgba_t)
    (h : ∀ x ∈ cols, x.tag ≠ tag) : getTagColour cols tag colour = (false, colour) := by
  induction cols with
  | nil => simp [getTagColour]
  | cons x xs ih =>
    have hx : x.tag ≠ tag := h x (by simp)
    have hxs : ∀ y ∈ xs, y.tag ≠ tag := fun y hy => h y (by simp [hy])
    simp [getTagColour, hx, ih hxs]

/-- C2: `getTagColour` returns true exactly when some binding has the tag; the
colour written is then r, g, b of the first binding in scan order with that
tag, with alpha 255; when no binding has the tag it returns false and the
colour of the caller is as it was. -/
theorem getTagColour_first_match (cols : List sector_colour_t) (tag : Int) (colour : rgba_t) :
    ((getTagColour cols tag colour).1 = true ↔ ∃ sc ∈ cols, sc.tag = tag) ∧
    (∀ pre sc post, cols = pre ++ sc :: post → (∀ x ∈ pre, x.tag ≠ tag) → sc.tag = tag →
      getTagColour cols tag colour =
        (true, { r := sc.colour.r, g := sc.colour.g, b := sc.colour.b, a := 255 })) ∧
    ((∀ x ∈ cols, x.tag ≠ tag) → getTagColour cols tag colour = (false, colour)) := by
  refine ⟨getTagColour_true_iff cols tag colour, ?_, getTagColour_none cols tag colour⟩
  intro pre sc post hc hpre hsc
  subst hc
  exact getTagColour_split pre sc post tag colour hpre hsc

/-- C2 at a concrete table: tag 7 is bound twice and the first binding wins;
tag 9 is not bound and the colour of the caller stays. -/
theorem getTagColour_first_match_witness :
    getTagColour exampleTable 7 { r := 0, g := 0, b := 0, a := 0 } =
      (true, { r := 10, g := 20, b := 30, a := 255 }) ∧
    getTagColour exampleTable 9 { r := 5, g := 6, b := 7, a := 8 } =
      (false, { r := 5, g := 6, b := 7, a := 8 }) :=
  ⟨(getTagColour_first_match exampleTable 7 { r := 0, g := 0, b := 0, a := 0 }).2.1
      [{ tag := 3, colour := { r := 1, g := 2, b := 3, a := 255 } }]
      { tag := 7, colour := { r := 10, g := 20, b := 30, a := 255 } }
      [{ tag := 7, colour := { r := 40, g := 50, b := 60, a := 255 } }]
      rfl (by decide) rfl,
   (getTagColour_first_match exampleTable 9 { r := 5, g := 6, b := 7, a := 8 }).2.2
      (by decide)⟩

/-- C3: `processACSScripts` replaces the table: the result does not depend on
the table before the call (it is the result from the empty table), and a null
entry or an entry of size zero leaves the empty table. -/
theorem processACSScripts_full_replace (fuel : Nat) (entry : Option (List Char))
    (prior other : List sector_colour_t) :
    processACSScripts fuel entry prior = processACSScripts fuel entry other ∧
    processACSScripts fuel entry prior = processACSScripts fuel entry [] ∧
    processACSScripts fuel none prior = some [] ∧
    processACSScripts fuel (some []) prior = some [] := by
  refine ⟨rfl, rfl, rfl, rfl⟩

/-! ### Line specials -/

theorem updateLine_lines_getElem (m : SLADEMap) (i : Nat) (f : MapLine → MapLine) (j : Nat) :
    (m.updateLine i f).lines[j]? = if j = i then (m.lines[j]?).map f else m.lines[j]? := by
  unfold SLADEMap.updateLine
  cases h : m.lines[i]? with
  | none =>
    by_cases hji : j = i
    · subst hji; simp [h]
    · simp [hji]
  | some l =>
    by_cases hji : j = i
    · subst hji
      have hlt : j < m.lines.length := by
        by_contra hge
        rw [List.getElem?_eq_none (by omega)] at h
        cases h
      simp [h, hlt]
    · have hij : i ≠ j := fun e => hji e.symm
      simp [hji, List.getElem?_set_ne hij]

theorem updateLine_sectors (m : SLADEMap) (i : Nat) (f : MapLine → MapLine) :
    (m.updateLine i f).sectors = m.sectors ∧ (m.updateLine i f).things = m.things := by
  unfold SLADEMap.updateLine
  cases m.lines[i]? <;> simp

theorem setTranslucent_getElem (alpha : ℚ) (type : String) (tagged : List Nat) (m : SLADEMap)
    (j : Nat) :
    (setTranslucent alpha type tagged m).lines[j]? =
      if j ∈ tagged then (m.lines[j]?).map (MapLine.setTranslucency alpha type)
      else m.lines[j]? := by
  induction tagged generalizing m with
  | nil => simp [setTranslucent]
  | cons l rest ih =>
    simp only [setTranslucent, ih, updateLine_lines_getElem, List.mem_cons]
    by_cases h1 : j ∈ rest <;> by_cases h2 : j = l <;>
      cases hl : m.lines[j]? <;> simp [h1, h2, hl, MapLine.setTranslucency]

theorem setTranslucent_frame (alpha : ℚ) (type : String) (tagged : List Nat) (m : SLADEMap) :
    (setTranslucent alpha type tagged m).sectors = m.sectors ∧
    (setTranslucent alpha type tagged m).things = m.things := by
  induction tagged generalizing m with
  | nil => simp [setTranslucent]
  | cons l rest ih =>
    simp only [setTranslucent]
    rw [(ih _).1, (ih _).2]
    exact updateLine_sectors m l _

theorem mem_getLinesById (m : SLADEMap) (id : Int) (j : Nat) :
    j ∈ m.getLinesById id ↔ ∃ l, m.lines[j]? = some l ∧ l.id = id := by
  unfold SLADEMap.getLinesById
  rw [List.mem_filter, List.mem_range]
  constructor
  · rintro ⟨hlt, h⟩
    cases hl : m.lines[j]? with
    | none => simp [hl] at h
    | some l => simp [hl] at h; exact ⟨l, rfl, h⟩
  · rintro ⟨l, hl, hid⟩
    refine ⟨?_, by simp [hl, hid]⟩
    by_contra hge
    rw [List.getElem?_eq_none (by omega)] at hl
    cases hl

/-- What `processZDoomLineSpecial` does for special 208 with a positive first
argument: the lines with that id, and no other, get the two properties. -/
theorem tagged_lines_getElem (m : SLADEMap) (i : Nat) (ln : MapLine)
    (h : m.lines[i]? = some ln) (hs : ln.special = 208) (hpos : 0 < ln.arg0) (j : Nat) :
    (processZDoomLineSpecial m i).lines[j]? =
      (m.lines[j]?).map fun l =>
        if l.id = ln.arg0 then
          l.setTranslucency ((ln.arg1 : ℚ) / 255) (if ln.arg2 = 0 then "translucent" else "add")
        else l := by
  have e : processZDoomLineSpecial m i =
      setTranslucent ((ln.arg1 : ℚ) / 255) (if ln.arg2 = 0 then "translucent" else "add")
        (m.getLinesById ln.arg0) m := by
    simp [processZDoomLineSpecial, h, hs, hpos]
  rw [e, setTranslucent_getElem]
  cases hj : m.lines[j]? with
  | none =>
    have : j ∉ m.getLinesById ln.arg0 := by
      rw [mem_getLinesById]; rintro ⟨l, hl, _⟩; rw [hj] at hl; cases hl
    simp [this]
  | some l =>
    by_cases hid : l.id = ln.arg0
    · have : j ∈ m.getLinesById ln.arg0 := (mem_getLinesById m _ j).2 ⟨l, hj, hid⟩
      simp [this, hid]
    · have : j ∉ m.getLinesById ln.arg0 := by
        rw [mem_getLinesById]; rintro ⟨l2, hl, hid2⟩; rw [hj] at hl; cases hl; exact hid hid2
      simp [this, hid]

/-- C7: for a line with special 208 and arg0 = 0 the special sets alpha to
arg1 / 255 and the render style to "translucent" when arg2 = 0 and to "add"
otherwise, on that line; every other line, every sector and every thing of the
map is as before. -/
theorem processZDoomLineSpecial_untagged (m : SLADEMap) (i : Nat) (ln : MapLine)
    (h : m.lines[i]? = some ln) (hs : ln.special = 208) (h0 : ln.arg0 = 0) :
    (processZDoomLineSpecial m i).lines[i]? =
      some { ln with alpha := (ln.arg1 : ℚ) / 255,
                     renderstyle := if ln.arg2 = 0 then "translucent" else "add" } ∧
    (∀ j : Nat, j ≠ i → (processZDoomLineSpecial m i).lines[j]? = m.lines[j]?) ∧
    (processZDoomLineSpecial m i).sectors = m.sectors ∧
    (processZDoomLineSpecial m i).things = m.things := by
  have e : processZDoomLineSpecial m i =
      setTranslucent ((ln.arg1 : ℚ) / 255) (if ln.arg2 = 0 then "translucent" else "add")
        [i] m := by
    simp [processZDoomLineSpecial, h, hs, h0]
  rw [e]
  refine ⟨?_, ?_, setTranslucent_frame _ _ _ _⟩
  · rw [setTranslucent_getElem]
    simp [h, MapLine.setTranslucency]
  · intro j hj
    rw [setTranslucent_getElem]
    simp [hj]

/-- C7 on the map `untaggedMap`: arguments [0, 128, 0] give alpha 128/255 and
the style "translucent" on line 0, and line 1 is as before. -/
theorem processZDoomLineSpecial_untagged_witness :
    (processZDoomLineSpecial untaggedMap 0).lines[0]? =
      some { untaggedLine with alpha := 128 / 255, renderstyle := "translucent" } ∧
    (processZDoomLineSpecial untaggedMap 0).lines[1]? = some plainLine := by
  have h := processZDoomLineSpecial_untagged untaggedMap 0 untaggedLine rfl rfl rfl
  refine ⟨?_, h.2.1 1 (by decide)⟩
  rw [h.1]
  simp [untaggedLine, plainLine]

/-- C8, amended: for a line with special 208 and arg0 = k > 0 the special sets
alpha to arg1 / 255 and the render style chosen by arg2 on every line of the
map whose id is k, the line itself among them when its own id is k, and every
line whose id is not k, every sector and every thing is as before. -/
theorem processZDoomLineSpecial_tagged (m : SLADEMap) (i : Nat) (ln : MapLine) (k : Int)
    (h : m.lines[i]? = some ln) (hs : ln.special = 208) (hk : ln.arg0 = k) (hpos : 0 < k) :
    (∀ (j : Nat) (l : MapLine), m.lines[j]? = some l → l.id = k →
      (processZDoomLineSpecial m i).lines[j]? =
        some { l with alpha := (ln.arg1 : ℚ) / 255,
                      renderstyle := if ln.arg2 = 0 then "translucent" else "add" }) ∧
    (∀ (j : Nat) (l : MapLine), m.lines[j]? = some l → l.id ≠ k →
      (processZDoomLineSpecial m i).lines[j]? = some l) ∧
    (processZDoomLineSpecial m i).lines.length = m.lines.length ∧
    (processZDoomLineSpecial m i).sectors = m.sectors ∧
    (processZDoomLineSpecial m i).things = m.things := by
  subst hk
  have g := tagged_lines_getElem m i ln h hs hpos
  refine ⟨?_, ?_, ?_, ?_⟩
  · intro j l hj hid
    rw [g, hj]
    simp [hid, MapLine.setTranslucency]
  · intro j l hj hid
    rw [g, hj]
    simp [hid]
  · apply Nat.le_antisymm
    · by_contra hlt
      have h1 := g m.lines.length
      rw [List.getElem?_eq_none (Nat.le_refl _)] at h1
      rw [List.getElem?_eq_getElem (by omega)] at h1
      simp at h1
    · by_contra hlt
      have h1 := g (processZDoomLineSpecial m i).lines.length
      rw [List.getElem?_eq_none (Nat.le_refl _)] at h1
      rw [List.getElem?_eq_getElem (by omega)] at h1
      simp at h1
  · have e : processZDoomLineSpecial m i =
        setTranslucent ((ln.arg1 : ℚ) / 255) (if ln.arg2 = 0 then "translucent" else "add")
          (m.getLinesById ln.arg0) m := by
      simp [processZDoomLineSpecial, h, hs, hpos]
    rw [e]
    exact setTranslucent_frame _ _ _ _

/-- C8 on the map `taggedMap`: arguments [5, 255, 1] on a line of id 5 with
three other lines of id 5 give alpha 255/255 and the style "add" on all four,
and the line of id 9 is as before. -/
theorem processZDoomLineSpecial_tagged_witness :
    (processZDoomLineSpecial taggedMap 0).lines[0]? =
      some { taggedLine with alpha := 255 / 255, renderstyle := "add" } ∧
    (processZDoomLineSpecial taggedMap 0).lines[1]? =
      some { plainLine with id := 5, alpha := 255 / 255, renderstyle := "add" } ∧
    (processZDoomLineSpecial taggedMap 0).lines[2]? =
      some { plainLine with id := 5, alpha := 255 / 255, renderstyle := "add" } ∧
    (processZDoomLineSpecial taggedMap 0).lines[3]? =
      some { plainLine with id := 5, alpha := 255 / 255, renderstyle := "add" } ∧
    (processZDoomLineSpecial taggedMap 0).lines[4]? = some { plainLine with id := 9 } := by
  have h := processZDoomLineSpecial_tagged taggedMap 0 taggedLine 5 rfl rfl rfl (by decide)
  refine ⟨?_, ?_, ?_, ?_, h.2.1 4 _ rfl (by decide)⟩
  · rw [h.1 0 _ rfl rfl]; simp [taggedMap, taggedLine, plainLine]
  · rw [h.1 1 _ rfl rfl]; simp [taggedMap, taggedLine, plainLine]
  · rw [h.1 2 _ rfl rfl]; simp [taggedMap, taggedLine, plainLine]
  · rw [h.1 3 _ rfl rfl]; simp [taggedMap, taggedLine, plainLine]

/-- C8 as stated fails on the map `strayMap`: line 0 has special 208 and
arguments [5, 255, 1] but its own id is 0, and the special leaves it as it
was, with alpha 0 and no render style, while the claim wants alpha 255/255 and
the style "add" on it. -/
theorem translucent_skips_own_line :
    strayMap.lines[0]? = some strayLine ∧ strayLine.special = 208 ∧ strayLine.arg0 = 5 ∧
    (processZDoomLineSpecial strayMap 0).lines[0]? = some strayLine ∧
    strayLine.alpha ≠ (strayLine.arg1 : ℚ) / 255 ∧ strayLine.renderstyle ≠ "add" := by
  refine ⟨rfl, rfl, rfl, ?_, ?_, by decide⟩
  · rw [tagged_lines_getElem strayMap 0 strayLine rfl rfl (by decide)]
    simp [strayMap, strayLine, plainLine]
  · simp [strayLine, plainLine]

/-- C9: for a line whose special is not 208 (0 or any other code), with any
arguments, processing the line special leaves the whole map as it was, every
line, sector and thing; so does the entry point `processLineSpecial`, which
leaves the colour table as it was too. -/
theorem processZDoomLineSpecial_other_special (m : SLADEMap) (i : Nat)
    (h : ∀ ln, m.lines[i]? = some ln → ln.special ≠ 208) :
    processZDoomLineSpecial m i = m ∧
    ∀ (E : Env) (cols : List sector_colour_t), processLineSpecial E cols m i = (cols, m) := by
  have e : processZDoomLineSpecial m i = m := by
    unfold processZDoomLineSpecial
    cases hl : m.lines[i]? with
    | none => rfl
    | some ln =>
      have := h ln hl
      simp [this]
  refine ⟨e, ?_⟩
  intro E cols
  unfold processLineSpecial
  rw [e]
  simp

/-- C9 on the map `otherSpecialMap`: the line with special 181 and the line
with special 0 are both processed without any change to the map. -/
theorem processZDoomLineSpecial_other_special_witness :
    processZDoomLineSpecial otherSpecialMap 0 = otherSpecialMap ∧
    processZDoomLineSpecial otherSpecialMap 1 = otherSpecialMap :=
  ⟨(processZDoomLineSpecial_other_special otherSpecialMap 0
      (fun ln hl => by cases hl; decide)).1,
   (processZDoomLineSpecial_other_special otherSpecialMap 1
      (fun ln hl => by cases hl; decide)).1⟩

/-- C10: when the current port is not "zdoom", `processMapSpecials` and
`processLineSpecial` leave the map and the colour table as they were; when it
is "zdoom", `processMapSpecials` leaves the colour table and gives the map
that the slope solver makes of the map obtained by processing the special of
every line in index order. -/
theorem processMapSpecials_port_gate (E : Env) (cols : List sector_colour_t) (m : SLADEMap) :
    (E.currentPort ≠ "zdoom" →
      processMapSpecials E cols m = (cols, m) ∧
      ∀ i, processLineSpecial E cols m i = (cols, m)) ∧
    (E.currentPort = "zdoom" →
      processMapSpecials E cols m =
        (cols, processZDoomSlopes E
          ((List.range m.lines.length).foldl processZDoomLineSpecial m))) := by
  constructor
  · intro h
    simp [processMapSpecials, processLineSpecial, h]
  · intro h
    simp [processMapSpecials, processZDoomMapSpecials, h]

/-- C10 on the map `taggedMap`: under the port "boom" nothing changes, and
under "zdoom" the result is the slope solver after the line specials. -/
theorem processMapSpecials_port_gate_witness :
    processMapSpecials (portEnv "boom") exampleTable taggedMap = (exampleTable, taggedMap) ∧
    processLineSpecial (portEnv "boom") exampleTable taggedMap 0 = (exampleTable, taggedMap) ∧
    processMapSpecials (portEnv "zdoom") exampleTable taggedMap =
      (exampleTable, processZDoomSlopes (portEnv "zdoom")
        ((List.range taggedMap.lines.length).foldl processZDoomLineSpecial taggedMap)) :=
  ⟨((processMapSpecials_port_gate (portEnv "boom") exampleTable taggedMap).1 (by decide)).1,
   ((processMapSpecials_port_gate (portEnv "boom") exampleTable taggedMap).1 (by decide)).2 0,
   (processMapSpecials_port_gate (portEnv "zdoom") exampleTable taggedMap).2 rfl⟩

/-! ### The script scan -/

theorem getToken_mem (tz : Tokenizer) (stop : Token) (h : stop ∉ tz.rest) (hs : stop ≠ []) :
    tz.getToken.1 ≠ stop ∧ stop ∉ tz.getToken.2.rest := by
  unfold Tokenizer.getToken
  cases hr : tz.rest with
  | nil => simp [hr, Ne.symm hs]
  | cons t ts =>
    rw [hr] at h
    simp at h
    simp [h.2]
    exact fun e => h.1 e.symm

theorem skipToBrace_no_brace (n : Nat) (token : Token) (tz : Tokenizer)
    (h1 : token ≠ ['{']) (h2 : ['{'] ∉ tz.rest) : skipToBrace n token tz = none := by
  induction n generalizing token tz with
  | zero => rfl
  | succ k ih =>
    have g := getToken_mem tz ['{'] h2 (by decide)
    simp [skipToBrace, h1, ih _ _ g.1 g.2]

theorem sectorSetColor_rest (tz : Tokenizer) (cols : List sector_colour_t) (stop : Token)
    (h : stop ∉ tz.rest) : stop ∉ (sectorSetColor tz cols).1.rest := by
  have hsub : ∀ t, t ∈ (sectorSetColor tz cols).1.rest → t ∈ tz.rest := by
    intro t ht
    have e : (sectorSetColor tz cols).1.rest =
        (tz.rest.dropWhile (fun t => t != [')'])).drop 1 := by
      unfold sectorSetColor
      simp only [Tokenizer.getTokensUntil]
      split <;> rfl
    rw [e] at ht
    exact (List.dropWhile_sublist _).subset (List.mem_of_mem_drop ht)
  exact fun hmem => h (hsub _ hmem)

theorem scriptBody_no_brace (n : Nat) (token : Token) (tz : Tokenizer)
    (cols : List sector_colour_t) (h1 : token ≠ ['}']) (h2 : ['}'] ∉ tz.rest) :
    scriptBody n token tz cols = none := by
  induction n generalizing token tz cols with
  | zero => rfl
  | succ k ih =>
    unfold scriptBody
    simp only [bne_iff_ne, ne_eq, h1, not_false_eq_true, if_true]
    apply ih
    · split
      · exact (getToken_mem _ ['}'] (sectorSetColor_rest tz cols _ h2) (by decide)).1
      · exact (getToken_mem _ ['}'] h2 (by decide)).1
    · split
      · exact (getToken_mem _ ['}'] (sectorSetColor_rest tz cols _ h2) (by decide)).2
      · exact (getToken_mem _ ['}'] h2 (by decide)).2

theorem processACSScripts_nonempty (fuel : Nat) (data : List Char)
    (prior : List sector_colour_t) (h : data ≠ []) :
    processACSScripts fuel (some data) prior =
      scanLoop fuel fuel (Tokenizer.openMem data).getToken.1
        (Tokenizer.openMem data).getToken.2 [] := by
  simp [processACSScripts, vectorClear, h]

theorem cmpNoCase_script : cmpNoCase "script".toList "script".toList = true := by decide

theorem cmpNoCase_open : cmpNoCase "OPEN".toList "OPEN".toList = true := by decide

theorem readTokens_open_only :
    readTokens [] "script 1 OPEN".toList = ["script".toList, "1".toList, "OPEN".toList] := by
  decide

theorem readTokens_open_body :
    readTokens [] "script 1 OPEN \x7b Sector_SetColor(1, 2, 3, 4);".toList =
      ["script".toList, "1".toList, "OPEN".toList, "\x7b".toList, "Sector_SetColor".toList,
       "(".toList, "1".toList, ",".toList, "2".toList, ",".toList, "3".toList, ",".toList,
       "4".toList, ")".toList, ";".toList] := by
  decide

/-- C6 fails on the code: on the buffer `script 1 OPEN`, which has no opening
brace, and on the buffer `script 1 OPEN { Sector_SetColor(1, 2, 3, 4);`, which
has no closing brace, the scan has not returned after any number of rounds:
the loop that looks for the brace reads the empty token of the end of the
stream for ever. -/
theorem processACSScripts_unterminated_diverges (fuel : Nat) (prior : List sector_colour_t) :
    processACSScripts fuel (some "script 1 OPEN".toList) prior = none ∧
    processACSScripts fuel (some "script 1 OPEN \x7b Sector_SetColor(1, 2, 3, 4);".toList) prior
      = none := by
  constructor
  · rw [processACSScripts_nonempty _ _ _ (by decide)]
    simp only [Tokenizer.openMem, readTokens_open_only, Tokenizer.getToken]
    cases fuel with
    | zero => rfl
    | succ k =>
      unfold scanLoop
      simp only [Tokenizer.isAtEnd, Tokenizer.skipToken, Tokenizer.getToken, cmpNoCase_script,
        cmpNoCase_open, List.isEmpty_cons, Bool.not_false, if_true]
      rw [skipToBrace_no_brace _ _ _ (by decide) (by simp)]
  · rw [processACSScripts_nonempty _ _ _ (by decide)]
    simp only [Tokenizer.openMem, readTokens_open_body, Tokenizer.getToken]
    cases fuel with
    | zero => rfl
    | succ k =>
      unfold scanLoop
      simp only [Tokenizer.isAtEnd, Tokenizer.skipToken, Tokenizer.getToken, cmpNoCase_script,
        cmpNoCase_open, List.isEmpty_cons, Bool.not_false, if_true]
      cases k with
      | zero => rfl
      | succ j =>
        have e : skipToBrace (j + 1 + 1) "OPEN".toList
            { rest := ["\x7b".toList, "Sector_SetColor".toList,
               "(".toList, "1".toList, ",".toList, "2".toList, ",".toList, "3".toList,
               ",".toList, "4".toList, ")".toList, ";".toList] } =
            some ("\x7b".toList, { rest := ["Sector_SetColor".toList,
               "(".toList, "1".toList, ",".toList, "2".toList, ",".toList, "3".toList,
               ",".toList, "4".toList, ")".toList, ";".toList] }) := by
          simp [skipToBrace, Tokenizer.getToken]
        rw [e]
        simp only [Tokenizer.getToken]
        rw [scriptBody_no_brace _ _ _ _ (by decide) (by decide)]

/-! ### The parameter loop -/

theorem slotsFilled_step (p : Params) (acc : List Int) (val : Int) (h : SlotsFilled p acc) :
    SlotsFilled (assignParam p val)
      (acc ++ if 0 ≤ toInt32 val then [toInt32 val] else []) := by
  unfold SlotsFilled at h
  rcases h with ⟨ha, h1, h2, h3, h4⟩ | ⟨t, ha, ht, h1, h2, h3, h4⟩ |
    ⟨t, r, ha, ht, hr, h1, h2, h3, h4⟩ | ⟨t, r, g, ha, ht, hr, hg, h1, h2, h3, h4⟩ |
    ⟨t, r, g, b, rest, ha, ht, hr, hg, hb, h1, h2, h3, h4⟩
  · subst ha
    have e : assignParam p val = { p with tag := toInt32 val } := by
      unfold assignParam; rw [if_pos h1]
    rw [e]
    unfold SlotsFilled
    by_cases hv : 0 ≤ toInt32 val
    · right; left
      exact ⟨toInt32 val, by simp [hv], hv, rfl, by simp [h2], h3, h4⟩
    · left
      exact ⟨by simp [hv], by simpa using hv, h2, h3, h4⟩
  · subst ha
    have n1 : ¬ p.tag < 0 := by omega
    have e : assignParam p val = { p with r := toInt32 val } := by
      unfold assignParam; rw [if_neg n1, if_pos h2]
    rw [e]
    unfold SlotsFilled
    by_cases hv : 0 ≤ toInt32 val
    · right; right; left
      exact ⟨t, toInt32 val, by simp [hv], ht, hv, h1, rfl, by simp [h3], h4⟩
    · right; left
      exact ⟨t, by simp [hv], ht, h1, by simpa using hv, h3, h4⟩
  · subst ha
    have n1 : ¬ p.tag < 0 := by omega
    have n2 : ¬ p.r < 0 := by omega
    have e : assignParam p val = { p with g := toInt32 val } := by
      unfold assignParam; rw [if_neg n1, if_neg n2, if_pos h3]
    rw [e]
    unfold SlotsFilled
    by_cases hv : 0 ≤ toInt32 val
    · right; right; right; left
      exact ⟨t, r, toInt32 val, by simp [hv], ht, hr, hv, h1, h2, rfl, by simp [h4]⟩
    · right; right; left
      exact ⟨t, r, by simp [hv], ht, hr, h1, h2, by simpa using hv, h4⟩
  · subst ha
    have n1 : ¬ p.tag < 0 := by omega
    have n2 : ¬ p.r < 0 := by omega
    have n3 : ¬ p.g < 0 := by omega
    have e : assignParam p val = { p with b := toInt32 val } := by
      unfold assignParam; rw [if_neg n1, if_neg n2, if_neg n3, if_pos h4]
    rw [e]
    unfold SlotsFilled
    by_cases hv : 0 ≤ toInt32 val
    · right; right; right; right
      exact ⟨t, r, g, toInt32 val, [], by simp [hv], ht, hr, hg, hv, h1, h2, h3, rfl⟩
    · right; right; right; left
      exact ⟨t, r, g, by simp [hv], ht, hr, hg, h1, h2, h3, by simpa using hv⟩
  · subst ha
    have n1 : ¬ p.tag < 0 := by omega
    have n2 : ¬ p.r < 0 := by omega
    have n3 : ¬ p.g < 0 := by omega
    have n4 : ¬ p.b < 0 := by omega
    have e : assignParam p val = p := by
      unfold assignParam; rw [if_neg n1, if_neg n2, if_neg n3, if_neg n4]
    rw [e]
    unfold SlotsFilled
    right; right; right; right
    exact ⟨t, r, g, b, rest ++ (if 0 ≤ toInt32 val then [toInt32 val] else []), by simp,
      ht, hr, hg, hb, h1, h2, h3, h4⟩

theorem slotsFilled_parse (tokens : List Token) (p : Params) (acc : List Int)
    (h : SlotsFilled p acc) :
    SlotsFilled (parseParameters tokens p) (acc ++ acceptedValues tokens) := by
  induction tokens generalizing p acc with
  | nil => simpa [parseParameters, acceptedValues, numericValues] using h
  | cons t ts ih =>
    unfold parseParameters
    cases ht : ToLong t with
    | none =>
      have e : acceptedValues (t :: ts) = acceptedValues ts := by
        simp [acceptedValues, numericValues, List.filterMap_cons, ht]
      rw [e]
      exact ih p acc h
    | some val =>
      have e : acceptedValues (t :: ts) =
          (if 0 ≤ toInt32 val then [toInt32 val] else []) ++ acceptedValues ts := by
        simp only [acceptedValues, numericValues, List.filterMap_cons, ht, List.map_cons,
          List.filter_cons]
        by_cases hv : 0 ≤ toInt32 val <;> simp [hv]
      rw [e, ← List.append_assoc]
      exact ih _ _ (slotsFilled_step p acc val h)

theorem slotsFilled_unset : SlotsFilled Params.unset [] := by
  left
  simp [Params.unset]

theorem parseParameters_slots (tokens : List Token) :
    SlotsFilled (parseParameters tokens Params.unset) (acceptedValues tokens) := by
  simpa using slotsFilled_parse tokens Params.unset [] slotsFilled_unset

/-- C4, amended: the parameter loop assigns in positional order over the tokens
that parse as integers with a non-negative `int` value: the first such value
is the tag, the second red, the third green, the fourth blue; tokens that do
not parse are skipped, and a literal with a negative value does not advance
the position. When no numeric token is negative these are all the numeric
tokens. -/
theorem parseParameters_positional (tokens : List Token) :
    (∀ v : Int, (acceptedValues tokens)[0]? = some v →
      (parseParameters tokens Params.unset).tag = v) ∧
    (∀ v : Int, (acceptedValues tokens)[1]? = some v →
      (parseParameters tokens Params.unset).r = v) ∧
    (∀ v : Int, (acceptedValues tokens)[2]? = some v →
      (parseParameters tokens Params.unset).g = v) ∧
    (∀ v : Int, (acceptedValues tokens)[3]? = some v →
      (parseParameters tokens Params.unset).b = v) ∧
    ((∀ v ∈ numericValues tokens, 0 ≤ v) → acceptedValues tokens = numericValues tokens) := by
  have h := parseParameters_slots tokens
  unfold SlotsFilled at h
  refine ⟨?_, ?_, ?_, ?_, ?_⟩
  · intro v hv
    rcases h with ⟨ha, _⟩ | ⟨t, ha, _, h1, _⟩ | ⟨t, r, ha, _, _, h1, _⟩ |
      ⟨t, r, g, ha, _, _, _, h1, _⟩ | ⟨t, r, g, b, rest, ha, _, _, _, _, h1, _⟩ <;>
      rw [ha] at hv <;> simp at hv <;> rw [h1, hv]
  · intro v hv
    rcases h with ⟨ha, _⟩ | ⟨t, ha, _⟩ | ⟨t, r, ha, _, _, _, h2, _⟩ |
      ⟨t, r, g, ha, _, _, _, _, h2, _⟩ | ⟨t, r, g, b, rest, ha, _, _, _, _, _, h2, _⟩ <;>
      rw [ha] at hv <;> simp at hv <;> rw [h2, hv]
  · intro v hv
    rcases h with ⟨ha, _⟩ | ⟨t, ha, _⟩ | ⟨t, r, ha, _⟩ |
      ⟨t, r, g, ha, _, _, _, _, _, h3, _⟩ | ⟨t, r, g, b, rest, ha, _, _, _, _, _, _, h3, _⟩ <;>
      rw [ha] at hv <;> simp at hv <;> rw [h3, hv]
  · intro v hv
    rcases h with ⟨ha, _⟩ | ⟨t, ha, _⟩ | ⟨t, r, ha, _⟩ |
      ⟨t, r, g, ha, _⟩ | ⟨t, r, g, b, rest, ha, _, _, _, _, _, _, _, h4⟩ <;>
      rw [ha] at hv <;> simp at hv
    rw [h4, hv]
  · intro hall
    unfold acceptedValues
    rw [List.filter_eq_self]
    intro v hv
    simpa using hall v hv

/-- C4 on the parameter list `(12, 255, 0, 0`: tag 12, red 255, green 0,
blue 0. -/
theorem parseParameters_positional_witness :
    (parseParameters redParams Params.unset).tag = 12 ∧
    (parseParameters redParams Params.unset).r = 255 ∧
    (parseParameters redParams Params.unset).g = 0 ∧
    (parseParameters redParams Params.unset).b = 0 :=
  ⟨(parseParameters_positional redParams).1 12 (by decide),
   (parseParameters_positional redParams).2.1 255 (by decide),
   (parseParameters_positional redParams).2.2.1 0 (by decide),
   (parseParameters_positional redParams).2.2.2.1 0 (by decide)⟩

/-- C4 as stated fails on the parameter list `(-5, 1, 2, 3`: the four numeric
literals are -5, 1, 2, 3, and the loop ends with tag 1, red 2, green 3 and
blue unset, not with tag -5, red 1, green 2, blue 3: after the negative
literal the position has not advanced. -/
theorem parseParameters_negative_literal :
    negativeParams.filterMap ToLong = [-5, 1, 2, 3] ∧
    parseParameters negativeParams Params.unset = { tag := 1, r := 2, g := 3, b := -1 } := by
  decide

/-! ### The Sector_SetColor block -/

theorem sectorSetColor_table (tz : Tokenizer) (cols : List sector_colour_t) :
    (sectorSetColor tz cols).2 =
      if (parseParameters (tz.getTokensUntil [')']).1 Params.unset).b < 0 then cols
      else cols ++ [{ tag := (parseParameters (tz.getTokensUntil [')']).1 Params.unset).tag,
                      colour := rgba_t.set
                        (parseParameters (tz.getTokensUntil [')']).1 Params.unset).r
                        (parseParameters (tz.getTokensUntil [')']).1 Params.unset).g
                        (parseParameters (tz.getTokensUntil [')']).1 Params.unset).b 255 }] := by
  unfold sectorSetColor
  simp only []
  split <;> rfl

theorem numericValues_length (tokens : List Token) :
    (acceptedValues tokens).length ≤ (tokens.filterMap ToLong).length := by
  unfold acceptedValues numericValues
  exact (List.length_filter_le _ _).trans (by simp)

theorem sectorSetColor_short (tz : Tokenizer) (cols : List sector_colour_t)
    (h : (acceptedValues (tz.getTokensUntil [')']).1).length < 4) :
    (sectorSetColor tz cols).2 = cols := by
  rw [sectorSetColor_table]
  have hs := parseParameters_slots (tz.getTokensUntil [')']).1
  unfold SlotsFilled at hs
  have hb : (parseParameters (tz.getTokensUntil [')']).1 Params.unset).b < 0 := by
    rcases hs with ⟨_, _, _, _, h4⟩ | ⟨t, _, _, _, _, _, h4⟩ | ⟨t, r, _, _, _, _, _, _, h4⟩ |
      ⟨t, r, g, _, _, _, _, _, _, _, h4⟩ | ⟨t, r, g, b, rest, ha, _⟩
    · omega
    · omega
    · omega
    · exact h4
    · rw [ha] at h
      simp only [List.length_cons] at h
      omega
  rw [if_pos hb]

theorem sectorSetColor_four (tz : Tokenizer) (cols : List sector_colour_t)
    (t r g b : Int) (rest : List Int)
    (hacc : acceptedValues (tz.getTokensUntil [')']).1 = t :: r :: g :: b :: rest) :
    (sectorSetColor tz cols).2 = cols ++ [{ tag := t, colour := rgba_t.set r g b 255 }] := by
  rw [sectorSetColor_table]
  have hs := parseParameters_slots (tz.getTokensUntil [')']).1
  unfold SlotsFilled at hs
  rw [hacc] at hs
  rcases hs with ⟨ha, _⟩ | ⟨_, ha, _⟩ | ⟨_, _, ha, _⟩ | ⟨_, _, _, ha, _⟩ |
    ⟨t2, r2, g2, b2, rest2, ha, _, _, _, hb, h1, h2, h3, h4⟩
  · simp at ha
  · simp at ha
  · simp at ha
  · simp at ha
  · simp only [List.cons.injEq] at ha
    obtain ⟨e1, e2, e3, e4, _⟩ := ha
    subst e1 e2 e3 e4
    rw [if_neg (by omega), h1, h2, h3, h4]

theorem sectorSetColor_tokenizer (tz : Tokenizer) (cols : List sector_colour_t) :
    (sectorSetColor tz cols).1 =
      { rest := (tz.rest.dropWhile (fun t => t != [')'])).drop 1 } := by
  unfold sectorSetColor
  simp only [Tokenizer.getTokensUntil]
  split <;> rfl

/-- C5, amended: at a `Sector_SetColor` call a binding is appended exactly when
at least four tokens of the parameter list parse as numeric literals with a
non-negative `int` value, and it holds the first four such values; with fewer
than four of them, so also with fewer than four numeric tokens of any sign,
nothing is appended and the table is as before. -/
theorem sectorSetColor_appends (tz : Tokenizer) (cols : List sector_colour_t) :
    (∀ (t r g b : Int) (rest : List Int),
      acceptedValues (tz.getTokensUntil [')']).1 = t :: r :: g :: b :: rest →
      (sectorSetColor tz cols).2 = cols ++ [{ tag := t, colour := rgba_t.set r g b 255 }]) ∧
    ((acceptedValues (tz.getTokensUntil [')']).1).length < 4 →
      (sectorSetColor tz cols).2 = cols) ∧
    (((tz.getTokensUntil [')']).1.filterMap ToLong).length < 4 →
      (sectorSetColor tz cols).2 = cols) := by
  refine ⟨sectorSetColor_four tz cols, sectorSetColor_short tz cols, ?_⟩
  intro h
  exact sectorSetColor_short tz cols (Nat.lt_of_le_of_lt (numericValues_length _) h)

/-- C5 on two calls: `(12, 255, 0, 0)` appends the binding of tag 12 with the
colour (255, 0, 0), and `(12, 255, 0)` appends nothing. -/
theorem sectorSetColor_appends_witness :
    (sectorSetColor redCall exampleTable).2 =
      exampleTable ++ [{ tag := 12, colour := { r := 255, g := 0, b := 0, a := 255 } }] ∧
    (sectorSetColor shortCall exampleTable).2 = exampleTable :=
  ⟨(sectorSetColor_appends redCall exampleTable).1 12 255 0 0 [] (by decide),
   (sectorSetColor_appends shortCall exampleTable).2.1 (by decide)⟩

/-- C5 as stated fails on the call `(-1, 255, 0, 0)`: four tokens of the
parameter list parse as numeric literals, and no binding is appended. -/
theorem sectorSetColor_four_numbers_dropped :
    ((negativeCall.getTokensUntil [')']).1.filterMap ToLong).length = 4 ∧
    (sectorSetColor negativeCall []).2 = [] := by
  decide

/-! ### Decimal literals -/

theorem digitChar_facts :
    ∀ d, d < 10 → digitVal (digitChar d) = some d ∧ isWhitespace (digitChar d) = false ∧
      specialCharacters.contains (digitChar d) = false ∧ digitChar d ≠ '-' ∧
      digitChar d ≠ '+' := by
  decide

theorem decimal_digits (n : Nat) : ∃ ds : List Nat, ds ≠ [] ∧ (∀ d ∈ ds, d < 10) ∧
    decimal n = ds.map digitChar ∧ Nat.ofDigits 10 ds.reverse = n := by
  by_cases h : n = 0
  · refine ⟨[0], by simp, by simp, ?_, by simp [h]⟩
    simp [decimal, h, digitChar]
  · refine ⟨(Nat.digits 10 n).reverse, ?_, ?_, by simp [decimal, h], ?_⟩
    · simp [Nat.digits_ne_nil_iff_ne_zero, h]
    · intro d hd
      exact Nat.digits_lt_base (by decide) (List.mem_reverse.1 hd)
    · simp [Nat.ofDigits_digits]

theorem parseDigits_map (ds : List Nat) (h : ∀ d ∈ ds, d < 10) (acc : Nat) :
    parseDigits (ds.map digitChar) acc = some (Nat.ofDigits 10 ds.reverse + acc * 10 ^ ds.length) := by
  induction ds generalizing acc with
  | nil => simp [parseDigits]
  | cons d rest ih =>
    have hd := (digitChar_facts d (h d (by simp))).1
    have hrest : ∀ x ∈ rest, x < 10 := fun x hx => h x (by simp [hx])
    simp only [List.map_cons, parseDigits, hd, ih hrest, List.reverse_cons, List.length_cons]
    congr 1
    rw [Nat.ofDigits_append, Nat.ofDigits_singleton, List.length_reverse]
    ring

theorem ToLong_decimal (n : Nat) (h : n < 2 ^ 63) : ToLong (decimal n) = some (n : Int) := by
  obtain ⟨ds, hne, hlt, hdec, hval⟩ := decimal_digits n
  have hp := parseDigits_map ds hlt 0
  rw [← hdec, hval] at hp
  simp only [Nat.zero_mul, Nat.add_zero] at hp
  cases ds with
  | nil => exact absurd rfl hne
  | cons d rest =>
    have hd := digitChar_facts d (hlt d (by simp))
    rw [hdec] at hp ⊢
    simp only [List.map_cons] at hp ⊢
    unfold ToLong
    simp only [hd.2.2.2.1, hd.2.2.2.2, if_false, hp]
    have h63 : n < 2 ^ (LONG_BITS - 1) := h
    simp [h63]

theorem decimal_plain (n : Nat) : ∀ c ∈ decimal n, PlainChar c := by
  obtain ⟨ds, _, hlt, hdec, _⟩ := decimal_digits n
  intro c hc
  rw [hdec, List.mem_map] at hc
  obtain ⟨d, hd, rfl⟩ := hc
  exact ⟨(digitChar_facts d (hlt d hd)).2.1, (digitChar_facts d (hlt d hd)).2.2.1⟩

theorem decimal_ne_nil (n : Nat) : decimal n ≠ [] := by
  obtain ⟨ds, hne, _, hdec, _⟩ := decimal_digits n
  rw [hdec]
  simpa using hne

theorem decimal_bne_paren (n : Nat) : (decimal n != [')']) = true := by
  have hp := decimal_plain n
  simp only [bne_iff_ne, ne_eq]
  intro e
  rw [e] at hp
  have := (hp ')' (by simp)).2
  revert this
  decide

theorem toInt32_small (n : Nat) (h : n < 2 ^ 31) : toInt32 (n : Int) = (n : Int) := by
  unfold toInt32
  have h2 : ((n : Int) + 2 ^ 31) % 2 ^ 32 = (n : Int) + 2 ^ 31 := by
    apply Int.emod_eq_of_lt <;> omega
  omega

theorem toUInt8_small (n : Nat) (h : n ≤ 255) : toUInt8 (n : Int) = n := by
  unfold toUInt8
  have h2 : (n : Int) % 256 = (n : Int) := by
    apply Int.emod_eq_of_lt <;> omega
  rw [h2]
  simp

/-! ### Reading the tokens of a buffer -/

theorem readTokens_plain (w : List Char) (h : ∀ c ∈ w, PlainChar c) (cur rest : List Char) :
    readTokens cur (w ++ rest) = readTokens (cur ++ w) rest := by
  induction w generalizing cur with
  | nil => simp
  | cons c cs ih =>
    have hc := h c (by simp)
    have hcs : ∀ x ∈ cs, PlainChar x := fun x hx => h x (by simp [hx])
    rw [List.cons_append, readTokens]
    simp only [hc.1, hc.2, Bool.false_eq_true, if_false]
    rw [ih hcs]
    simp

theorem readTokens_word_space (w : List Char) (h : ∀ c ∈ w, PlainChar c) (hne : w ≠ [])
    (rest : List Char) : readTokens [] (w ++ ' ' :: rest) = w :: readTokens [] rest := by
  rw [readTokens_plain w h]
  simp [readTokens, isWhitespace, flushToken, hne]

theorem readTokens_word_special (w : List Char) (h : ∀ c ∈ w, PlainChar c) (hne : w ≠ [])
    (c : Char) (hw : isWhitespace c = false) (hc : specialCharacters.contains c = true)
    (rest : List Char) :
    readTokens [] (w ++ c :: rest) = w :: [c] :: readTokens [] rest := by
  rw [readTokens_plain w h]
  simp only [List.nil_append, readTokens, hw, hc, Bool.false_eq_true, if_false, if_true]
  simp [flushToken, hne]

theorem readTokens_space (rest : List Char) :
    readTokens [] (' ' :: rest) = readTokens [] rest := by
  simp [readTokens, isWhitespace, flushToken]

theorem readTokens_special (c : Char) (hw : isWhitespace c = false)
    (hc : specialCharacters.contains c = true) (rest : List Char) :
    readTokens [] (c :: rest) = [c] :: readTokens [] rest := by
  simp only [readTokens, hw, hc, Bool.false_eq_true, if_false, if_true]
  simp [flushToken]

theorem scriptBuffer_tokens (N t r g b : Nat) :
    readTokens [] (scriptBuffer N t r g b) =
      ["script".toList, decimal N, "OPEN".toList, "\x7b".toList, "Sector_SetColor".toList,
       "(".toList, decimal t, ",".toList, decimal r, ",".toList, decimal g, ",".toList,
       decimal b, ")".toList, ";".toList, "\x7d".toList] := by
  have e : scriptBuffer N t r g b =
      "script".toList ++ ' ' :: (decimal N ++ ' ' :: ("OPEN".toList ++ ' ' :: '{' :: ' ' ::
        ("Sector_SetColor".toList ++ '(' :: (decimal t ++ ',' :: ' ' :: (decimal r ++ ',' ::
          ' ' :: (decimal g ++ ',' :: ' ' :: (decimal b ++ ')' :: ';' :: ' ' :: '}' ::
            [] ))))))) := by
    simp [scriptBuffer]
  rw [e]
  rw [readTokens_word_space _ (by decide) (by decide)]
  rw [readTokens_word_space _ (decimal_plain N) (decimal_ne_nil N)]
  rw [readTokens_word_space _ (by decide) (by decide)]
  rw [readTokens_special _ (by decide) (by decide), readTokens_space]
  rw [readTokens_word_special _ (by decide) (by decide) _ (by decide) (by decide)]
  rw [readTokens_word_special _ (decimal_plain t) (decimal_ne_nil t) _ (by decide) (by decide),
    readTokens_space]
  rw [readTokens_word_special _ (decimal_plain r) (decimal_ne_nil r) _ (by decide) (by decide),
    readTokens_space]
  rw [readTokens_word_special _ (decimal_plain g) (decimal_ne_nil g) _ (by decide) (by decide),
    readTokens_space]
  rw [readTokens_word_special _ (decimal_plain b) (decimal_ne_nil b) _ (by decide) (by decide)]
  rw [readTokens_special _ (by decide) (by decide), readTokens_space]
  rw [readTokens_special _ (by decide) (by decide)]
  rfl

/-! ### The scan of a script with one call -/

theorem ToLong_paren : ToLong "(".toList = none := by decide

theorem ToLong_comma : ToLong ",".toList = none := by decide

theorem cmpNoCase_setcolor :
    cmpNoCase "Sector_SetColor".toList "Sector_SetColor".toList = true := by decide

theorem cmpNoCase_semicolon : cmpNoCase ";".toList "Sector_SetColor".toList = false := by
  decide

theorem bne_paren_facts :
    (['('] != [')']) = true ∧ ([','] != [')']) = true ∧ ([')'] != [')']) = false := by
  decide

theorem skipToBrace_open (k : Nat) (rest : List Token) :
    skipToBrace (k + 2) "OPEN".toList { rest := "\x7b".toList :: rest } =
      some ("\x7b".toList, { rest := rest }) := by
  simp [skipToBrace, Tokenizer.getToken]

theorem callTokens_accepted (t r g b : Nat) (ht : t < 2 ^ 31) (hr : r ≤ 255) (hg : g ≤ 255)
    (hb : b ≤ 255) :
    acceptedValues ["(".toList, decimal t, ",".toList, decimal r, ",".toList, decimal g,
      ",".toList, decimal b] = [(t : Int), (r : Int), (g : Int), (b : Int)] := by
  have h1 := ToLong_decimal t (by omega)
  have h2 := ToLong_decimal r (by omega)
  have h3 := ToLong_decimal g (by omega)
  have h4 := ToLong_decimal b (by omega)
  simp only [acceptedValues, numericValues, List.filterMap_cons, List.filterMap_nil,
    ToLong_paren, ToLong_comma, h1, h2, h3, h4, List.map_cons, List.map_nil,
    toInt32_small t ht, toInt32_small r (by omega), toInt32_small g (by omega),
    toInt32_small b (by omega)]
  simp

theorem scriptBody_single (k t r g b : Nat) (ht : t < 2 ^ 31) (hr : r ≤ 255) (hg : g ≤ 255)
    (hb : b ≤ 255) :
    scriptBody (k + 3) "Sector_SetColor".toList
      { rest := ["(".toList, decimal t, ",".toList, decimal r, ",".toList, decimal g,
                 ",".toList, decimal b, ")".toList, ";".toList, "\x7d".toList] } [] =
      some ("\x7d".toList, { rest := [] },
        [{ tag := (t : Int), colour := { r := r, g := g, b := b, a := 255 } }]) := by
  have htz := sectorSetColor_tokenizer
    { rest := ["(".toList, decimal t, ",".toList, decimal r, ",".toList, decimal g,
               ",".toList, decimal b, ")".toList, ";".toList, "\x7d".toList] } []
  have htab := sectorSetColor_four
    { rest := ["(".toList, decimal t, ",".toList, decimal r, ",".toList, decimal g,
               ",".toList, decimal b, ")".toList, ";".toList, "\x7d".toList] } []
    (t : Int) (r : Int) (g : Int) (b : Int) []
    (by
      have e : (Tokenizer.getTokensUntil
          { rest := ["(".toList, decimal t, ",".toList, decimal r, ",".toList, decimal g,
                     ",".toList, decimal b, ")".toList, ";".toList, "\x7d".toList] } [')']).1 =
          ["(".toList, decimal t, ",".toList, decimal r, ",".toList, decimal g,
            ",".toList, decimal b] := by
        simp [Tokenizer.getTokensUntil, List.takeWhile, decimal_bne_paren, bne_paren_facts]
      rw [e]
      exact callTokens_accepted t r g b ht hr hg hb)
  have htz2 : (List.dropWhile (fun t => t != [')'])
      ["(".toList, decimal t, ",".toList, decimal r, ",".toList, decimal g,
       ",".toList, decimal b, ")".toList, ";".toList, "\x7d".toList]).drop 1 =
      [";".toList, "\x7d".toList] := by
    simp [List.dropWhile, decimal_bne_paren, bne_paren_facts]
  rw [htz2] at htz
  have hcol : rgba_t.set (r : Int) (g : Int) (b : Int) 255 =
      { r := r, g := g, b := b, a := 255 } := by
    simp [rgba_t.set, toUInt8_small r hr, toUInt8_small g hg, toUInt8_small b hb]
    decide
  rw [hcol] at htab
  unfold scriptBody
  rw [if_pos (by decide)]
  simp only [cmpNoCase_setcolor, if_true, htz, htab, Tokenizer.getToken, List.nil_append]
  unfold scriptBody
  rw [if_pos (by decide)]
  simp only [cmpNoCase_semicolon, Bool.false_eq_true, if_false, Tokenizer.getToken]
  unfold scriptBody
  rw [if_neg (by decide)]

theorem scanLoop_single (k N t r g b : Nat) (ht : t < 2 ^ 31) (hr : r ≤ 255) (hg : g ≤ 255)
    (hb : b ≤ 255) :
    scanLoop (k + 3) (k + 3) "script".toList
      { rest := [decimal N, "OPEN".toList, "\x7b".toList, "Sector_SetColor".toList,
                 "(".toList, decimal t, ",".toList, decimal r, ",".toList, decimal g,
                 ",".toList, decimal b, ")".toList, ";".toList, "\x7d".toList] } [] =
      some [{ tag := (t : Int), colour := { r := r, g := g, b := b, a := 255 } }] := by
  unfold scanLoop
  simp only [Tokenizer.isAtEnd, Tokenizer.skipToken, Tokenizer.getToken, cmpNoCase_script,
    cmpNoCase_open, List.isEmpty_cons, Bool.not_false, if_true]
  rw [skipToBrace_open (k + 1)]
  simp only [Tokenizer.getToken]
  rw [scriptBody_single k t r g b ht hr hg hb]
  simp only [Tokenizer.getToken]
  unfold scanLoop
  simp [Tokenizer.isAtEnd]

/-- C1, amended: for every script number N, every tag t below 2^31 and colour
components r, g, b of at most 255, written as decimal literals, the scan of
the buffer `script N OPEN { Sector_SetColor(t, r, g, b); }` returns (within
three rounds of each loop) and leaves exactly one binding, of tag t and colour
(r, g, b); then `getTagColour` finds that colour, with alpha 255, for t and
finds nothing for every other tag. -/
theorem processACSScripts_single_binding (N t r g b fuel : Nat)
    (prior : List sector_colour_t) (colour : rgba_t)
    (ht : t < 2 ^ 31) (hr : r ≤ 255) (hg : g ≤ 255) (hb : b ≤ 255) (hf : 3 ≤ fuel) :
    processACSScripts fuel (some (scriptBuffer N t r g b)) prior =
      some [{ tag := (t : Int), colour := { r := r, g := g, b := b, a := 255 } }] ∧
    getTagColour [{ tag := (t : Int), colour := { r := r, g := g, b := b, a := 255 } }]
      (t : Int) colour = (true, { r := r, g := g, b := b, a := 255 }) ∧
    ∀ u : Int, u ≠ (t : Int) →
      getTagColour [{ tag := (t : Int), colour := { r := r, g := g, b := b, a := 255 } }]
        u colour = (false, colour) := by
  obtain ⟨k, rfl⟩ : ∃ k, fuel = k + 3 := ⟨fuel - 3, by omega⟩
  refine ⟨?_, ?_, ?_⟩
  · have hne : scriptBuffer N t r g b ≠ [] := by
      simp [scriptBuffer]
    rw [processACSScripts_nonempty _ _ _ hne]
    simp only [Tokenizer.openMem, scriptBuffer_tokens, Tokenizer.getToken]
    exact scanLoop_single k N t r g b ht hr hg hb
  · simp [getTagColour]
  · intro u hu
    have : ¬ (t : Int) = u := fun e => hu e.symm
    simp [getTagColour, this]

theorem scriptBuffer_red :
    scriptBuffer 1 12 255 0 0 = "script 1 OPEN \x7b Sector_SetColor(12, 255, 0, 0); \x7d".toList := by
  simp [scriptBuffer, decimal, digitChar]

theorem scriptBuffer_wide_tag :
    scriptBuffer 1 4294967295 255 0 0 =
      "script 1 OPEN \x7b Sector_SetColor(4294967295, 255, 0, 0); \x7d".toList := by
  simp [scriptBuffer, decimal, digitChar]

theorem scriptBuffer_wide_red :
    scriptBuffer 1 12 256 0 0 = "script 1 OPEN \x7b Sector_SetColor(12, 256, 0, 0); \x7d".toList := by
  simp [scriptBuffer, decimal, digitChar]

/-- C1 on the buffer of the spec: `script 1 OPEN { Sector_SetColor(12, 255, 0, 0); }`
leaves the one binding of tag 12 with the colour (255, 0, 0), which
`getTagColour` finds for tag 12 and not for tag 13. -/
theorem processACSScripts_single_binding_witness :
    scriptBuffer 1 12 255 0 0 = "script 1 OPEN \x7b Sector_SetColor(12, 255, 0, 0); \x7d".toList ∧
    processACSScripts 3 (some (scriptBuffer 1 12 255 0 0)) exampleTable =
      some [{ tag := 12, colour := { r := 255, g := 0, b := 0, a := 255 } }] ∧
    getTagColour [{ tag := 12, colour := { r := 255, g := 0, b := 0, a := 255 } }] 12
      { r := 0, g := 0, b := 0, a := 0 } = (true, { r := 255, g := 0, b := 0, a := 255 }) ∧
    getTagColour [{ tag := 12, colour := { r := 255, g := 0, b := 0, a := 255 } }] 13
      { r := 0, g := 0, b := 0, a := 0 } = (false, { r := 0, g := 0, b := 0, a := 0 }) :=
  have h := processACSScripts_single_binding 1 12 255 0 0 3 exampleTable
    { r := 0, g := 0, b := 0, a := 0 } (by decide) (by decide) (by decide) (by decide)
    (by decide)
  ⟨scriptBuffer_red, h.1, h.2.1, h.2.2 13 (by decide)⟩

/-- C1 as stated fails for the tag 4294967295 and for the red component 256:
the literal 4294967295 becomes the `int` -1, which counts as unset, so the
scan of `script 1 OPEN { Sector_SetColor(4294967295, 255, 0, 0); }` ends with
an empty table; and the scan of `script 1 OPEN { Sector_SetColor(12, 256, 0, 0); }`
ends with the red component 0. -/
theorem processACSScripts_wide_literals :
    processACSScripts 3 (some (scriptBuffer 1 4294967295 255 0 0)) [] = some [] ∧
    processACSScripts 3 (some (scriptBuffer 1 12 256 0 0)) [] =
      some [{ tag := 12, colour := { r := 0, g := 0, b := 0, a := 255 } }] := by
  rw [scriptBuffer_wide_tag, scriptBuffer_wide_red]
  decide

/-! ### Sector writes -/

theorem updateSector_getElem (m : SLADEMap) (i : Nat) (f : MapSector → MapSector) (j : Nat) :
    (m.updateSector i f).sectors[j]? = if j = i then (m.sectors[j]?).map f else m.sectors[j]? := by
  unfold SLADEMap.updateSector
  cases h : m.sectors[i]? with
  | none =>
    by_cases hji : j = i
    · subst hji; simp [h]
    · simp [hji]
  | some s =>
    by_cases hji : j = i
    · subst hji
      have hlt : j < m.sectors.length := by
        by_contra hge
        rw [List.getElem?_eq_none (by omega)] at h
        cases h
      simp [h, hlt]
    · have hij : i ≠ j := fun e => hji e.symm
      simp [hji, List.getElem?_set_ne hij]

theorem updateSector_frame (m : SLADEMap) (i : Nat) (f : MapSector → MapSector) :
    (m.updateSector i f).lines = m.lines ∧ (m.updateSector i f).things = m.things ∧
    (m.updateSector i f).sectors.length = m.sectors.length := by
  unfold SLADEMap.updateSector
  cases m.sectors[i]? <;> simp

theorem updateSector_other (m : SLADEMap) (i : Nat) (f : MapSector → MapSector) (j : Nat)
    (h : j ≠ i) : (m.updateSector i f).sectors[j]? = m.sectors[j]? := by
  rw [updateSector_getElem, if_neg h]

theorem updateSector_self (m : SLADEMap) (i : Nat) (f : MapSector → MapSector) (s : MapSector)
    (h : m.sectors[i]? = some s) : (m.updateSector i f).sectors[i]? = some (f s) := by
  rw [updateSector_getElem, if_pos rfl, h]
  rfl

/-! ### The colour table after a reset -/

/-- C18: after `reset` the colour table is empty, whatever it held:
`tagColoursSet` is false and `getTagColour` finds nothing for any tag; and for
every table `tagColoursSet` is true exactly when the table has a binding,
which is exactly when `getTagColour` succeeds for some tag. -/
theorem reset_clears_table (prior : List sector_colour_t) :
    reset prior = [] ∧
    tagColoursSet (reset prior) = false ∧
    (∀ (tag : Int) (colour : rgba_t), getTagColour (reset prior) tag colour = (false, colour)) ∧
    (∀ cols : List sector_colour_t, tagColoursSet cols = true ↔ cols ≠ []) ∧
    (∀ cols : List sector_colour_t, tagColoursSet cols = true ↔
      ∃ tag : Int, ∀ colour : rgba_t, (getTagColour cols tag colour).1 = true) := by
  refine ⟨rfl, rfl, fun _ _ => rfl, ?_, ?_⟩
  · intro cols
    cases cols <;> simp [tagColoursSet]
  · intro cols
    cases cols with
    | nil =>
      constructor
      · intro h
        simp [tagColoursSet] at h
      · rintro ⟨tag, h⟩
        have h0 := h { r := 0, g := 0, b := 0, a := 0 }
        simp [getTagColour] at h0
    | cons sc rest =>
      simp only [tagColoursSet, List.isEmpty_cons, Bool.not_false, true_iff]
      exact ⟨sc.tag, fun colour => by simp [getTagColour]⟩

/-! ### Inputs that a pass skips -/

theorem furthestVertex_small (E : Env) (line : MapLine) (vs : List MapVertex) (d : ℚ)
    (fv : Option MapVertex) (hd : d < 1 / 100)
    (h : ∀ v ∈ vs, E.distanceTo line v.x v.y < 1 / 100) :
    (furthestVertex E line vs d fv).1 < 1 / 100 := by
  induction vs generalizing d fv with
  | nil => simpa [furthestVertex] using hd
  | cons v rest ih =>
    have hv := h v (by simp)
    have hrest : ∀ w ∈ rest, E.distanceTo line w.x w.y < 1 / 100 :=
      fun w hw => h w (by simp [hw])
    unfold furthestVertex
    simp only []
    split
    · exact ih _ _ hv hrest
    · exact ih _ _ hd hrest

theorem applyPlaneAlign_no_reference (E : Env) (p : PlaneType) (line : MapLine)
    (target model : Nat) (m : SLADEMap)
    (h : ∀ t, m.sectors[target]? = some t →
      ∀ v ∈ t.vertices, E.distanceTo line v.x v.y < 1 / 100) :
    applyPlaneAlign E p line target model m = m := by
  unfold applyPlaneAlign
  cases ht : m.sectors[target]? with
  | none => rfl
  | some t =>
    cases hm : m.sectors[model]? with
    | none => rfl
    | some md =>
      have hs := furthestVertex_small E line t.vertices 0 none (by norm_num) (h t ht)
      simp only []
      cases (furthestVertex E line t.vertices 0 none).2 with
      | none => rfl
      | some fv => simp only [hs, if_true]

theorem planeAlignLine_one_sided (E : Env) (m : SLADEMap) (line : MapLine)
    (h : line.front = none ∨ line.back = none ∨ line.front = line.back) :
    planeAlignLine E m line = m := by
  unfold planeAlignLine
  split
  · rfl
  · cases hf : line.front with
    | none => rfl
    | some f =>
      cases hb : line.back with
      | none => rfl
      | some b =>
        rw [hf, hb] at h
        have : f = b := by simpa using h
        simp [this]

theorem planeAlignLine_no_reference (E : Env) (m : SLADEMap) (line : MapLine)
    (h : ∀ i t, (line.front = some i ∨ line.back = some i) → m.sectors[i]? = some t →
      ∀ v ∈ t.vertices, E.distanceTo line v.x v.y < 1 / 100) :
    planeAlignLine E m line = m := by
  unfold planeAlignLine
  split
  · rfl
  · cases hf : line.front with
    | none => rfl
    | some f =>
      cases hb : line.back with
      | none => rfl
      | some b =>
        have e1 : ∀ p md, applyPlaneAlign E p line f md m = m := fun p md =>
          applyPlaneAlign_no_reference E p line f md m (fun t ht => h f t (Or.inl hf) ht)
        have e2 : ∀ p md, applyPlaneAlign E p line b md m = m := fun p md =>
          applyPlaneAlign_no_reference E p line b md m (fun t ht => h b t (Or.inr hb) ht)
        simp only [e1, e2, ite_self]

theorem applySectorTiltThing_vertical (E : Env) (p : PlaneType) (m : SLADEMap)
    (thing : MapThing) (h : thing.arg0 = 0 ∨ thing.arg0 = 180) :
    applySectorTiltThing E p m thing = m := by
  unfold applySectorTiltThing
  simp only []
  split
  · rfl
  · split
    · rfl
    · rfl

theorem getSectorsByTag_nil (m : SLADEMap) (tag : Int) (h : ∀ s ∈ m.sectors, s.tag ≠ tag) :
    m.getSectorsByTag tag = [] := by
  unfold SLADEMap.getSectorsByTag
  rw [List.filter_eq_nil_iff]
  intro i _
  cases hs : m.sectors[i]? with
  | none => simp
  | some s =>
    have := h s (List.getElem?_mem hs)
    simp [this]

theorem slopeCopyThing_no_source (E : Env) (m : SLADEMap) (thing : MapThing)
    (h : thing.arg0 = 0 ∨ ∀ s ∈ m.sectors, s.tag ≠ thing.arg0) :
    slopeCopyThing E m thing = m := by
  unfold slopeCopyThing
  rcases h with h | h
  · simp [h]
  · simp [getSectorsByTag_nil m _ h]

/-- C19: inputs that a slope pass cannot use are skipped with no change to the
map, so to no plane, and the loop goes on with the rest: a Plane_Align line
with a side missing or the same sector on both sides; a Plane_Align whose
target sector has no vertex at distance 0.01 or more from the line; a sector
tilt thing whose argument is 0 or 180; a slope copy thing whose tag is 0 or is
the tag of no sector. -/
theorem degenerate_inputs_skipped (E : Env) (m : SLADEMap) :
    (∀ (line : MapLine) (rest : List MapLine),
      (line.front = none ∨ line.back = none ∨ line.front = line.back) →
      planeAlignLine E m line = m ∧
      (line :: rest).foldl (planeAlignLine E) m = rest.foldl (planeAlignLine E) m) ∧
    (∀ (p : PlaneType) (line : MapLine) (target model : Nat),
      (∀ t, m.sectors[target]? = some t →
        ∀ v ∈ t.vertices, E.distanceTo line v.x v.y < 1 / 100) →
      applyPlaneAlign E p line target model m = m) ∧
    (∀ (line : MapLine) (rest : List MapLine),
      (∀ i t, (line.front = some i ∨ line.back = some i) → m.sectors[i]? = some t →
        ∀ v ∈ t.vertices, E.distanceTo line v.x v.y < 1 / 100) →
      planeAlignLine E m line = m ∧
      (line :: rest).foldl (planeAlignLine E) m = rest.foldl (planeAlignLine E) m) ∧
    (∀ (thing : MapThing) (rest : List MapThing),
      (thing.type = 9502 ∨ thing.type = 9503) → (thing.arg0 = 0 ∨ thing.arg0 = 180) →
      directionalThing E m thing = m ∧
      (thing :: rest).foldl (directionalThing E) m = rest.foldl (directionalThing E) m) ∧
    (∀ (thing : MapThing) (rest : List MapThing),
      (thing.arg0 = 0 ∨ ∀ s ∈ m.sectors, s.tag ≠ thing.arg0) →
      slopeCopyThing E m thing = m ∧
      (thing :: rest).foldl (slopeCopyThing E) m = rest.foldl (slopeCopyThing E) m) := by
  refine ⟨?_, ?_, ?_, ?_, ?_⟩
  · intro line rest h
    have e := planeAlignLine_one_sided E m line h
    exact ⟨e, by rw [List.foldl_cons, e]⟩
  · intro p line target model h
    exact applyPlaneAlign_no_reference E p line target model m h
  · intro line rest h
    have e := planeAlignLine_no_reference E m line h
    exact ⟨e, by rw [List.foldl_cons, e]⟩
  · intro thing rest ht h
    have e : directionalThing E m thing = m := by
      unfold directionalThing
      rcases ht with ht | ht
      · simp [ht, applySectorTiltThing_vertical E _ m thing h]
      · simp [ht, applySectorTiltThing_vertical E _ m thing h]
    exact ⟨e, by rw [List.foldl_cons, e]⟩
  · intro thing rest h
    have e := slopeCopyThing_no_source E m thing h
    exact ⟨e, by rw [List.foldl_cons, e]⟩

/-! ### Slope copy things -/

theorem range_filter_head (p : Nat → Bool) (n first : Nat) (tl : List Nat)
    (h : (List.range n).filter p = first :: tl) :
    p first = true ∧ first < n ∧ ∀ k, k < first → p k = false := by
  induction n generalizing first tl with
  | zero => simp at h
  | succ n ih =>
    rw [List.range_succ, List.filter_append] at h
    cases hf : (List.range n).filter p with
    | nil =>
      rw [hf] at h
      have hall : ∀ k, k < n → p k = false := by
        intro k hk
        have := List.filter_eq_nil_iff.1 hf k (List.mem_range.2 hk)
        simpa using this
      by_cases hn : p n = true
      · simp [hn] at h
        obtain ⟨rfl, _⟩ := h
        exact ⟨hn, Nat.lt_succ_self _, hall⟩
      · simp [hn] at h
    | cons a as =>
      rw [hf] at h
      simp only [List.cons_append, List.cons.injEq] at h
      obtain ⟨rfl, _⟩ := h
      obtain ⟨h1, h2, h3⟩ := ih a as hf
      exact ⟨h1, Nat.lt_succ_of_lt h2, h3⟩

theorem getSectorsByTag_head (m : SLADEMap) (tag : Int) (first : Nat) (tl : List Nat)
    (h : m.getSectorsByTag tag = first :: tl) :
    (∃ src, m.sectors[first]? = some src ∧ src.tag = tag) ∧
    ∀ (k : Nat) (s : MapSector), k < first → m.sectors[k]? = some s → s.tag ≠ tag := by
  unfold SLADEMap.getSectorsByTag at h
  obtain ⟨h1, _, h3⟩ := range_filter_head _ _ _ _ h
  constructor
  · cases hs : m.sectors[first]? with
    | none => simp [hs] at h1
    | some src =>
      simp [hs] at h1
      exact ⟨src, rfl, h1⟩
  · intro k s hk hs
    have := h3 k hk
    simp [hs] at this
    exact this

theorem getSectorsByTag_ne_nil (m : SLADEMap) (tag : Int) (h : ∃ s ∈ m.sectors, s.tag = tag) :
    m.getSectorsByTag tag ≠ [] := by
  obtain ⟨s, hs, ht⟩ := h
  obtain ⟨i, hi⟩ := List.getElem?_of_mem hs
  intro e
  have hmem : i ∈ m.getSectorsByTag tag := by
    unfold SLADEMap.getSectorsByTag
    rw [List.mem_filter, List.mem_range]
    refine ⟨?_, by simp [hi, ht]⟩
    by_contra hge
    rw [List.getElem?_eq_none (by omega)] at hi
    cases hi
  rw [e] at hmem
  cases hmem

/-- C15: a thing of type 9510 (floor) or 9511 (ceiling) that lies in a sector
T, with a tag argument that is not 0 and is the tag of some sector, makes the
plane of its kind of T equal to the plane of that kind of the first sector
with the tag in index order; the other plane of T, every other sector, and
the lines and things are as before. -/
theorem slopeCopyThing_copies_first (E : Env) (m : SLADEMap) (thing : MapThing) (t : Nat)
    (T : MapSector) (htype : thing.type = 9510 ∨ thing.type = 9511)
    (hin : E.sectorAt thing.x thing.y = (t : Int)) (hT : m.sectors[t]? = some T)
    (hne : thing.arg0 ≠ 0) (hex : ∃ s ∈ m.sectors, s.tag = thing.arg0) :
    ∃ (first : Nat) (src : MapSector),
      m.sectors[first]? = some src ∧ src.tag = thing.arg0 ∧
      (∀ (k : Nat) (s : MapSector), k < first → m.sectors[k]? = some s → s.tag ≠ thing.arg0) ∧
      (thing.type = 9510 →
        (slopeCopyThing E m thing).sectors[t]? =
          some { T with plane_floor := src.plane_floor }) ∧
      (thing.type = 9511 →
        (slopeCopyThing E m thing).sectors[t]? =
          some { T with plane_ceiling := src.plane_ceiling }) ∧
      (∀ j : Nat, j ≠ t → (slopeCopyThing E m thing).sectors[j]? = m.sectors[j]?) ∧
      (slopeCopyThing E m thing).lines = m.lines ∧
      (slopeCopyThing E m thing).things = m.things := by
  cases hl : m.getSectorsByTag thing.arg0 with
  | nil => exact absurd hl (getSectorsByTag_ne_nil m _ hex)
  | cons first tl =>
    obtain ⟨⟨src, hsrc, htag⟩, hmin⟩ := getSectorsByTag_head m _ first tl hl
    have hnn : ¬ E.sectorAt thing.x thing.y < 0 := by rw [hin]; omega
    have htn : (E.sectorAt thing.x thing.y).toNat = t := by rw [hin]; simp
    have e : slopeCopyThing E m thing =
        if thing.type = 9510 then
          m.updateSector t fun s => { s with plane_floor := src.plane_floor }
        else m.updateSector t fun s => { s with plane_ceiling := src.plane_ceiling } := by
      unfold slopeCopyThing
      simp only [htype, if_true, hnn, if_false, hne, hl, hsrc, htn]
    refine ⟨first, src, hsrc, htag, hmin, ?_, ?_, ?_, ?_, ?_⟩
    · intro h10
      rw [e, if_pos h10, updateSector_self _ _ _ _ hT]
    · intro h11
      have h10 : ¬ thing.type = 9510 := by rw [h11]; decide
      rw [e, if_neg h10, updateSector_self _ _ _ _ hT]
    · intro j hj
      rw [e]
      split <;> exact updateSector_other _ _ _ _ hj
    · rw [e]
      split <;> exact (updateSector_frame _ _ _).1
    · rw [e]
      split <;> exact (updateSector_frame _ _ _).2.1

/-! ### Vertex heights -/

theorem planeFromTriangle_heights (p1 p2 p3 : fpoint3_t)
    (h : (p3.x - p1.x) * (p2.y - p1.y) - (p3.y - p1.y) * (p2.x - p1.x) ≠ 0) :
    (planeFromTriangle p1 p2 p3).height_at p1.x p1.y = p1.z ∧
    (planeFromTriangle p1 p2 p3).height_at p2.x p2.y = p2.z ∧
    (planeFromTriangle p1 p2 p3).height_at p3.x p3.y = p3.z := by
  simp only [planeFromTriangle, plane_t.height_at]
  refine ⟨?_, ?_, ?_⟩ <;> field_simp <;> ring

/-- C16: for a sector with exactly three vertices, when the three values of
"zfloor" are all zero the vertex height pass leaves its floor plane as it was,
and likewise for "zceiling" and the ceiling plane; when one of the three
values is not zero and the property is known for vertices, the plane becomes
the plane of `planeFromTriangle` at the three vertices with their heights,
which passes through these three points when they are not on one line in
plan. -/
theorem vertexHeightSector_all_zero (E : Env) (S : MapSector) (v0 v1 v2 : MapVertex)
    (hv : S.vertices = [v0, v1, v2]) :
    (v0.zfloor = 0 → v1.zfloor = 0 → v2.zfloor = 0 →
      (vertexHeightSector E S).plane_floor = S.plane_floor) ∧
    (v0.zceiling = 0 → v1.zceiling = 0 → v2.zceiling = 0 →
      (vertexHeightSector E S).plane_ceiling = S.plane_ceiling) ∧
    (E.vertexProperty "zfloor" = true → (v0.zfloor ≠ 0 ∨ v1.zfloor ≠ 0 ∨ v2.zfloor ≠ 0) →
      (vertexHeightSector E S).plane_floor =
        planeFromTriangle { x := v0.x, y := v0.y, z := v0.zfloor }
          { x := v1.x, y := v1.y, z := v1.zfloor } { x := v2.x, y := v2.y, z := v2.zfloor } ∧
      ((v2.x - v0.x) * (v1.y - v0.y) - (v2.y - v0.y) * (v1.x - v0.x) ≠ 0 →
        (vertexHeightSector E S).plane_floor.height_at v0.x v0.y = v0.zfloor ∧
        (vertexHeightSector E S).plane_floor.height_at v1.x v1.y = v1.zfloor ∧
        (vertexHeightSector E S).plane_floor.height_at v2.x v2.y = v2.zfloor)) ∧
    (E.vertexProperty "zceiling" = true →
      (v0.zceiling ≠ 0 ∨ v1.zceiling ≠ 0 ∨ v2.zceiling ≠ 0) →
      (vertexHeightSector E S).plane_ceiling =
        planeFromTriangle { x := v0.x, y := v0.y, z := v0.zceiling }
          { x := v1.x, y := v1.y, z := v1.zceiling }
          { x := v2.x, y := v2.y, z := v2.zceiling } ∧
      ((v2.x - v0.x) * (v1.y - v0.y) - (v2.y - v0.y) * (v1.x - v0.x) ≠ 0 →
        (vertexHeightSector E S).plane_ceiling.height_at v0.x v0.y = v0.zceiling ∧
        (vertexHeightSector E S).plane_ceiling.height_at v1.x v1.y = v1.zceiling ∧
        (vertexHeightSector E S).plane_ceiling.height_at v2.x v2.y = v2.zceiling)) := by
  have e : vertexHeightSector E S =
      applyVertexHeightSlope E .CEILING_PLANE
        (applyVertexHeightSlope E .FLOOR_PLANE S v0 v1 v2) v0 v1 v2 := by
    unfold vertexHeightSector
    rw [hv]
  have hfloor : ∀ X : MapSector,
      (applyVertexHeightSlope E .CEILING_PLANE X v0 v1 v2).plane_floor = X.plane_floor := by
    intro X
    unfold applyVertexHeightSlope
    simp only []
    split_ifs <;> rfl
  have hceil : ∀ X : MapSector,
      (applyVertexHeightSlope E .FLOOR_PLANE X v0 v1 v2).plane_ceiling = X.plane_ceiling := by
    intro X
    unfold applyVertexHeightSlope
    simp only []
    split_ifs <;> rfl
  refine ⟨?_, ?_, ?_, ?_⟩
  · intro h0 h1 h2
    rw [e, hfloor]
    simp [applyVertexHeightSlope, MapVertex.floatProperty, h0, h1, h2]
  · intro h0 h1 h2
    have hz : applyVertexHeightSlope E .CEILING_PLANE
        (applyVertexHeightSlope E .FLOOR_PLANE S v0 v1 v2) v0 v1 v2 =
        applyVertexHeightSlope E .FLOOR_PLANE S v0 v1 v2 := by
      simp [applyVertexHeightSlope, MapVertex.floatProperty, h0, h1, h2]
    rw [e, hz, hceil]
  · intro hp hz
    have e2 : (vertexHeightSector E S).plane_floor =
        planeFromTriangle { x := v0.x, y := v0.y, z := v0.zfloor }
          { x := v1.x, y := v1.y, z := v1.zfloor }
          { x := v2.x, y := v2.y, z := v2.zfloor } := by
      rw [e, hfloor]
      unfold applyVertexHeightSlope
      simp only [vertexHeightProp, hp, Bool.not_true, Bool.false_eq_true, if_false,
        MapVertex.floatProperty, ne_eq, hz, if_true, MapSector.setPlane]
    refine ⟨e2, ?_⟩
    intro hcol
    rw [e2]
    exact planeFromTriangle_heights _ _ _ hcol
  · intro hp hz
    have e2 : (vertexHeightSector E S).plane_ceiling =
        planeFromTriangle { x := v0.x, y := v0.y, z := v0.zceiling }
          { x := v1.x, y := v1.y, z := v1.zceiling }
          { x := v2.x, y := v2.y, z := v2.zceiling } := by
      rw [e]
      unfold applyVertexHeightSlope
      simp only [vertexHeightProp, hp, Bool.not_true, Bool.false_eq_true, if_false,
        MapVertex.floatProperty, ne_eq, hz, if_true, MapSector.setPlane]
    refine ⟨e2, ?_⟩
    intro hcol
    rw [e2]
    exact planeFromTriangle_heights _ _ _ hcol

/-! ### Plane_Copy -/

theorem bitAnd_three (share : Int) : bitAnd share 3 = (share % 4).toNat := by
  unfold bitAnd
  have h := Nat.and_pow_two_sub_one_eq_mod (share % 2 ^ 32).toNat 2
  have e : Nat.land (share % 2 ^ 32).toNat 3 = (share % 2 ^ 32).toNat % 4 := h
  rw [e]
  omega

theorem land_twelve (n : Nat) : Nat.land n 12 = (n / 4 % 4) * 4 := by
  have h1 : Nat.land n 12 = Nat.land (n % 16) 12 := by
    have a : (12 : Nat) = 15 &&& 12 := by decide
    have b := Nat.and_pow_two_sub_one_eq_mod n 4
    show n &&& 12 = (n % 16) &&& 12
    conv_lhs => rw [a, ← Nat.and_assoc]
    have b2 : n &&& 15 = n % 16 := b
    rw [b2]
  have h2 : n / 4 % 4 = n % 16 / 4 := by omega
  rw [h1, h2]
  have hlt : n % 16 < 16 := Nat.mod_lt _ (by decide)
  generalize n % 16 = k at hlt
  interval_cases k <;> decide

theorem bitAnd_twelve (share : Int) : bitAnd share 12 = ((share / 4 % 4).toNat) * 4 := by
  unfold bitAnd
  rw [land_twelve]
  congr 1
  omega

theorem updateSector_floor_view (m : SLADEMap) (i : Nat) (P : plane_t) (j : Nat) :
    ((m.updateSector i fun s => { s with plane_floor := P }).sectors[j]?).map
        (fun s => s.plane_floor) =
      (if j = i then (m.sectors[j]?).map (fun _ => P)
       else (m.sectors[j]?).map (fun s => s.plane_floor)) ∧
    ((m.updateSector i fun s => { s with plane_floor := P }).sectors[j]?).map
        (fun s => s.plane_ceiling) = (m.sectors[j]?).map (fun s => s.plane_ceiling) := by
  rw [updateSector_getElem]
  by_cases h : j = i <;> cases m.sectors[j]? <;> simp [h]

theorem updateSector_ceiling_view (m : SLADEMap) (i : Nat) (P : plane_t) (j : Nat) :
    ((m.updateSector i fun s => { s with plane_ceiling := P }).sectors[j]?).map
        (fun s => s.plane_ceiling) =
      (if j = i then (m.sectors[j]?).map (fun _ => P)
       else (m.sectors[j]?).map (fun s => s.plane_ceiling)) ∧
    ((m.updateSector i fun s => { s with plane_ceiling := P }).sectors[j]?).map
        (fun s => s.plane_floor) = (m.sectors[j]?).map (fun s => s.plane_floor) := by
  rw [updateSector_getElem]
  by_cases h : j = i <;> cases m.sectors[j]? <;> simp [h]

/-- The floor step of the Plane_Copy body, with the bits of `share` read by
division. -/
theorem planeCopyLine_eq (m : SLADEMap) (line : MapLine) (f b : Nat) (F B : MapSector)
    (hs : line.special = 118) (hf : line.front = some f) (hb : line.back = some b)
    (hF : m.sectors[f]? = some F) (hB : m.sectors[b]? = some B) :
    ∃ m1 : SLADEMap,
      m1 = (if line.arg4 % 4 = 1 then
              m.updateSector b fun s => { s with plane_floor := F.plane_floor }
            else if line.arg4 % 4 = 2 then
              m.updateSector f fun s => { s with plane_floor := B.plane_floor }
            else m) ∧
      planeCopyLine m line =
        (if line.arg4 / 4 % 4 = 1 then
          m1.updateSector b fun s => { s with plane_ceiling := F.plane_ceiling }
        else if line.arg4 / 4 % 4 = 2 then
          m1.updateSector f fun s => { s with plane_ceiling := B.plane_ceiling }
        else m1) := by
  refine ⟨_, rfl, ?_⟩
  have k1 : bitAnd line.arg4 3 = 1 ↔ line.arg4 % 4 = 1 := by rw [bitAnd_three]; omega
  have k2 : bitAnd line.arg4 3 = 2 ↔ line.arg4 % 4 = 2 := by rw [bitAnd_three]; omega
  have c1 : bitAnd line.arg4 12 = 4 ↔ line.arg4 / 4 % 4 = 1 := by rw [bitAnd_twelve]; omega
  have c2 : bitAnd line.arg4 12 = 8 ↔ line.arg4 / 4 % 4 = 2 := by rw [bitAnd_twelve]; omega
  -- the ceilings of the two sides after the floor step
  have hc : ∀ m1 : SLADEMap,
      m1 = (if line.arg4 % 4 = 1 then
              m.updateSector b fun s => { s with plane_floor := F.plane_floor }
            else if line.arg4 % 4 = 2 then
              m.updateSector f fun s => { s with plane_floor := B.plane_floor }
            else m) →
      (∃ F1, m1.sectors[f]? = some F1 ∧ F1.plane_ceiling = F.plane_ceiling) ∧
      (∃ B1, m1.sectors[b]? = some B1 ∧ B1.plane_ceiling = B.plane_ceiling) := by
    intro m1 hm1
    have v : ∀ j : Nat, (m1.sectors[j]?).map (fun s => s.plane_ceiling) =
        (m.sectors[j]?).map (fun s => s.plane_ceiling) := by
      intro j
      rw [hm1]
      split_ifs
      · exact (updateSector_floor_view m b _ j).2
      · exact (updateSector_floor_view m f _ j).2
      · rfl
    constructor
    · have := v f
      rw [hF] at this
      cases h : m1.sectors[f]? with
      | none => rw [h] at this; simp at this
      | some F1 => rw [h] at this; simp at this; exact ⟨F1, rfl, this⟩
    · have := v b
      rw [hB] at this
      cases h : m1.sectors[b]? with
      | none => rw [h] at this; simp at this
      | some B1 => rw [h] at this; simp at this; exact ⟨B1, rfl, this⟩
  obtain ⟨⟨F1, hF1, hF1c⟩, ⟨B1, hB1, hB1c⟩⟩ := hc _ rfl
  unfold planeCopyLine
  simp only [hs, ne_eq, not_true_eq_false, if_false, hf, hb, hF, hB, k1, k2, c1, c2]
  split_ifs <;> simp_all

/-- C17: for a line with special 118 that has a front and a back sector, the
floor copy depends on `share % 4` alone (1: the floor plane of the back sector
becomes that of the front sector; 2: the floor plane of the front sector
becomes that of the back sector; 0 or 3: no floor plane changes) and the
ceiling copy on `share / 4 % 4` alone in the same way, for every integer
`share`; so two lines that differ only in `arg4`, by a multiple of 16, give
the same map. -/
theorem planeCopyLine_bits (m : SLADEMap) (line : MapLine) (f b : Nat) (F B : MapSector)
    (hs : line.special = 118) (hf : line.front = some f) (hb : line.back = some b)
    (hF : m.sectors[f]? = some F) (hB : m.sectors[b]? = some B) :
    (∀ j : Nat, ((planeCopyLine m line).sectors[j]?).map (fun s => s.plane_floor) =
      if line.arg4 % 4 = 1 ∧ j = b then some F.plane_floor
      else if line.arg4 % 4 = 2 ∧ j = f then some B.plane_floor
      else (m.sectors[j]?).map (fun s => s.plane_floor)) ∧
    (∀ j : Nat, ((planeCopyLine m line).sectors[j]?).map (fun s => s.plane_ceiling) =
      if line.arg4 / 4 % 4 = 1 ∧ j = b then some F.plane_ceiling
      else if line.arg4 / 4 % 4 = 2 ∧ j = f then some B.plane_ceiling
      else (m.sectors[j]?).map (fun s => s.plane_ceiling)) ∧
    (∀ share : Int, share % 16 = line.arg4 % 16 →
      planeCopyLine m { line with arg4 := share } = planeCopyLine m line) := by
  obtain ⟨m1, hm1, e⟩ := planeCopyLine_eq m line f b F B hs hf hb hF hB
  have fl : ∀ j : Nat, (m1.sectors[j]?).map (fun s => s.plane_floor) =
      if line.arg4 % 4 = 1 ∧ j = b then some F.plane_floor
      else if line.arg4 % 4 = 2 ∧ j = f then some B.plane_floor
      else (m.sectors[j]?).map (fun s => s.plane_floor) := by
    intro j
    rw [hm1]
    by_cases h1 : line.arg4 % 4 = 1
    · rw [if_pos h1, (updateSector_floor_view m b _ j).1]
      have n2 : ¬ line.arg4 % 4 = 2 := by omega
      by_cases hj : j = b
      · subst hj; simp [h1, hB]
      · simp [hj, n2]
    · by_cases h2 : line.arg4 % 4 = 2
      · rw [if_neg h1, if_pos h2, (updateSector_floor_view m f _ j).1]
        by_cases hj : j = f
        · subst hj; simp [h1, h2, hF]
        · simp [hj, h1]
      · simp [h1, h2]
  have cl : ∀ j : Nat, (m1.sectors[j]?).map (fun s => s.plane_ceiling) =
      (m.sectors[j]?).map (fun s => s.plane_ceiling) := by
    intro j
    rw [hm1]
    split_ifs
    · exact (updateSector_floor_view m b _ j).2
    · exact (updateSector_floor_view m f _ j).2
    · rfl
  have ex : ∀ (j : Nat) (S : MapSector), m.sectors[j]? = some S →
      ∃ S1, m1.sectors[j]? = some S1 := by
    intro j S hS
    have := cl j
    rw [hS] at this
    cases h : m1.sectors[j]? with
    | none => rw [h] at this; simp at this
    | some S1 => exact ⟨S1, rfl⟩
  obtain ⟨F1, hF1⟩ := ex f F hF
  obtain ⟨B1, hB1⟩ := ex b B hB
  refine ⟨?_, ?_, ?_⟩
  · intro j
    rw [e, ← fl j]
    split_ifs
    · exact (updateSector_ceiling_view m1 b _ j).2
    · exact (updateSector_ceiling_view m1 f _ j).2
    · rfl
  · intro j
    rw [e]
    by_cases h1 : line.arg4 / 4 % 4 = 1
    · rw [if_pos h1, (updateSector_ceiling_view m1 b _ j).1, cl j]
      have n2 : ¬ line.arg4 / 4 % 4 = 2 := by omega
      by_cases hj : j = b
      · subst hj; simp [h1, hB1]
      · simp [hj, n2]
    · by_cases h2 : line.arg4 / 4 % 4 = 2
      · rw [if_neg h1, if_pos h2, (updateSector_ceiling_view m1 f _ j).1, cl j]
        by_cases hj : j = f
        · subst hj; simp [h1, h2, hF1]
        · simp [hj, h1]
      · rw [if_neg h1, if_neg h2, cl j]
        simp [h1, h2]
  · intro share hsh
    obtain ⟨m2, hm2, e2⟩ := planeCopyLine_eq m { line with arg4 := share } f b F B hs hf hb hF hB
    have a1 : share % 4 = line.arg4 % 4 := by omega
    have a2 : share / 4 % 4 = line.arg4 / 4 % 4 := by omega
    simp only [a1, a2] at hm2 e2
    rw [e, e2, hm1, hm2]

/-! ### Plane_Align -/

theorem applyPlaneAlign_eq (E : Env) (p : PlaneType) (line : MapLine) (target model : Nat)
    (m : SLADEMap) (T M : MapSector) (hT : m.sectors[target]? = some T)
    (hM : m.sectors[model]? = some M) :
    applyPlaneAlign E p line target model m =
      match (furthestVertex E line T.vertices 0 none).2 with
      | none => m
      | some v =>
        if (furthestVertex E line T.vertices 0 none).1 < 1 / 100 then m
        else m.updateSector target fun s => s.setPlane p
          (planeFromTriangle { x := line.x1, y := line.y1, z := M.getPlaneHeight p }
            { x := line.x2, y := line.y2, z := M.getPlaneHeight p }
            { x := v.x, y := v.y, z := T.getPlaneHeight p }) := by
  unfold applyPlaneAlign
  cases hfv : (furthestVertex E line T.vertices 0 none).2 <;> simp only [hT, hM, hfv]

theorem applyPlaneAlign_fitted (E : Env) (p : PlaneType) (line : MapLine) (target model : Nat)
    (m : SLADEMap) (T M : MapSector) (v : MapVertex) (d : ℚ)
    (hT : m.sectors[target]? = some T) (hM : m.sectors[model]? = some M)
    (hfound : furthestVertex E line T.vertices 0 none = (d, some v)) (hd : 1 / 100 ≤ d) :
    applyPlaneAlign E p line target model m =
      m.updateSector target fun s => s.setPlane p
        (planeFromTriangle { x := line.x1, y := line.y1, z := M.getPlaneHeight p }
          { x := line.x2, y := line.y2, z := M.getPlaneHeight p }
          { x := v.x, y := v.y, z := T.getPlaneHeight p }) := by
  rw [applyPlaneAlign_eq E p line target model m T M hT hM, hfound]
  simp only []
  rw [if_neg (not_lt.2 hd)]

theorem setPlane_floor_view (p : PlaneType) (s : MapSector) (P : plane_t) :
    (s.setPlane p P).tag = s.tag ∧ (s.setPlane p P).heightfloor = s.heightfloor ∧
    (s.setPlane p P).heightceiling = s.heightceiling ∧
    (s.setPlane p P).vertices = s.vertices ∧
    (s.setPlane .FLOOR_PLANE P).plane_ceiling = s.plane_ceiling ∧
    (s.setPlane .CEILING_PLANE P).plane_floor = s.plane_floor ∧
    (s.setPlane p P).getPlane p = P := by
  cases p <;> simp [MapSector.setPlane, MapSector.getPlane]

theorem applyPlaneAlign_other_kind (E : Env) (line : MapLine) (target model : Nat)
    (m : SLADEMap) (j : Nat) :
    ((applyPlaneAlign E .FLOOR_PLANE line target model m).sectors[j]?).map
        (fun s => s.plane_ceiling) = (m.sectors[j]?).map (fun s => s.plane_ceiling) ∧
    ((applyPlaneAlign E .CEILING_PLANE line target model m).sectors[j]?).map
        (fun s => s.plane_floor) = (m.sectors[j]?).map (fun s => s.plane_floor) := by
  constructor
  · unfold applyPlaneAlign
    split
    · simp only []
      split
      · rfl
      · split
        · rfl
        · rw [updateSector_getElem]
          by_cases h : j = target <;> cases m.sectors[j]? <;> simp [h, MapSector.setPlane]
    · rfl
  · unfold applyPlaneAlign
    split
    · simp only []
      split
      · rfl
      · split
        · rfl
        · rw [updateSector_getElem]
          by_cases h : j = target <;> cases m.sectors[j]? <;> simp [h, MapSector.setPlane]
    · rfl

/-- Two maps whose sectors differ at most in their floor planes get the same
ceiling planes from a ceiling alignment. -/
theorem applyPlaneAlign_ceiling_congr (E : Env) (line : MapLine) (target model : Nat)
    (m m1 : SLADEMap)
    (h : ∀ j : Nat, (m1.sectors[j]?).map (fun s => { s with plane_floor := plane_t.flat 0 }) =
      (m.sectors[j]?).map (fun s => { s with plane_floor := plane_t.flat 0 })) (j : Nat) :
    ((applyPlaneAlign E .CEILING_PLANE line target model m1).sectors[j]?).map
        (fun s => s.plane_ceiling) =
    ((applyPlaneAlign E .CEILING_PLANE line target model m).sectors[j]?).map
        (fun s => s.plane_ceiling) := by
  have hc : ∀ k : Nat, (m1.sectors[k]?).map (fun s => s.plane_ceiling) =
      (m.sectors[k]?).map (fun s => s.plane_ceiling) := by
    intro k
    have := congrArg (Option.map (fun s : MapSector => s.plane_ceiling)) (h k)
    simpa [Option.map_map, Function.comp] using this
  have hfields : ∀ (k : Nat) (S1 S : MapSector), m1.sectors[k]? = some S1 →
      m.sectors[k]? = some S → S1.vertices = S.vertices ∧
        S1.heightceiling = S.heightceiling := by
    intro k S1 S h1 h2
    have := h k
    rw [h1, h2] at this
    simp only [Option.map_some', Option.some.injEq, MapSector.mk.injEq] at this
    exact ⟨this.2.2.2.2.2, this.2.2.1⟩
  have hnone : ∀ k : Nat, m1.sectors[k]? = none ↔ m.sectors[k]? = none := by
    intro k
    have := h k
    cases h1 : m1.sectors[k]? <;> cases h2 : m.sectors[k]? <;> simp [h1, h2] at this ⊢
  cases hT : m.sectors[target]? with
  | none =>
    have hT1 := (hnone target).2 hT
    simp only [applyPlaneAlign, hT, hT1]
    exact hc j
  | some T =>
    cases hM : m.sectors[model]? with
    | none =>
      have hM1 := (hnone model).2 hM
      cases hT1 : m1.sectors[target]? <;> simp only [applyPlaneAlign, hT, hT1, hM, hM1] <;>
        exact hc j
    | some M =>
      cases hT1 : m1.sectors[target]? with
      | none => rw [(hnone target).1 hT1] at hT; cases hT
      | some T1 =>
        cases hM1 : m1.sectors[model]? with
        | none => rw [(hnone model).1 hM1] at hM; cases hM
        | some M1 =>
          obtain ⟨hv, _⟩ := hfields target T1 T hT1 hT
          obtain ⟨_, hh⟩ := hfields model M1 M hM1 hM
          obtain ⟨_, hhT⟩ := hfields target T1 T hT1 hT
          rw [applyPlaneAlign_eq E _ line target model m1 T1 M1 hT1 hM1,
            applyPlaneAlign_eq E _ line target model m T M hT hM, hv]
          simp only [MapSector.getPlaneHeight, hh, hhT]
          cases (furthestVertex E line T.vertices 0 none).2 with
          | none => exact hc j
          | some v =>
            simp only []
            split
            · exact hc j
            · rw [updateSector_getElem, updateSector_getElem]
              by_cases hj : j = target
              · subst hj
                simp [hT, hT1, MapSector.setPlane]
              · simp only [hj, if_false]
                exact hc j

/-! ### What the slope passes leave alone -/

theorem sameFrame_refl (m : SLADEMap) : SameFrame m m :=
  ⟨rfl, rfl, fun _ => rfl⟩

theorem sameFrame_trans (m m1 m2 : SLADEMap) (h1 : SameFrame m m1) (h2 : SameFrame m1 m2) :
    SameFrame m m2 :=
  ⟨h2.1.trans h1.1, h2.2.1.trans h1.2.1, fun j => (h2.2.2 j).trans (h1.2.2 j)⟩

theorem resetSector_setPlane (p : PlaneType) (s : MapSector) (P : plane_t) :
    resetSector (s.setPlane p P) = resetSector s := by
  cases p <;> rfl

theorem sameFrame_updateSector (m : SLADEMap) (i : Nat) (f : MapSector → MapSector)
    (hf : ∀ s, resetSector (f s) = resetSector s) : SameFrame m (m.updateSector i f) := by
  refine ⟨(updateSector_frame m i f).1, (updateSector_frame m i f).2.1, ?_⟩
  intro j
  rw [updateSector_getElem]
  by_cases h : j = i
  · rw [if_pos h]
    cases m.sectors[j]? with
    | none => rfl
    | some s => simp [hf]
  · rw [if_neg h]

theorem foldl_invariant {α : Type} (step : SLADEMap → α → SLADEMap) (P : SLADEMap → Prop)
    (l : List α) (h : ∀ x ∈ l, ∀ m, P m → P (step m x)) (m : SLADEMap) (hm : P m) :
    P (l.foldl step m) := by
  induction l generalizing m with
  | nil => exact hm
  | cons x xs ih =>
    rw [List.foldl_cons]
    exact ih (fun y hy => h y (by simp [hy])) _ (h x (by simp) m hm)

theorem sameFrame_applyPlaneAlign (E : Env) (p : PlaneType) (line : MapLine)
    (target model : Nat) (m : SLADEMap) :
    SameFrame m (applyPlaneAlign E p line target model m) := by
  unfold applyPlaneAlign
  split
  · simp only []
    split
    · exact sameFrame_refl m
    · split
      · exact sameFrame_refl m
      · exact sameFrame_updateSector m _ _ (fun s => resetSector_setPlane p s _)
  · exact sameFrame_refl m

theorem sameFrame_planeAlignLine (E : Env) (m : SLADEMap) (line : MapLine) :
    SameFrame m (planeAlignLine E m line) := by
  unfold planeAlignLine
  split
  · exact sameFrame_refl m
  · split
    · split
      · exact sameFrame_refl m
      · simp only []
        have h1 : ∀ f b : Nat, SameFrame m
            (if line.arg0 = 1 then applyPlaneAlign E .FLOOR_PLANE line f b m
             else if line.arg0 = 2 then applyPlaneAlign E .FLOOR_PLANE line b f m else m) := by
          intro f b
          split_ifs
          · exact sameFrame_applyPlaneAlign E _ line _ _ m
          · exact sameFrame_applyPlaneAlign E _ line _ _ m
          · exact sameFrame_refl m
        split_ifs
        all_goals first
          | exact sameFrame_trans _ _ _ (sameFrame_applyPlaneAlign E _ line _ _ m)
              (sameFrame_applyPlaneAlign E _ line _ _ _)
          | exact sameFrame_applyPlaneAlign E _ line _ _ m
          | exact sameFrame_refl m
    · exact sameFrame_refl m

theorem sameFrame_lineSlopeLoop (E : Env) (p : PlaneType) (thing : MapThing)
    (lines : List MapLine) (thingz : Option ℚ) (m : SLADEMap) :
    SameFrame m (lineSlopeLoop E p thing lines thingz m) := by
  induction lines generalizing thingz m with
  | nil => exact sameFrame_refl m
  | cons line rest ih =>
    unfold lineSlopeLoop
    simp only []
    split
    · exact ih _ _
    · split
      · exact ih _ _
      · split
        · exact sameFrame_refl m
        · exact sameFrame_trans _ _ _
            (sameFrame_updateSector m _ _ (fun s => resetSector_setPlane p s _)) (ih _ _)

theorem sameFrame_directionalThing (E : Env) (m : SLADEMap) (thing : MapThing) :
    SameFrame m (directionalThing E m thing) := by
  have hl : ∀ p, SameFrame m (applyLineSlopeThing E p m thing) := by
    intro p
    unfold applyLineSlopeThing
    simp only []
    split
    · exact sameFrame_refl m
    · exact sameFrame_lineSlopeLoop E p thing _ _ m
  have ht : ∀ p, SameFrame m (applySectorTiltThing E p m thing) := by
    intro p
    unfold applySectorTiltThing
    simp only []
    split
    · exact sameFrame_refl m
    · split
      · exact sameFrame_refl m
      · split
        · exact sameFrame_refl m
        · exact sameFrame_updateSector m _ _ (fun s => resetSector_setPlane p s _)
  unfold directionalThing
  split_ifs
  · exact hl _
  · exact hl _
  · exact ht _
  · exact ht _
  · exact sameFrame_refl m

theorem sameFrame_slopeCopyThing (E : Env) (m : SLADEMap) (thing : MapThing) :
    SameFrame m (slopeCopyThing E m thing) := by
  unfold slopeCopyThing
  split
  · simp only []
    split
    · exact sameFrame_refl m
    · split
      · exact sameFrame_refl m
      · split
        · exact sameFrame_refl m
        · split
          · exact sameFrame_refl m
          · split
            · exact sameFrame_updateSector m _ _ (fun s => rfl)
            · exact sameFrame_updateSector m _ _ (fun s => rfl)
  · exact sameFrame_refl m

theorem planeCopyLine_cases (m : SLADEMap) (line : MapLine) :
    planeCopyLine m line = m ∨
    ∃ (f b : Nat) (F B : MapSector), line.special = 118 ∧ line.front = some f ∧
      line.back = some b ∧ m.sectors[f]? = some F ∧ m.sectors[b]? = some B := by
  by_cases hs : line.special = 118
  · cases hf : line.front with
    | none => left; simp [planeCopyLine, hf]
    | some f =>
      cases hb : line.back with
      | none => left; simp [planeCopyLine, hf, hb]
      | some b =>
        cases hF : m.sectors[f]? with
        | none => left; simp [planeCopyLine, hf, hb, hF]
        | some F =>
          cases hB : m.sectors[b]? with
          | none => left; simp [planeCopyLine, hf, hb, hF, hB]
          | some B => right; exact ⟨f, b, F, B, hs, rfl, rfl, hF, hB⟩
  · left; simp [planeCopyLine, hs]

theorem sameFrame_planeCopyLine (m : SLADEMap) (line : MapLine) :
    SameFrame m (planeCopyLine m line) := by
  rcases planeCopyLine_cases m line with h | ⟨f, b, F, B, hs, hf, hb, hF, hB⟩
  · rw [h]; exact sameFrame_refl m
  · obtain ⟨m1, hm1, e⟩ := planeCopyLine_eq m line f b F B hs hf hb hF hB
    have h1 : SameFrame m m1 := by
      rw [hm1]
      split_ifs
      · exact sameFrame_updateSector m _ _ (fun s => rfl)
      · exact sameFrame_updateSector m _ _ (fun s => rfl)
      · exact sameFrame_refl m
    rw [e]
    split_ifs
    · exact sameFrame_trans _ _ _ h1 (sameFrame_updateSector m1 _ _ (fun s => rfl))
    · exact sameFrame_trans _ _ _ h1 (sameFrame_updateSector m1 _ _ (fun s => rfl))
    · exact h1

theorem resetSector_vertexHeightSector (E : Env) (s : MapSector) :
    resetSector (vertexHeightSector E s) = resetSector s := by
  have h : ∀ (p : PlaneType) (X : MapSector) (v0 v1 v2 : MapVertex),
      resetSector (applyVertexHeightSlope E p X v0 v1 v2) = resetSector X := by
    intro p X v0 v1 v2
    unfold applyVertexHeightSlope
    simp only []
    split_ifs
    · rfl
    · exact resetSector_setPlane p X _
    · rfl
  unfold vertexHeightSector
  split
  · rw [h, h]
  · rfl

theorem resetSector_idem (s : MapSector) : resetSector (resetSector s) = resetSector s := rfl

theorem processZDoomSlopes_passes (E : Env) (m : SLADEMap) :
    processZDoomSlopes E m =
      planeCopyPass (vertexHeightPass E (slopeCopyPass E (directionalPass E
        (planeAlignPass E (resetPass m))))) := rfl

theorem sameFrame_resetPass (m : SLADEMap) : SameFrame m (resetPass m) := by
  refine ⟨rfl, rfl, ?_⟩
  intro j
  simp only [resetPass, List.getElem?_map]
  cases m.sectors[j]? <;> rfl

theorem sameFrame_planeAlignPass (E : Env) (m : SLADEMap) : SameFrame m (planeAlignPass E m) :=
  foldl_invariant (planeAlignLine E) (SameFrame m) m.lines
    (fun x _ m' hm' => sameFrame_trans _ _ _ hm' (sameFrame_planeAlignLine E m' x)) m
    (sameFrame_refl m)

theorem sameFrame_directionalPass (E : Env) (m : SLADEMap) :
    SameFrame m (directionalPass E m) :=
  foldl_invariant (directionalThing E) (SameFrame m) m.things
    (fun x _ m' hm' => sameFrame_trans _ _ _ hm' (sameFrame_directionalThing E m' x)) m
    (sameFrame_refl m)

theorem sameFrame_slopeCopyPass (E : Env) (m : SLADEMap) : SameFrame m (slopeCopyPass E m) :=
  foldl_invariant (slopeCopyThing E) (SameFrame m) m.things
    (fun x _ m' hm' => sameFrame_trans _ _ _ hm' (sameFrame_slopeCopyThing E m' x)) m
    (sameFrame_refl m)

theorem sameFrame_vertexHeightPass (E : Env) (m : SLADEMap) :
    SameFrame m (vertexHeightPass E m) := by
  refine ⟨rfl, rfl, ?_⟩
  intro j
  simp only [vertexHeightPass, List.getElem?_map]
  cases m.sectors[j]? with
  | none => rfl
  | some s => simp [resetSector_vertexHeightSector]

theorem sameFrame_planeCopyPass (m : SLADEMap) : SameFrame m (planeCopyPass m) :=
  foldl_invariant planeCopyLine (SameFrame m) m.lines
    (fun x _ m' hm' => sameFrame_trans _ _ _ hm' (sameFrame_planeCopyLine m' x)) m
    (sameFrame_refl m)

/-- The slope solver changes nothing but planes: lines and things are as
before, and so is every sector up to its two planes. -/
theorem sameFrame_processZDoomSlopes (E : Env) (m : SLADEMap) :
    SameFrame m (processZDoomSlopes E m) := by
  rw [processZDoomSlopes_passes]
  exact sameFrame_trans _ _ _ (sameFrame_trans _ _ _ (sameFrame_trans _ _ _
    (sameFrame_trans _ _ _ (sameFrame_trans _ _ _ (sameFrame_resetPass m)
      (sameFrame_planeAlignPass E _)) (sameFrame_directionalPass E _))
    (sameFrame_slopeCopyPass E _)) (sameFrame_vertexHeightPass E _))
    (sameFrame_planeCopyPass _)

/-! ### Reset dominance -/

theorem applyPlaneAlign_other (E : Env) (p : PlaneType) (line : MapLine) (target model : Nat)
    (m : SLADEMap) (j : Nat) (h : j ≠ target) :
    (applyPlaneAlign E p line target model m).sectors[j]? = m.sectors[j]? := by
  unfold applyPlaneAlign
  split
  · simp only []
    split
    · rfl
    · split
      · rfl
      · exact updateSector_other _ _ _ _ h
  · rfl

theorem planeAlignLine_eq (E : Env) (m : SLADEMap) (line : MapLine) (f b : Nat)
    (hs : line.special = 181) (hf : line.front = some f) (hb : line.back = some b)
    (hne : f ≠ b) :
    ∃ m1 : SLADEMap,
      m1 = (if line.arg0 = 1 then applyPlaneAlign E .FLOOR_PLANE line f b m
            else if line.arg0 = 2 then applyPlaneAlign E .FLOOR_PLANE line b f m
            else m) ∧
      planeAlignLine E m line =
        (if line.arg1 = 1 then applyPlaneAlign E .CEILING_PLANE line f b m1
         else if line.arg1 = 2 then applyPlaneAlign E .CEILING_PLANE line b f m1
         else m1) := by
  refine ⟨_, rfl, ?_⟩
  unfold planeAlignLine
  simp only [hs, ne_eq, not_true_eq_false, if_false, hf, hb, hne]

theorem planeAlignLine_cases (E : Env) (m : SLADEMap) (line : MapLine) :
    planeAlignLine E m line = m ∨
    ∃ f b : Nat, line.special = 181 ∧ line.front = some f ∧ line.back = some b ∧ f ≠ b := by
  by_cases hs : line.special = 181
  · cases hf : line.front with
    | none => left; simp [planeAlignLine, hf]
    | some f =>
      cases hb : line.back with
      | none => left; simp [planeAlignLine, hf, hb]
      | some b =>
        by_cases hne : f = b
        · left; simp [planeAlignLine, hf, hb, hne]
        · right; exact ⟨f, b, hs, rfl, rfl, hne⟩
  · left; simp [planeAlignLine, hs]

theorem planeAlignLine_other (E : Env) (m : SLADEMap) (line : MapLine) (s : Nat)
    (h : line.special = 181 →
      ((line.arg0 = 1 ∨ line.arg1 = 1) → line.front ≠ some s) ∧
      ((line.arg0 = 2 ∨ line.arg1 = 2) → line.back ≠ some s)) :
    (planeAlignLine E m line).sectors[s]? = m.sectors[s]? := by
  rcases planeAlignLine_cases E m line with e | ⟨f, b, hs, hf, hb, hne⟩
  · rw [e]
  · obtain ⟨h1, h2⟩ := h hs
    rw [hf] at h1
    rw [hb] at h2
    obtain ⟨m1, hm1, e⟩ := planeAlignLine_eq E m line f b hs hf hb hne
    have hs1 : m1.sectors[s]? = m.sectors[s]? := by
      rw [hm1]
      split_ifs with a1 a2
      · exact applyPlaneAlign_other E _ line f b m s (fun e => h1 (Or.inl a1) (by rw [e]))
      · exact applyPlaneAlign_other E _ line b f m s (fun e => h2 (Or.inl a2) (by rw [e]))
      · rfl
    rw [e]
    split_ifs with c1 c2
    · rw [applyPlaneAlign_other E _ line f b _ s (fun e => h1 (Or.inr c1) (by rw [e]))]
      exact hs1
    · rw [applyPlaneAlign_other E _ line b f _ s (fun e => h2 (Or.inr c2) (by rw [e]))]
      exact hs1
    · exact hs1

theorem lineSlopeLoop_other (E : Env) (p : PlaneType) (thing : MapThing)
    (lines : List MapLine) (thingz : Option ℚ) (m : SLADEMap) (s : Nat)
    (h : ∀ line ∈ lines, line.front ≠ some s ∧ line.back ≠ some s) :
    (lineSlopeLoop E p thing lines thingz m).sectors[s]? = m.sectors[s]? := by
  induction lines generalizing thingz m with
  | nil => rfl
  | cons line rest ih =>
    have hl := h line (by simp)
    have hrest : ∀ l ∈ rest, l.front ≠ some s ∧ l.back ≠ some s :=
      fun l hl' => h l (by simp [hl'])
    unfold lineSlopeLoop
    simp only []
    split
    · exact ih _ _ hrest
    · rename_i tidx htarget
      split
      · exact ih _ _ hrest
      · split
        · rfl
        · rw [ih _ _ hrest]
          apply updateSector_other
          intro e
          subst e
          split_ifs at htarget with a b
          · exact hl.2 htarget
          · exact hl.1 htarget

theorem linesById_values (m : SLADEMap) (id : Int) :
    ∀ line ∈ (m.getLinesById id).filterMap (fun i => m.lines[i]?),
      line ∈ m.lines ∧ line.id = id := by
  intro line hl
  rw [List.mem_filterMap] at hl
  obtain ⟨i, hi, hget⟩ := hl
  obtain ⟨l, hl1, hl2⟩ := (mem_getLinesById m id i).1 hi
  rw [hl1] at hget
  cases hget
  exact ⟨List.getElem?_mem hl1, hl2⟩

theorem directionalThing_other (E : Env) (m : SLADEMap) (thing : MapThing) (s : Nat)
    (h1 : (thing.type = 9500 ∨ thing.type = 9501) →
      ∀ line ∈ m.lines, line.id = thing.arg0 → line.front ≠ some s ∧ line.back ≠ some s)
    (h2 : (thing.type = 9502 ∨ thing.type = 9503) → E.sectorAt thing.x thing.y ≠ (s : Int)) :
    (directionalThing E m thing).sectors[s]? = m.sectors[s]? := by
  have hl : ∀ p, (thing.type = 9500 ∨ thing.type = 9501) →
      (applyLineSlopeThing E p m thing).sectors[s]? = m.sectors[s]? := by
    intro p ht
    unfold applyLineSlopeThing
    simp only []
    split
    · rfl
    · apply lineSlopeLoop_other
      intro line hline
      obtain ⟨hm, hid⟩ := linesById_values m _ line hline
      exact h1 ht line hm hid
  have ht : ∀ p, (thing.type = 9502 ∨ thing.type = 9503) →
      (applySectorTiltThing E p m thing).sectors[s]? = m.sectors[s]? := by
    intro p htp
    unfold applySectorTiltThing
    simp only []
    split
    · rfl
    · rename_i hneg
      split
      · rfl
      · split
        · rfl
        · apply updateSector_other
          intro e
          apply h2 htp
          omega
  unfold directionalThing
  split_ifs with a b c d
  · exact hl _ (Or.inl a)
  · exact hl _ (Or.inr b)
  · exact ht _ (Or.inl c)
  · exact ht _ (Or.inr d)
  · rfl

theorem slopeCopyThing_other (E : Env) (m : SLADEMap) (thing : MapThing) (s : Nat)
    (h : (thing.type = 9510 ∨ thing.type = 9511) → E.sectorAt thing.x thing.y ≠ (s : Int)) :
    (slopeCopyThing E m thing).sectors[s]? = m.sectors[s]? := by
  unfold slopeCopyThing
  split
  · rename_i ht
    simp only []
    split
    · rfl
    · split
      · rfl
      · split
        · rfl
        · split
          · rfl
          · have hne : s ≠ (E.sectorAt thing.x thing.y).toNat := by
              intro e
              apply h ht
              omega
            split <;> exact updateSector_other _ _ _ _ hne
  · rfl

theorem vertexHeightSector_flat (E : Env) (S : MapSector)
    (h : ¬ (S.vertices.length = 3 ∧ ∃ v ∈ S.vertices, v.zfloor ≠ 0 ∨ v.zceiling ≠ 0)) :
    vertexHeightSector E S = S := by
  unfold vertexHeightSector
  split
  · rename_i v0 v1 v2 hv
    have hz : ∀ v ∈ [v0, v1, v2], v.zfloor = 0 ∧ v.zceiling = 0 := by
      intro v hvm
      by_contra hcon
      apply h
      refine ⟨by rw [hv]; rfl, v, by rw [hv]; exact hvm, ?_⟩
      by_contra hn
      apply hcon
      constructor
      · by_contra h1; exact hn (Or.inl h1)
      · by_contra h1; exact hn (Or.inr h1)
    have h0 := hz v0 (by simp)
    have h1 := hz v1 (by simp)
    have h2 := hz v2 (by simp)
    simp [applyVertexHeightSlope, MapVertex.floatProperty, h0, h1, h2]
  · rfl

theorem planeCopyLine_other (m : SLADEMap) (line : MapLine) (s : Nat)
    (h : line.special = 118 →
      ((line.arg4 % 4 = 1 ∨ line.arg4 / 4 % 4 = 1) → line.back ≠ some s) ∧
      ((line.arg4 % 4 = 2 ∨ line.arg4 / 4 % 4 = 2) → line.front ≠ some s)) :
    (planeCopyLine m line).sectors[s]? = m.sectors[s]? := by
  rcases planeCopyLine_cases m line with e | ⟨f, b, F, B, hs, hf, hb, hF, hB⟩
  · rw [e]
  · obtain ⟨h1, h2⟩ := h hs
    rw [hb] at h1
    rw [hf] at h2
    obtain ⟨m1, hm1, e⟩ := planeCopyLine_eq m line f b F B hs hf hb hF hB
    have hs1 : m1.sectors[s]? = m.sectors[s]? := by
      rw [hm1]
      split_ifs with a1 a2
      · exact updateSector_other _ _ _ _ (fun e => h1 (Or.inl a1) (by rw [e]))
      · exact updateSector_other _ _ _ _ (fun e => h2 (Or.inl a2) (by rw [e]))
      · rfl
    rw [e]
    split_ifs with c1 c2
    · rw [updateSector_other _ _ _ _ (fun e => h1 (Or.inr c1) (by rw [e]))]
      exact hs1
    · rw [updateSector_other _ _ _ _ (fun e => h2 (Or.inr c2) (by rw [e]))]
      exact hs1
    · exact hs1

theorem planeAlignPass_other (E : Env) (m : SLADEMap) (s : Nat)
    (h : ∀ line ∈ m.lines, line.special = 181 →
      ((line.arg0 = 1 ∨ line.arg1 = 1) → line.front ≠ some s) ∧
      ((line.arg0 = 2 ∨ line.arg1 = 2) → line.back ≠ some s)) :
    (planeAlignPass E m).sectors[s]? = m.sectors[s]? :=
  foldl_invariant (planeAlignLine E) (fun m' => m'.sectors[s]? = m.sectors[s]?) m.lines
    (fun line hl m' hm' => (planeAlignLine_other E m' line s (h line hl)).trans hm') m rfl

theorem directionalPass_other (E : Env) (m : SLADEMap) (s : Nat)
    (h1 : ∀ thing ∈ m.things, (thing.type = 9500 ∨ thing.type = 9501) →
      ∀ line ∈ m.lines, line.id = thing.arg0 → line.front ≠ some s ∧ line.back ≠ some s)
    (h2 : ∀ thing ∈ m.things, (thing.type = 9502 ∨ thing.type = 9503) →
      E.sectorAt thing.x thing.y ≠ (s : Int)) :
    (directionalPass E m).sectors[s]? = m.sectors[s]? :=
  (foldl_invariant (directionalThing E)
    (fun m' => m'.lines = m.lines ∧ m'.sectors[s]? = m.sectors[s]?) m.things
    (fun thing ht m' hm' =>
      ⟨(sameFrame_directionalThing E m' thing).1.trans hm'.1,
       (directionalThing_other E m' thing s
          (fun hty line hl hid => h1 thing ht hty line (by rw [← hm'.1]; exact hl) hid)
          (h2 thing ht)).trans hm'.2⟩) m ⟨rfl, rfl⟩).2

theorem slopeCopyPass_other (E : Env) (m : SLADEMap) (s : Nat)
    (h : ∀ thing ∈ m.things, (thing.type = 9510 ∨ thing.type = 9511) →
      E.sectorAt thing.x thing.y ≠ (s : Int)) :
    (slopeCopyPass E m).sectors[s]? = m.sectors[s]? :=
  foldl_invariant (slopeCopyThing E) (fun m' => m'.sectors[s]? = m.sectors[s]?) m.things
    (fun thing ht m' hm' => (slopeCopyThing_other E m' thing s (h thing ht)).trans hm') m rfl

theorem planeCopyPass_other (m : SLADEMap) (s : Nat)
    (h : ∀ line ∈ m.lines, line.special = 118 →
      ((line.arg4 % 4 = 1 ∨ line.arg4 / 4 % 4 = 1) → line.back ≠ some s) ∧
      ((line.arg4 % 4 = 2 ∨ line.arg4 / 4 % 4 = 2) → line.front ≠ some s)) :
    (planeCopyPass m).sectors[s]? = m.sectors[s]? :=
  foldl_invariant planeCopyLine (fun m' => m'.sectors[s]? = m.sectors[s]?) m.lines
    (fun line hl m' hm' => (planeCopyLine_other m' line s (h line hl)).trans hm') m rfl

/-- Reset dominance with its hypotheses spelled out, for any sector index. -/
theorem untargeted_sector_flat (E : Env) (m : SLADEMap) (s : Nat) (S : MapSector)
    (hS : m.sectors[s]? = some S)
    (hAlign : ∀ line ∈ m.lines, line.special = 181 →
      ((line.arg0 = 1 ∨ line.arg1 = 1) → line.front ≠ some s) ∧
      ((line.arg0 = 2 ∨ line.arg1 = 2) → line.back ≠ some s))
    (hLineSlope : ∀ thing ∈ m.things, (thing.type = 9500 ∨ thing.type = 9501) →
      ∀ line ∈ m.lines, line.id = thing.arg0 → line.front ≠ some s ∧ line.back ≠ some s)
    (hInside : ∀ thing ∈ m.things,
      (thing.type = 9502 ∨ thing.type = 9503 ∨ thing.type = 9510 ∨ thing.type = 9511) →
      E.sectorAt thing.x thing.y ≠ (s : Int))
    (hVertex : ¬ (S.vertices.length = 3 ∧ ∃ v ∈ S.vertices, v.zfloor ≠ 0 ∨ v.zceiling ≠ 0))
    (hCopy : ∀ line ∈ m.lines, line.special = 118 →
      ((line.arg4 % 4 = 1 ∨ line.arg4 / 4 % 4 = 1) → line.back ≠ some s) ∧
      ((line.arg4 % 4 = 2 ∨ line.arg4 / 4 % 4 = 2) → line.front ≠ some s)) :
    (processZDoomSlopes E m).sectors[s]? = some (resetSector S) := by
  rw [processZDoomSlopes_passes]
  have f0 := sameFrame_resetPass m
  have f1 := sameFrame_trans _ _ _ f0 (sameFrame_planeAlignPass E (resetPass m))
  have f2 := sameFrame_trans _ _ _ f1 (sameFrame_directionalPass E _)
  have f3 := sameFrame_trans _ _ _ f2 (sameFrame_slopeCopyPass E _)
  have f4 := sameFrame_trans _ _ _ f3 (sameFrame_vertexHeightPass E _)
  have s0 : (resetPass m).sectors[s]? = some (resetSector S) := by
    simp [resetPass, List.getElem?_map, hS]
  have s1 : (planeAlignPass E (resetPass m)).sectors[s]? = some (resetSector S) := by
    rw [planeAlignPass_other E _ s (by rw [f0.1]; exact hAlign)]
    exact s0
  have hTilt : ∀ thing ∈ m.things, (thing.type = 9502 ∨ thing.type = 9503) →
      E.sectorAt thing.x thing.y ≠ (s : Int) := by
    intro t ht hty
    apply hInside t ht
    rcases hty with h | h <;> simp [h]
  have hSlopeCopy : ∀ thing ∈ m.things, (thing.type = 9510 ∨ thing.type = 9511) →
      E.sectorAt thing.x thing.y ≠ (s : Int) := by
    intro t ht hty
    apply hInside t ht
    rcases hty with h | h <;> simp [h]
  have s2 : (directionalPass E (planeAlignPass E (resetPass m))).sectors[s]? =
      some (resetSector S) := by
    rw [directionalPass_other E _ s (by rw [f1.1, f1.2.1]; exact hLineSlope)
      (by rw [f1.2.1]; exact hTilt)]
    exact s1
  have s3 : (slopeCopyPass E (directionalPass E (planeAlignPass E (resetPass m)))).sectors[s]? =
      some (resetSector S) := by
    rw [slopeCopyPass_other E _ s (by rw [f2.2.1]; exact hSlopeCopy)]
    exact s2
  have s4 : (vertexHeightPass E (slopeCopyPass E (directionalPass E
      (planeAlignPass E (resetPass m))))).sectors[s]? = some (resetSector S) := by
    simp only [vertexHeightPass, List.getElem?_map, s3, Option.map_some']
    rw [vertexHeightSector_flat E (resetSector S) hVertex]
  rw [planeCopyPass_other _ s (by rw [f4.1]; exact hCopy)]
  exact s4

/-- C12: a sector that no pass after the reset targets ends the slope solver
with the flat planes at its scalar floor and ceiling heights, whatever planes
it held before. Not targeted means: it is not the target side of a Plane_Align
line (the front for argument 1, the back for argument 2), not a side sector
of a line whose id a line slope thing names, does not contain a sector tilt or
slope copy thing, does not have exactly three vertices of which one has a
height that is not zero, and is not the side a Plane_Copy line copies to. -/
theorem reset_dominance (E : Env) (m : SLADEMap) (s : Nat) (S : MapSector)
    (hS : m.sectors[s]? = some S)
    (hAlign : ∀ line ∈ m.lines, line.special = 181 →
      ((line.arg0 = 1 ∨ line.arg1 = 1) → line.front ≠ some s) ∧
      ((line.arg0 = 2 ∨ line.arg1 = 2) → line.back ≠ some s))
    (hLineSlope : ∀ thing ∈ m.things, (thing.type = 9500 ∨ thing.type = 9501) →
      ∀ line ∈ m.lines, line.id = thing.arg0 → line.front ≠ some s ∧ line.back ≠ some s)
    (hInside : ∀ thing ∈ m.things,
      (thing.type = 9502 ∨ thing.type = 9503 ∨ thing.type = 9510 ∨ thing.type = 9511) →
      E.sectorAt thing.x thing.y ≠ (s : Int))
    (hVertex : ¬ (S.vertices.length = 3 ∧ ∃ v ∈ S.vertices, v.zfloor ≠ 0 ∨ v.zceiling ≠ 0))
    (hCopy : ∀ line ∈ m.lines, line.special = 118 →
      ((line.arg4 % 4 = 1 ∨ line.arg4 / 4 % 4 = 1) → line.back ≠ some s) ∧
      ((line.arg4 % 4 = 2 ∨ line.arg4 / 4 % 4 = 2) → line.front ≠ some s)) :
    (processZDoomSlopes E m).sectors[s]? =
      some { S with plane_floor := plane_t.flat S.heightfloor,
                    plane_ceiling := plane_t.flat S.heightceiling } :=
  untargeted_sector_flat E m s S hS hAlign hLineSlope hInside hVertex hCopy

theorem applyPlaneAlign_floor_strip (E : Env) (line : MapLine) (target model : Nat)
    (m : SLADEMap) (j : Nat) :
    ((applyPlaneAlign E .FLOOR_PLANE line target model m).sectors[j]?).map
        (fun s => { s with plane_floor := plane_t.flat 0 }) =
      (m.sectors[j]?).map (fun s => { s with plane_floor := plane_t.flat 0 }) := by
  unfold applyPlaneAlign
  split
  · simp only []
    split
    · rfl
    · split
      · rfl
      · rw [updateSector_getElem]
        by_cases h : j = target <;> cases m.sectors[j]? <;> simp [h, MapSector.setPlane]
  · rfl

/-- C14: for a line with special 181 whose front and back sectors exist and
differ, the floor planes after the line are those of the floor alignment with
the front sector as target and the back sector as model when arg0 = 1, with
the back sector as target and the front as model when arg0 = 2, and those of
before for any other arg0; the ceiling planes are chosen by arg1 in the same
way, whatever arg0 is. When an alignment fits a target, the target gets the
plane of `planeFromTriangle` at the two end points of the line with the
scalar height of the model and at the farthest vertex with the scalar height
of the target, which passes through these points when the vertex is not on
the line through the end points; the model and every other sector are as
before. -/
theorem planeAlignLine_sides (E : Env) (m : SLADEMap) (line : MapLine) (f b : Nat)
    (hs : line.special = 181) (hf : line.front = some f) (hb : line.back = some b)
    (hne : f ≠ b) :
    (∀ j : Nat, ((planeAlignLine E m line).sectors[j]?).map (fun s => s.plane_floor) =
      ((if line.arg0 = 1 then applyPlaneAlign E .FLOOR_PLANE line f b m
        else if line.arg0 = 2 then applyPlaneAlign E .FLOOR_PLANE line b f m
        else m).sectors[j]?).map (fun s => s.plane_floor)) ∧
    (∀ j : Nat, ((planeAlignLine E m line).sectors[j]?).map (fun s => s.plane_ceiling) =
      ((if line.arg1 = 1 then applyPlaneAlign E .CEILING_PLANE line f b m
        else if line.arg1 = 2 then applyPlaneAlign E .CEILING_PLANE line b f m
        else m).sectors[j]?).map (fun s => s.plane_ceiling)) ∧
    (∀ (p : PlaneType) (target model : Nat) (T M : MapSector) (v : MapVertex) (d : ℚ),
      m.sectors[target]? = some T → m.sectors[model]? = some M → target ≠ model →
      furthestVertex E line T.vertices 0 none = (d, some v) → 1 / 100 ≤ d →
      (applyPlaneAlign E p line target model m).sectors[target]? =
        some (T.setPlane p
          (planeFromTriangle { x := line.x1, y := line.y1, z := M.getPlaneHeight p }
            { x := line.x2, y := line.y2, z := M.getPlaneHeight p }
            { x := v.x, y := v.y, z := T.getPlaneHeight p })) ∧
      ((v.x - line.x1) * (line.y2 - line.y1) - (v.y - line.y1) * (line.x2 - line.x1) ≠ 0 →
        ∀ T1 : MapSector,
          (applyPlaneAlign E p line target model m).sectors[target]? = some T1 →
          (T1.getPlane p).height_at line.x1 line.y1 = M.getPlaneHeight p ∧
          (T1.getPlane p).height_at line.x2 line.y2 = M.getPlaneHeight p ∧
          (T1.getPlane p).height_at v.x v.y = T.getPlaneHeight p) ∧
      (applyPlaneAlign E p line target model m).sectors[model]? = some M ∧
      ∀ j : Nat, j ≠ target →
        (applyPlaneAlign E p line target model m).sectors[j]? = m.sectors[j]?) := by
  obtain ⟨m1, hm1, e⟩ := planeAlignLine_eq E m line f b hs hf hb hne
  have strip : ∀ j : Nat,
      (m1.sectors[j]?).map (fun s => { s with plane_floor := plane_t.flat 0 }) =
      (m.sectors[j]?).map (fun s => { s with plane_floor := plane_t.flat 0 }) := by
    intro j
    rw [hm1]
    split_ifs
    · exact applyPlaneAlign_floor_strip E line f b m j
    · exact applyPlaneAlign_floor_strip E line b f m j
    · rfl
  have hceil : ∀ j : Nat, (m1.sectors[j]?).map (fun s => s.plane_ceiling) =
      (m.sectors[j]?).map (fun s => s.plane_ceiling) := by
    intro j
    have := congrArg (Option.map (fun s : MapSector => s.plane_ceiling)) (strip j)
    simpa [Option.map_map, Function.comp] using this
  refine ⟨?_, ?_, ?_⟩
  · intro j
    rw [e, ← hm1]
    split_ifs
    · exact (applyPlaneAlign_other_kind E line f b m1 j).2
    · exact (applyPlaneAlign_other_kind E line b f m1 j).2
    · rfl
  · intro j
    rw [e]
    split_ifs
    · exact applyPlaneAlign_ceiling_congr E line f b m m1 strip j
    · exact applyPlaneAlign_ceiling_congr E line b f m m1 strip j
    · exact hceil j
  · intro p target model T M v d hT hM hdiff hfound hd
    have efit := applyPlaneAlign_fitted E p line target model m T M v d hT hM hfound hd
    have hself : (applyPlaneAlign E p line target model m).sectors[target]? =
        some (T.setPlane p
          (planeFromTriangle { x := line.x1, y := line.y1, z := M.getPlaneHeight p }
            { x := line.x2, y := line.y2, z := M.getPlaneHeight p }
            { x := v.x, y := v.y, z := T.getPlaneHeight p })) := by
      rw [efit]
      exact updateSector_self _ _ _ _ hT
    refine ⟨hself, ?_, ?_, ?_⟩
    · intro hcol T1 hT1
      rw [hself] at hT1
      cases hT1
      rw [(setPlane_floor_view p T _).2.2.2.2.2.2]
      exact planeFromTriangle_heights
        { x := line.x1, y := line.y1, z := M.getPlaneHeight p }
        { x := line.x2, y := line.y2, z := M.getPlaneHeight p }
        { x := v.x, y := v.y, z := T.getPlaneHeight p } hcol
    · rw [applyPlaneAlign_other E p line target model m model (fun e => hdiff e.symm)]
      exact hM
    · intro j hj
      exact applyPlaneAlign_other E p line target model m j hj

theorem sameFrame_sector (m m' : SLADEMap) (h : SameFrame m m') (j : Nat) (S : MapSector)
    (hS : m.sectors[j]? = some S) :
    ∃ S', m'.sectors[j]? = some S' ∧ S'.tag = S.tag ∧ S'.heightfloor = S.heightfloor ∧
      S'.heightceiling = S.heightceiling ∧ S'.vertices = S.vertices := by
  have := h.2.2 j
  rw [hS] at this
  cases h' : m'.sectors[j]? with
  | none => rw [h'] at this; simp at this
  | some S' =>
    rw [h'] at this
    simp only [Option.map_some', Option.some.injEq, resetSector, MapSector.mk.injEq] at this
    exact ⟨S', rfl, this.1, this.2.1, this.2.2.1, this.2.2.2.2.2⟩

/-- The passes after the Plane_Align pass leave a sector as it is when no
line slope thing names a line with the sector on a side, no sector tilt or
slope copy thing lies in it, it does not have three vertices, and no
Plane_Copy line copies to it. -/
theorem passes_after_align_keep (E : Env) (m m2 : SLADEMap) (b : Nat) (B1 : MapSector)
    (frame : SameFrame m m2) (hB1 : m2.sectors[b]? = some B1)
    (h3 : B1.vertices.length ≠ 3)
    (hLineSlope : ∀ thing ∈ m.things, (thing.type = 9500 ∨ thing.type = 9501) →
      ∀ l ∈ m.lines, l.id = thing.arg0 → l.front ≠ some b ∧ l.back ≠ some b)
    (hInside : ∀ thing ∈ m.things,
      (thing.type = 9502 ∨ thing.type = 9503 ∨ thing.type = 9510 ∨ thing.type = 9511) →
      E.sectorAt thing.x thing.y ≠ (b : Int))
    (hCopy : ∀ l ∈ m.lines, l.special = 118 →
      ((l.arg4 % 4 = 1 ∨ l.arg4 / 4 % 4 = 1) → l.back ≠ some b) ∧
      ((l.arg4 % 4 = 2 ∨ l.arg4 / 4 % 4 = 2) → l.front ≠ some b)) :
    (planeCopyPass (vertexHeightPass E (slopeCopyPass E (directionalPass E m2)))).sectors[b]? =
      some B1 := by
  have f2 := sameFrame_trans _ _ _ frame (sameFrame_directionalPass E m2)
  have f3 := sameFrame_trans _ _ _ f2 (sameFrame_slopeCopyPass E _)
  have f4 := sameFrame_trans _ _ _ f3 (sameFrame_vertexHeightPass E _)
  have hTilt : ∀ thing ∈ m.things, (thing.type = 9502 ∨ thing.type = 9503) →
      E.sectorAt thing.x thing.y ≠ (b : Int) := by
    intro t ht hty
    apply hInside t ht
    rcases hty with h | h <;> simp [h]
  have hSlopeCopy : ∀ thing ∈ m.things, (thing.type = 9510 ∨ thing.type = 9511) →
      E.sectorAt thing.x thing.y ≠ (b : Int) := by
    intro t ht hty
    apply hInside t ht
    rcases hty with h | h <;> simp [h]
  have s2 : (directionalPass E m2).sectors[b]? = some B1 := by
    rw [directionalPass_other E _ b (by rw [frame.1, frame.2.1]; exact hLineSlope)
      (by rw [frame.2.1]; exact hTilt)]
    exact hB1
  have s3 : (slopeCopyPass E (directionalPass E m2)).sectors[b]? = some B1 := by
    rw [slopeCopyPass_other E _ b (by rw [f2.2.1]; exact hSlopeCopy)]
    exact s2
  have s4 : (vertexHeightPass E (slopeCopyPass E (directionalPass E m2))).sectors[b]? =
      some B1 := by
    simp only [vertexHeightPass, List.getElem?_map, s3, Option.map_some']
    rw [vertexHeightSector_flat E B1 (fun h => h3 h.1)]
  rw [planeCopyPass_other _ b (by rw [f4.1]; exact hCopy)]
  exact s4

/-- C13, amended (arg0 = 2 in place of arg0 = 1, and nothing after the line
targets B): on any map, for a line with special 181, front sector F with floor
height 0, back sector B, distinct from F, with floor height 64, and arg0 = 2,
where B has four vertices of which the farthest from the line, at distance
100, is not on the line through the end points, and where B is not the target
side of a Plane_Align line later in line order, not a side sector of a line
whose id a line slope thing names, does not contain a sector tilt or slope
copy thing, and is not the side a Plane_Copy line copies to, the floor plane
of B after the slope solver passes through the two end points of the line at
height 0 and through that vertex at height 64. The lines before the line, the
other sectors and the other things are arbitrary. -/
theorem planeAlign_back_floor (E : Env) (m : SLADEMap) (pre post : List MapLine)
    (line : MapLine) (f b : Nat) (F B : MapSector) (v : MapVertex)
    (hl : m.lines = pre ++ line :: post) (hs : line.special = 181)
    (hf : line.front = some f) (hb : line.back = some b) (hne : f ≠ b)
    (hF : m.sectors[f]? = some F) (hB : m.sectors[b]? = some B)
    (hFh : F.heightfloor = 0) (hBh : B.heightfloor = 64) (harg : line.arg0 = 2)
    (hrect : B.vertices.length = 4)
    (hfar : furthestVertex E line B.vertices 0 none = (100, some v))
    (hcol : (v.x - line.x1) * (line.y2 - line.y1) - (v.y - line.y1) * (line.x2 - line.x1) ≠ 0)
    (hAlign : ∀ l ∈ post, l.special = 181 →
      ((l.arg0 = 1 ∨ l.arg1 = 1) → l.front ≠ some b) ∧
      ((l.arg0 = 2 ∨ l.arg1 = 2) → l.back ≠ some b))
    (hLineSlope : ∀ thing ∈ m.things, (thing.type = 9500 ∨ thing.type = 9501) →
      ∀ l ∈ m.lines, l.id = thing.arg0 → l.front ≠ some b ∧ l.back ≠ some b)
    (hInside : ∀ thing ∈ m.things,
      (thing.type = 9502 ∨ thing.type = 9503 ∨ thing.type = 9510 ∨ thing.type = 9511) →
      E.sectorAt thing.x thing.y ≠ (b : Int))
    (hCopy : ∀ l ∈ m.lines, l.special = 118 →
      ((l.arg4 % 4 = 1 ∨ l.arg4 / 4 % 4 = 1) → l.back ≠ some b) ∧
      ((l.arg4 % 4 = 2 ∨ l.arg4 / 4 % 4 = 2) → l.front ≠ some b)) :
    ∃ B' : MapSector, (processZDoomSlopes E m).sectors[b]? = some B' ∧
      B'.plane_floor.height_at line.x1 line.y1 = 0 ∧
      B'.plane_floor.height_at line.x2 line.y2 = 0 ∧
      B'.plane_floor.height_at v.x v.y = 64 := by
  rw [processZDoomSlopes_passes]
  -- the Plane_Align pass: the lines before, the line, the lines after
  have hpass : planeAlignPass E (resetPass m) =
      post.foldl (planeAlignLine E)
        (planeAlignLine E (pre.foldl (planeAlignLine E) (resetPass m)) line) := by
    have : (resetPass m).lines = pre ++ line :: post := hl
    simp [planeAlignPass, this, List.foldl_append]
  have framep : SameFrame m (pre.foldl (planeAlignLine E) (resetPass m)) :=
    foldl_invariant (planeAlignLine E) (fun m' => SameFrame m m') pre
      (fun l _ m' hm' => sameFrame_trans _ _ _ hm' (sameFrame_planeAlignLine E m' l))
      (resetPass m) (sameFrame_resetPass m)
  generalize pre.foldl (planeAlignLine E) (resetPass m) = mp at hpass framep
  obtain ⟨Bp, hBp, _, hBph, _, hBpv⟩ := sameFrame_sector _ _ framep b B hB
  obtain ⟨Fp, hFp, _, hFph, _, _⟩ := sameFrame_sector _ _ framep f F hF
  obtain ⟨m1, hm1, e⟩ := planeAlignLine_eq E mp line f b hs hf hb hne
  have a1 : ¬ line.arg0 = 1 := by rw [harg]; decide
  rw [if_neg a1, if_pos harg] at hm1
  have efit := applyPlaneAlign_fitted E .FLOOR_PLANE line b f mp Bp Fp v 100 hBp hFp
    (by rw [hBpv]; exact hfar) (by norm_num)
  -- the floor plane of B after the floor step of the line
  have hfloor1 : (m1.sectors[b]?).map (fun s => s.plane_floor) =
      some (planeFromTriangle { x := line.x1, y := line.y1, z := 0 }
        { x := line.x2, y := line.y2, z := 0 } { x := v.x, y := v.y, z := 64 }) := by
    rw [hm1, efit, updateSector_self _ _ _ _ hBp]
    simp [MapSector.setPlane, MapSector.getPlaneHeight, hFph, hBph, hFh, hBh]
  have hfloor2 : ((planeAlignLine E mp line).sectors[b]?).map
      (fun s => s.plane_floor) = (m1.sectors[b]?).map (fun s => s.plane_floor) := by
    rw [e]
    split_ifs
    · exact (applyPlaneAlign_other_kind E line f b m1 b).2
    · exact (applyPlaneAlign_other_kind E line b f m1 b).2
    · rfl
  have frame1 : SameFrame m (planeAlignLine E mp line) :=
    sameFrame_trans _ _ _ framep (sameFrame_planeAlignLine E _ line)
  obtain ⟨B1, hB1, _, _, _, hv⟩ := sameFrame_sector _ _ frame1 b B hB
  have hfl : B1.plane_floor = planeFromTriangle { x := line.x1, y := line.y1, z := 0 }
      { x := line.x2, y := line.y2, z := 0 } { x := v.x, y := v.y, z := 64 } := by
    rw [hfloor1, hB1] at hfloor2
    simpa using hfloor2
  -- the lines after the line leave B as it is
  have hpost : SameFrame m (post.foldl (planeAlignLine E) (planeAlignLine E mp line)) ∧
      (post.foldl (planeAlignLine E) (planeAlignLine E mp line)).sectors[b]? = some B1 :=
    foldl_invariant (planeAlignLine E)
      (fun m' => SameFrame m m' ∧ m'.sectors[b]? = some B1) post
      (fun l hlp m' hm' =>
        ⟨sameFrame_trans _ _ _ hm'.1 (sameFrame_planeAlignLine E m' l),
         (planeAlignLine_other E m' l b (hAlign l hlp)).trans hm'.2⟩)
      (planeAlignLine E mp line) ⟨frame1, hB1⟩
  have hlast := passes_after_align_keep E m _ b B1 hpost.1 hpost.2
    (by rw [hv, hrect]; decide) hLineSlope hInside hCopy
  rw [hpass]
  refine ⟨B1, hlast, ?_⟩
  rw [hfl]
  exact planeFromTriangle_heights { x := line.x1, y := line.y1, z := 0 }
    { x := line.x2, y := line.y2, z := 0 } { x := v.x, y := v.y, z := 64 } hcol

/-! ### Line slope things -/

theorem lineSlopeLoop_known (E : Env) (p : PlaneType) (thing : MapThing)
    (lines : List MapLine) (z : ℚ) (m : SLADEMap) :
    lineSlopeLoop E p thing lines (some z) m = lines.foldl (lineSlopeFit E p thing z) m := by
  induction lines generalizing m with
  | nil => rfl
  | cons line rest ih =>
    rw [List.foldl_cons]
    unfold lineSlopeLoop
    simp only []
    cases ht : lineSlopeTarget E thing line with
    | none =>
      have ht' := ht
      unfold lineSlopeTarget at ht'
      simp only [ht', lineSlopeFit, ht]
      exact ih m
    | some t =>
      have ht' := ht
      unfold lineSlopeTarget at ht'
      cases hT : m.sectors[t]? with
      | none =>
        simp only [ht', lineSlopeFit, ht, hT]
        exact ih m
      | some T =>
        simp only [ht', lineSlopeFit, ht, hT, lineSlopePlane]
        exact ih _

theorem lineSlopeLoop_first (E : Env) (p : PlaneType) (thing : MapThing)
    (lines : List MapLine) (m : SLADEMap) (c : Nat) (C : MapSector)
    (hc : E.sectorAt thing.x thing.y = (c : Int)) (hC : m.sectors[c]? = some C) :
    lineSlopeLoop E p thing lines none m =
      lines.foldl
        (lineSlopeFit E p thing ((C.getPlane p).height_at thing.x thing.y + thing.height)) m := by
  induction lines with
  | nil => rfl
  | cons line rest ih =>
    rw [List.foldl_cons]
    have hnn : ¬ E.sectorAt thing.x thing.y < 0 := by rw [hc]; omega
    have htn : (E.sectorAt thing.x thing.y).toNat = c := by rw [hc]; simp
    unfold lineSlopeLoop
    simp only []
    cases ht : lineSlopeTarget E thing line with
    | none =>
      have ht' := ht
      unfold lineSlopeTarget at ht'
      simp only [ht', lineSlopeFit, ht]
      exact ih
    | some t =>
      have ht' := ht
      unfold lineSlopeTarget at ht'
      cases hT : m.sectors[t]? with
      | none =>
        simp only [ht', lineSlopeFit, ht, hT]
        exact ih
      | some T =>
        simp only [ht', lineSlopeFit, ht, hT, lineSlopePlane, hnn, if_false, htn, hC]
        exact lineSlopeLoop_known E p thing rest _ _

/-- C20: a thing of type 9500 (floor) or 9501 (ceiling) with a line id that
is not 0, lying in a sector C, is applied to the lines with that id in index
order. At each line the target is the back sector when the line side value of
the thing is negative, the front sector when it is positive, and the line is
skipped when the value is zero or the side has no sector. A target gets the
plane of `planeFromTriangle` at the two end points of the line, at the heights
its plane had there before, and at the thing, at the height that the plane of
C had at the thing before the thing changed any plane, plus the height of the
thing; the new plane takes these three heights when the thing is not on the
line through the end points. No other sector changes at that line. -/
theorem applyLineSlopeThing_fits (E : Env) (p : PlaneType) (m : SLADEMap) (thing : MapThing)
    (c : Nat) (C : MapSector) (hid : thing.arg0 ≠ 0)
    (hc : E.sectorAt thing.x thing.y = (c : Int)) (hC : m.sectors[c]? = some C) :
    (thing.type = 9500 →
      directionalThing E m thing = applyLineSlopeThing E .FLOOR_PLANE m thing) ∧
    (thing.type = 9501 →
      directionalThing E m thing = applyLineSlopeThing E .CEILING_PLANE m thing) ∧
    applyLineSlopeThing E p m thing =
      ((m.getLinesById thing.arg0).filterMap fun i => m.lines[i]?).foldl
        (lineSlopeFit E p thing ((C.getPlane p).height_at thing.x thing.y + thing.height)) m ∧
    (∀ line : MapLine,
      (E.lineSide thing.x thing.y line.x1 line.y1 line.x2 line.y2 < 0 →
        lineSlopeTarget E thing line = line.back) ∧
      (E.lineSide thing.x thing.y line.x1 line.y1 line.x2 line.y2 > 0 →
        lineSlopeTarget E thing line = line.front) ∧
      (E.lineSide thing.x thing.y line.x1 line.y1 line.x2 line.y2 = 0 →
        lineSlopeTarget E thing line = none)) ∧
    (∀ (m' : SLADEMap) (line : MapLine) (z : ℚ),
      lineSlopeTarget E thing line = none → lineSlopeFit E p thing z m' line = m') ∧
    (∀ (m' : SLADEMap) (line : MapLine) (z : ℚ) (t : Nat) (T : MapSector),
      lineSlopeTarget E thing line = some t → m'.sectors[t]? = some T →
      (lineSlopeFit E p thing z m' line).sectors[t]? =
        some (T.setPlane p (lineSlopePlane thing line (T.getPlane p) z)) ∧
      (∀ j : Nat, j ≠ t → (lineSlopeFit E p thing z m' line).sectors[j]? = m'.sectors[j]?) ∧
      ((thing.x - line.x1) * (line.y2 - line.y1) -
          (thing.y - line.y1) * (line.x2 - line.x1) ≠ 0 →
        (lineSlopePlane thing line (T.getPlane p) z).height_at line.x1 line.y1 =
          (T.getPlane p).height_at line.x1 line.y1 ∧
        (lineSlopePlane thing line (T.getPlane p) z).height_at line.x2 line.y2 =
          (T.getPlane p).height_at line.x2 line.y2 ∧
        (lineSlopePlane thing line (T.getPlane p) z).height_at thing.x thing.y = z)) := by
  refine ⟨?_, ?_, ?_, ?_, ?_, ?_⟩
  · intro h
    simp [directionalThing, h]
  · intro h
    simp [directionalThing, h]
  · unfold applyLineSlopeThing
    simp only [hid, if_false]
    exact lineSlopeLoop_first E p thing _ m c C hc hC
  · intro line
    refine ⟨?_, ?_, ?_⟩
    · intro h
      simp [lineSlopeTarget, h]
    · intro h
      have : ¬ E.lineSide thing.x thing.y line.x1 line.y1 line.x2 line.y2 < 0 :=
        not_lt.2 (le_of_lt h)
      simp [lineSlopeTarget, h, this]
    · intro h
      simp [lineSlopeTarget, h]
  · intro m' line z h
    simp [lineSlopeFit, h]
  · intro m' line z t T ht hT
    have e : lineSlopeFit E p thing z m' line =
        m'.updateSector t fun s =>
          s.setPlane p (lineSlopePlane thing line (T.getPlane p) z) := by
      simp [lineSlopeFit, ht, hT]
    refine ⟨?_, ?_, ?_⟩
    · rw [e]
      exact updateSector_self _ _ _ _ hT
    · intro j hj
      rw [e]
      exact updateSector_other _ _ _ _ hj
    · intro hcol
      exact planeFromTriangle_heights
        { x := line.x1, y := line.y1, z := (T.getPlane p).height_at line.x1 line.y1 }
        { x := line.x2, y := line.y2, z := (T.getPlane p).height_at line.x2 line.y2 }
        { x := thing.x, y := thing.y, z := z } hcol

/-! ### Running the specials twice -/

theorem bare_setTranslucency (alpha : ℚ) (type : String) (l : MapLine) :
    (l.setTranslucency alpha type).bare = l.bare := rfl

theorem bare_lineEffect (ln : MapLine) (i j : Nat) (l : MapLine) :
    (lineEffect ln i j l).bare = l.bare := by
  unfold lineEffect
  split <;> rfl

theorem lineEffect_congr (ln ln' : MapLine) (i j : Nat) (l : MapLine)
    (h : ln.bare = ln'.bare) : lineEffect ln i j l = lineEffect ln' i j l := by
  simp only [MapLine.bare, MapLine.mk.injEq] at h
  obtain ⟨h1, h2, h3, h4, _⟩ := h
  unfold lineEffect
  rw [h1, h2, h3, h4]

theorem lineEffect_same (ln : MapLine) (i j : Nat) (x y : MapLine) (h : x.bare = y.bare) :
    (lineEffect ln i j x = x ∧ lineEffect ln i j y = y) ∨
    lineEffect ln i j x = lineEffect ln i j y := by
  have hid : x.id = y.id := by
    simp only [MapLine.bare, MapLine.mk.injEq] at h
    exact h.2.2.2.2.2.2.1
  unfold lineEffect
  rw [hid]
  split
  · right
    simp only [MapLine.bare, MapLine.mk.injEq] at h
    simp [MapLine.setTranslucency, h]
  · left
    exact ⟨rfl, rfl⟩

theorem bare_lineEffects (L : List MapLine) (j : Nat) (is : List Nat) (l : MapLine) :
    (lineEffects L j is l).bare = l.bare := by
  induction is generalizing l with
  | nil => rfl
  | cons i rest ih =>
    unfold lineEffects
    rw [ih]
    cases L[i]? with
    | none => rfl
    | some ln => exact bare_lineEffect ln i j l

theorem lineEffects_same (L : List MapLine) (j : Nat) (is : List Nat) (x y : MapLine)
    (h : x.bare = y.bare) :
    (lineEffects L j is x = x ∧ lineEffects L j is y = y) ∨
    lineEffects L j is x = lineEffects L j is y := by
  induction is generalizing x y with
  | nil => left; exact ⟨rfl, rfl⟩
  | cons i rest ih =>
    unfold lineEffects
    cases hL : L[i]? with
    | none => exact ih x y h
    | some ln =>
      simp only []
      rcases lineEffect_same ln i j x y h with ⟨hx, hy⟩ | hxy
      · rw [hx, hy]
        exact ih x y h
      · right
        rw [hxy]

theorem lineEffects_idem (L : List MapLine) (j : Nat) (is : List Nat) (x : MapLine) :
    lineEffects L j is (lineEffects L j is x) = lineEffects L j is x := by
  rcases lineEffects_same L j is x (lineEffects L j is x) (bare_lineEffects L j is x).symm
    with ⟨hx, _⟩ | hxy
  · rw [hx, hx]
  · exact hxy.symm

theorem lineEffects_congr (L L' : List MapLine) (j : Nat) (is : List Nat) (l : MapLine)
    (h : ∀ k : Nat, (L[k]?).map MapLine.bare = (L'[k]?).map MapLine.bare) :
    lineEffects L j is l = lineEffects L' j is l := by
  induction is generalizing l with
  | nil => rfl
  | cons i rest ih =>
    unfold lineEffects
    have hi := h i
    cases h1 : L[i]? with
    | none =>
      cases h2 : L'[i]? with
      | none => exact ih l
      | some ln' => rw [h1, h2] at hi; simp at hi
    | some ln =>
      cases h2 : L'[i]? with
      | none => rw [h1, h2] at hi; simp at hi
      | some ln' =>
        rw [h1, h2] at hi
        simp only [Option.map_some', Option.some.injEq] at hi
        simp only []
        rw [lineEffect_congr ln ln' i j l hi]
        exact ih _

theorem processZDoomLineSpecial_getElem (m : SLADEMap) (i j : Nat) :
    (processZDoomLineSpecial m i).lines[j]? =
      (m.lines[j]?).map fun l =>
        match m.lines[i]? with
        | some ln => lineEffect ln i j l
        | none => l := by
  cases hi : m.lines[i]? with
  | none =>
    simp [processZDoomLineSpecial, hi]
  | some ln =>
    simp only []
    by_cases hs : ln.special = 208
    · by_cases hpos : 0 < ln.arg0
      · rw [tagged_lines_getElem m i ln hi hs hpos j]
        congr 1
        funext l
        simp [lineEffect, hs, hpos]
      · have e : processZDoomLineSpecial m i =
            setTranslucent ((ln.arg1 : ℚ) / 255)
              (if ln.arg2 = 0 then "translucent" else "add") [i] m := by
          have : ¬ ln.arg0 > 0 := hpos
          simp [processZDoomLineSpecial, hi, hs, this]
        rw [e, setTranslucent_getElem]
        by_cases hj : j = i
        · simp [hj, lineEffect, hs, hpos]
        · simp [hj, lineEffect, hs, hpos]
    · have e : processZDoomLineSpecial m i = m := by
        unfold processZDoomLineSpecial
        simp only [hi]
        split_ifs <;> rfl
      rw [e]
      have : ∀ l, lineEffect ln i j l = l := by
        intro l
        simp [lineEffect, hs]
      simp [this]

theorem processZDoomLineSpecial_frame (m : SLADEMap) (i : Nat) :
    (processZDoomLineSpecial m i).sectors = m.sectors ∧
    (processZDoomLineSpecial m i).things = m.things := by
  unfold processZDoomLineSpecial
  split
  · exact ⟨rfl, rfl⟩
  · split_ifs
    all_goals first
      | exact ⟨rfl, rfl⟩
      | exact setTranslucent_frame _ _ _ _

theorem foldl_lineSpecial_getElem (L : List MapLine) (is : List Nat) (m : SLADEMap)
    (h : ∀ k : Nat, (m.lines[k]?).map MapLine.bare = (L[k]?).map MapLine.bare) (j : Nat) :
    (is.foldl processZDoomLineSpecial m).lines[j]? =
      (m.lines[j]?).map (lineEffects L j is) := by
  induction is generalizing m with
  | nil =>
    simp only [List.foldl_nil]
    cases m.lines[j]? <;> rfl
  | cons i rest ih =>
    rw [List.foldl_cons]
    have hstep : ∀ k : Nat, ((processZDoomLineSpecial m i).lines[k]?).map MapLine.bare =
        (L[k]?).map MapLine.bare := by
      intro k
      rw [processZDoomLineSpecial_getElem, ← h k]
      cases m.lines[k]? with
      | none => rfl
      | some l =>
        cases m.lines[i]? with
        | none => rfl
        | some ln => simp [bare_lineEffect]
    rw [ih _ hstep, processZDoomLineSpecial_getElem]
    cases hj : m.lines[j]? with
    | none => rfl
    | some l =>
      simp only [Option.map_some', Option.some.injEq]
      have hi := h i
      cases h1 : m.lines[i]? with
      | none =>
        cases h2 : L[i]? with
        | none => simp [lineEffects, h2]
        | some ln' => rw [h1, h2] at hi; simp at hi
      | some ln =>
        cases h2 : L[i]? with
        | none => rw [h1, h2] at hi; simp at hi
        | some ln' =>
          rw [h1, h2] at hi
          simp only [Option.map_some', Option.some.injEq] at hi
          simp only [lineEffects, h2]
          rw [lineEffect_congr ln ln' i j l hi]

theorem foldl_lineSpecial_frame (is : List Nat) (m : SLADEMap) :
    (is.foldl processZDoomLineSpecial m).sectors = m.sectors ∧
    (is.foldl processZDoomLineSpecial m).things = m.things :=
  foldl_invariant processZDoomLineSpecial
    (fun m' => m'.sectors = m.sectors ∧ m'.things = m.things) is
    (fun i _ m' hm' =>
      ⟨(processZDoomLineSpecial_frame m' i).1.trans hm'.1,
       (processZDoomLineSpecial_frame m' i).2.trans hm'.2⟩) m ⟨rfl, rfl⟩

theorem length_of_getElem_map {α : Type} (l l' : List α) (f : Nat → α → α)
    (h : ∀ j : Nat, l'[j]? = (l[j]?).map (f j)) : l'.length = l.length := by
  apply Nat.le_antisymm
  · by_contra hlt
    have h1 := h l.length
    rw [List.getElem?_eq_none (Nat.le_refl _)] at h1
    rw [List.getElem?_eq_getElem (by omega)] at h1
    simp at h1
  · by_contra hlt
    have h1 := h l'.length
    rw [List.getElem?_eq_none (Nat.le_refl _)] at h1
    rw [List.getElem?_eq_getElem (by omega)] at h1
    simp at h1

theorem lineSpecialPass_getElem (m : SLADEMap) (j : Nat) :
    (lineSpecialPass m).lines[j]? =
      (m.lines[j]?).map (lineEffects m.lines j (List.range m.lines.length)) :=
  foldl_lineSpecial_getElem m.lines _ m (fun _ => rfl) j

theorem lineSpecialPass_length (m : SLADEMap) :
    (lineSpecialPass m).lines.length = m.lines.length :=
  length_of_getElem_map m.lines (lineSpecialPass m).lines
    (fun j => lineEffects m.lines j (List.range m.lines.length))
    (lineSpecialPass_getElem m)

theorem lineSpecialPass_fixed (m X : SLADEMap) (hX : X.lines = (lineSpecialPass m).lines) :
    lineSpecialPass X = X := by
  have hbare : ∀ k : Nat, (X.lines[k]?).map MapLine.bare = (m.lines[k]?).map MapLine.bare := by
    intro k
    rw [hX, lineSpecialPass_getElem]
    cases m.lines[k]? with
    | none => rfl
    | some l => simp [bare_lineEffects]
  have hlen : X.lines.length = m.lines.length := by
    rw [hX]
    exact lineSpecialPass_length m
  have hlines : (lineSpecialPass X).lines = X.lines := by
    apply List.ext_getElem?
    intro j
    have e1 : (lineSpecialPass X).lines[j]? =
        (X.lines[j]?).map (lineEffects m.lines j (List.range m.lines.length)) := by
      unfold lineSpecialPass
      rw [hlen]
      exact foldl_lineSpecial_getElem m.lines _ X hbare j
    rw [e1, hX, lineSpecialPass_getElem]
    cases m.lines[j]? with
    | none => rfl
    | some l => simp [lineEffects_idem]
  have hframe := foldl_lineSpecial_frame (List.range X.lines.length) X
  have hs : (lineSpecialPass X).sectors = X.sectors := hframe.1
  have ht : (lineSpecialPass X).things = X.things := hframe.2
  cases hY : lineSpecialPass X with
  | mk l s t =>
    rw [hY] at hlines hs ht
    cases X with
    | mk l' s' t' =>
      simp only at hlines hs ht
      rw [hlines, hs, ht]

theorem resetPass_congr (m m' : SLADEMap) (h : SameFrame m m') : resetPass m' = resetPass m := by
  have hs : m'.sectors.map resetSector = m.sectors.map resetSector := by
    apply List.ext_getElem?
    intro j
    simp only [List.getElem?_map]
    exact h.2.2 j
  unfold resetPass
  rw [h.1, h.2.1, hs]

theorem processZDoomMapSpecials_idem (E : Env) (m : SLADEMap) :
    processZDoomMapSpecials E (processZDoomMapSpecials E m) = processZDoomMapSpecials E m := by
  have e : ∀ x : SLADEMap,
      processZDoomMapSpecials E x = processZDoomSlopes E (lineSpecialPass x) := fun _ => rfl
  have hframe := sameFrame_processZDoomSlopes E (lineSpecialPass m)
  have key : ∀ X R : SLADEMap, resetPass R = resetPass X →
      processZDoomSlopes E R = processZDoomSlopes E X := by
    intro X R h
    rw [processZDoomSlopes_passes E R, processZDoomSlopes_passes E X, h]
  rw [e (processZDoomMapSpecials E m), e m,
    lineSpecialPass_fixed m (processZDoomSlopes E (lineSpecialPass m)) hframe.1]
  exact key _ _ (resetPass_congr _ _ hframe)

/-- C11: with the port "zdoom", running `processMapSpecials` a second time on
the map that the first run left gives that same map again, and the same colour
table: every floor and ceiling plane and the alpha and render style of every
line are those of the first run. -/
theorem processMapSpecials_idempotent (E : Env) (cols : List sector_colour_t) (m : SLADEMap)
    (hport : E.currentPort = "zdoom") :
    processMapSpecials E (processMapSpecials E cols m).1 (processMapSpecials E cols m).2 =
      processMapSpecials E cols m ∧
    (∀ j : Nat,
      (processMapSpecials E cols (processMapSpecials E cols m).2).2.sectors[j]? =
        (processMapSpecials E cols m).2.sectors[j]?) ∧
    (∀ j : Nat,
      (processMapSpecials E cols (processMapSpecials E cols m).2).2.lines[j]? =
        (processMapSpecials E cols m).2.lines[j]?) := by
  have e : ∀ (c : List sector_colour_t) (x : SLADEMap),
      processMapSpecials E c x = (c, processZDoomMapSpecials E x) := by
    intro c x
    simp [processMapSpecials, hport]
  refine ⟨?_, ?_, ?_⟩
  · rw [e cols m, e, processZDoomMapSpecials_idem]
  · intro j
    rw [e cols m, e, processZDoomMapSpecials_idem]
  · intro j
    rw [e cols m, e, processZDoomMapSpecials_idem]

/-! ### The theorems on the example maps -/

theorem backSector_farthest (a : Int) :
    furthestVertex gridEnv (alignLine a) backSector.vertices 0 none =
      (100, some (vtx 100 64)) := by
  norm_num [furthestVertex, gridEnv, backSector, vtx, alignLine, plainLine]

/-- C11 on the map `alignMap 2`: the second run gives the map of the first. -/
theorem processMapSpecials_idempotent_witness :
    processMapSpecials gridEnv (processMapSpecials gridEnv [] (alignMap 2)).1
        (processMapSpecials gridEnv [] (alignMap 2)).2 =
      processMapSpecials gridEnv [] (alignMap 2) :=
  (processMapSpecials_idempotent gridEnv [] (alignMap 2) rfl).1

/-- C12 on the map `alignMap 1`: the line aligns the floor of the front
sector, so the back sector ends with its flat planes at 64 and 192. -/
theorem reset_dominance_witness :
    (processZDoomSlopes gridEnv (alignMap 1)).sectors[1]? =
      some { backSector with plane_floor := plane_t.flat 64,
                             plane_ceiling := plane_t.flat 192 } :=
  reset_dominance gridEnv (alignMap 1) 1 backSector rfl
    (by simp [alignMap, alignLine, plainLine])
    (by simp [alignMap])
    (by simp [alignMap])
    (by simp [backSector])
    (by simp [alignMap, alignLine, plainLine])

/-- C13 on the map `roomMap`, where every side of both rectangles is a line,
the Plane_Align line is the second of seven lines and a player start lies in
the front sector: the floor plane of the back sector passes through (0, 0) and
(0, 64) at height 0 and through (100, 64) at height 64. -/
theorem planeAlign_back_floor_witness :
    ∃ B' : MapSector, (processZDoomSlopes gridEnv roomMap).sectors[1]? = some B' ∧
      B'.plane_floor.height_at 0 0 = 0 ∧ B'.plane_floor.height_at 0 64 = 0 ∧
      B'.plane_floor.height_at 100 64 = 64 :=
  planeAlign_back_floor gridEnv roomMap [wall 0 64 100 64 1]
    [wall 100 64 100 0 1, wall 100 0 0 0 1, wall 0 0 (-50) 0 0, wall (-50) 0 (-50) 64 0,
     wall (-50) 64 0 64 0]
    (alignLine 2) 0 1 frontSector backSector (vtx 100 64)
    rfl rfl rfl rfl (by decide) rfl rfl rfl rfl rfl rfl
    (backSector_farthest 2) (by norm_num [vtx, alignLine, plainLine])
    (by simp [wall, plainLine])
    (by simp [roomMap, startThing])
    (by simp [roomMap, startThing])
    (by simp [roomMap, wall, alignLine, plainLine])

/-- C13 as stated fails on the map `alignMap 1`, which is the map of the
claim (front floor 0, back floor 64, arg0 = 1, farthest vertex of the back
sector at distance 100): after the slope solver the floor plane of the back
sector is at height 64 at both end points of the line, not at height 0. With
arg0 = 1 the code slopes the floor of the front sector. -/
theorem planeAlign_arg_one_slopes_front :
    (alignLine 1).special = 181 ∧ (alignLine 1).arg0 = 1 ∧
    (alignLine 1).front = some 0 ∧ (alignLine 1).back = some 1 ∧
    frontSector.heightfloor = 0 ∧ backSector.heightfloor = 64 ∧
    furthestVertex gridEnv (alignLine 1) backSector.vertices 0 none =
      (100, some (vtx 100 64)) ∧
    ∃ B' : MapSector, (processZDoomSlopes gridEnv (alignMap 1)).sectors[1]? = some B' ∧
      B'.plane_floor.height_at 0 0 = 64 ∧ B'.plane_floor.height_at 0 64 = 64 := by
  refine ⟨rfl, rfl, rfl, rfl, rfl, rfl, backSector_farthest 1, resetSector backSector, ?_, ?_, ?_⟩
  · exact untargeted_sector_flat gridEnv (alignMap 1) 1 backSector rfl
      (by simp [alignMap, alignLine, plainLine])
      (by simp [alignMap])
      (by simp [alignMap])
      (by simp [backSector])
      (by simp [alignMap, alignLine, plainLine])
  · norm_num [resetSector, backSector, MapSector.getPlaneHeight, plane_t.flat,
      plane_t.height_at]
  · norm_num [resetSector, backSector, MapSector.getPlaneHeight, plane_t.flat,
      plane_t.height_at]

/-- A later pass that targets the back sector overrides the alignment: on
`copiedRoomMap`, the rooms with arg0 = 2 on the Plane_Align line and a
Plane_Copy line that copies the floor plane of the front sector to the back
sector, the floor plane of the back sector after the slope solver is at height
0 at the farthest vertex (100, 64), not at height 64. -/
theorem planeCopy_overrides_align :
    ∃ B' : MapSector, (processZDoomSlopes gridEnv copiedRoomMap).sectors[1]? = some B' ∧
      B'.plane_floor.height_at 100 64 = 0 := by
  -- the front sector is targeted by nothing: it ends flat at its height 0
  have hfin := untargeted_sector_flat gridEnv copiedRoomMap 0 frontSector rfl
    (by simp [copiedRoomMap, roomMap, wall, alignLine, plainLine])
    (by simp [copiedRoomMap, roomMap, startThing])
    (by simp [copiedRoomMap, roomMap, startThing])
    (by simp [frontSector])
    (by simp [copiedRoomMap, roomMap, wall, alignLine, plainLine])
  rw [processZDoomSlopes_passes] at hfin ⊢
  have f4 : SameFrame copiedRoomMap (vertexHeightPass gridEnv (slopeCopyPass gridEnv
      (directionalPass gridEnv (planeAlignPass gridEnv (resetPass copiedRoomMap))))) :=
    sameFrame_trans _ _ _ (sameFrame_trans _ _ _ (sameFrame_trans _ _ _
      (sameFrame_trans _ _ _ (sameFrame_resetPass _) (sameFrame_planeAlignPass gridEnv _))
      (sameFrame_directionalPass gridEnv _)) (sameFrame_slopeCopyPass gridEnv _))
      (sameFrame_vertexHeightPass gridEnv _)
  generalize vertexHeightPass gridEnv (slopeCopyPass gridEnv
      (directionalPass gridEnv (planeAlignPass gridEnv (resetPass copiedRoomMap)))) = m4
    at hfin f4
  obtain ⟨F4, hF4, _⟩ := sameFrame_sector _ _ f4 0 frontSector rfl
  obtain ⟨B4, hB4, _⟩ := sameFrame_sector _ _ f4 1 backSector rfl
  -- only the last line is a Plane_Copy line
  have hpass : planeCopyPass m4 =
      planeCopyLine m4
        { plainLine with special := 118, arg4 := 1, front := some 0, back := some 1 } := by
    have hl : m4.lines = copiedRoomMap.lines := f4.1
    simp [planeCopyPass, hl, copiedRoomMap, roomMap, planeCopyLine, wall, alignLine, plainLine]
  obtain ⟨m1, hm1, e⟩ := planeCopyLine_eq m4
    { plainLine with special := 118, arg4 := 1, front := some 0, back := some 1 }
    0 1 F4 B4 rfl rfl rfl hF4 hB4
  have e1 : planeCopyPass m4 =
      m4.updateSector 1 fun s => { s with plane_floor := F4.plane_floor } := by
    rw [hpass, e, hm1]
    simp [plainLine]
  rw [e1] at hfin ⊢
  rw [updateSector_other _ _ _ _ (by decide), hF4] at hfin
  cases hfin
  refine ⟨_, updateSector_self _ _ _ _ hB4, ?_⟩
  norm_num [resetSector, frontSector, MapSector.getPlaneHeight, plane_t.flat,
    plane_t.height_at]

/-- C14 on the map `alignMap 2`: the floor alignment with the back sector as
target gives it the plane through the end points of the line at height 0 and
through (100, 64) at height 64, and the front sector, the model, is as
before. -/
theorem planeAlignLine_sides_witness :
    (applyPlaneAlign gridEnv .FLOOR_PLANE (alignLine 2) 1 0 (alignMap 2)).sectors[1]? =
      some (backSector.setPlane .FLOOR_PLANE
        (planeFromTriangle { x := 0, y := 0, z := 0 } { x := 0, y := 64, z := 0 }
          { x := 100, y := 64, z := 64 })) ∧
    (applyPlaneAlign gridEnv .FLOOR_PLANE (alignLine 2) 1 0 (alignMap 2)).sectors[0]? =
      some frontSector :=
  have h := (planeAlignLine_sides gridEnv (alignMap 2) (alignLine 2) 0 1 rfl rfl rfl
    (by decide)).2.2 .FLOOR_PLANE 1 0 backSector frontSector (vtx 100 64) 100 rfl rfl
    (by decide) (backSector_farthest 2) (by norm_num)
  ⟨h.1, h.2.2.1⟩

/-- C15 on a map of the two sectors: the slope copy thing with tag 7 in
sector 0 copies the floor plane of the first sector with tag 7. -/
theorem slopeCopyThing_copies_first_witness :
    ∃ (first : Nat) (src : MapSector),
      (alignMap 0).sectors[first]? = some src ∧ src.tag = copyThing.arg0 ∧
      (∀ (k : Nat) (s : MapSector), k < first → (alignMap 0).sectors[k]? = some s →
        s.tag ≠ copyThing.arg0) ∧
      (copyThing.type = 9510 →
        (slopeCopyThing gridEnv (alignMap 0) copyThing).sectors[0]? =
          some { frontSector with plane_floor := src.plane_floor }) ∧
      (copyThing.type = 9511 →
        (slopeCopyThing gridEnv (alignMap 0) copyThing).sectors[0]? =
          some { frontSector with plane_ceiling := src.plane_ceiling }) ∧
      (∀ j : Nat, j ≠ 0 →
        (slopeCopyThing gridEnv (alignMap 0) copyThing).sectors[j]? =
          (alignMap 0).sectors[j]?) ∧
      (slopeCopyThing gridEnv (alignMap 0) copyThing).lines = (alignMap 0).lines ∧
      (slopeCopyThing gridEnv (alignMap 0) copyThing).things = (alignMap 0).things :=
  slopeCopyThing_copies_first gridEnv (alignMap 0) copyThing 0 frontSector (Or.inl rfl)
    (by norm_num [gridEnv, copyThing]) rfl (by decide)
    ⟨backSector, by simp [alignMap], rfl⟩

/-- C16 on the sector `triSector`: its three vertices have the height 0, and
its floor and ceiling planes stay. -/
theorem vertexHeightSector_all_zero_witness :
    (vertexHeightSector gridEnv triSector).plane_floor = triSector.plane_floor ∧
    (vertexHeightSector gridEnv triSector).plane_ceiling = triSector.plane_ceiling :=
  ⟨(vertexHeightSector_all_zero gridEnv triSector (vtx 0 0) (vtx 64 0) (vtx 0 64) rfl).1
      rfl rfl rfl,
   (vertexHeightSector_all_zero gridEnv triSector (vtx 0 0) (vtx 64 0) (vtx 0 64) rfl).2.1
      rfl rfl rfl⟩

/-- C17 for share = 6: the front sector gets the floor plane of the back
sector and the back sector gets the ceiling plane of the front sector. -/
theorem planeCopyLine_bits_witness :
    ((planeCopyLine (alignMap 0) copyLine).sectors[0]?).map (fun s => s.plane_floor) =
      some backSector.plane_floor ∧
    ((planeCopyLine (alignMap 0) copyLine).sectors[1]?).map (fun s => s.plane_ceiling) =
      some frontSector.plane_ceiling := by
  have h := planeCopyLine_bits (alignMap 0) copyLine 0 1 frontSector backSector
    rfl rfl rfl rfl rfl
  constructor
  · rw [h.1 0, if_neg (by decide), if_pos (by decide)]
  · rw [h.2.1 1, if_pos (by decide)]

/-- C19 on the map `alignMap 2`: a Plane_Align line with no sector on either
side, a sector tilt thing with the argument 180 and a slope copy thing whose
tag no sector has leave the map as it was. -/
theorem degenerate_inputs_skipped_witness :
    planeAlignLine gridEnv (alignMap 2) { plainLine with special := 181, arg0 := 1 } =
      alignMap 2 ∧
    directionalThing gridEnv (alignMap 2) verticalTiltThing = alignMap 2 ∧
    slopeCopyThing gridEnv (alignMap 2) { copyThing with arg0 := 9 } = alignMap 2 :=
  ⟨((degenerate_inputs_skipped gridEnv (alignMap 2)).1
      { plainLine with special := 181, arg0 := 1 } [] (Or.inl rfl)).1,
   ((degenerate_inputs_skipped gridEnv (alignMap 2)).2.2.2.1 verticalTiltThing []
      (Or.inl rfl) (Or.inr rfl)).1,
   ((degenerate_inputs_skipped gridEnv (alignMap 2)).2.2.2.2 { copyThing with arg0 := 9 } []
      (Or.inr (by simp [alignMap, frontSector, backSector]))).1⟩

/-- C20 on the map `slopeMap`: the thing lies right of the line, in sector 1,
and is applied to the one line of id 3 with the height of the plane of
sector 1 at the thing plus 8. -/
theorem applyLineSlopeThing_fits_witness :
    applyLineSlopeThing gridEnv .FLOOR_PLANE slopeMap slopeThing =
      ((slopeMap.getLinesById slopeThing.arg0).filterMap fun i => slopeMap.lines[i]?).foldl
        (lineSlopeFit gridEnv .FLOOR_PLANE slopeThing
          ((backSector.getPlane .FLOOR_PLANE).height_at slopeThing.x slopeThing.y +
            slopeThing.height)) slopeMap :=
  (applyLineSlopeThing_fits gridEnv .FLOOR_PLANE slopeMap slopeThing 1 backSector
    (by decide) (by norm_num [gridEnv, slopeThing]) rfl).2.2.1

/-! ### The reference vertex of Plane_Align -/

/-- The search loop from a start value: either no vertex beats the start
value, or the result is the first vertex of greatest distance. -/
theorem furthestVertex_scan (E : Env) (line : MapLine) (vs : List MapVertex) (d0 : ℚ)
    (fv0 : Option MapVertex) :
    (furthestVertex E line vs d0 fv0 = (d0, fv0) ∧
      ∀ w ∈ vs, E.distanceTo line w.x w.y ≤ d0) ∨
    ∃ (pre : List MapVertex) (v : MapVertex) (post : List MapVertex),
      vs = pre ++ v :: post ∧
      furthestVertex E line vs d0 fv0 = (E.distanceTo line v.x v.y, some v) ∧
      d0 < E.distanceTo line v.x v.y ∧
      (∀ w ∈ pre, E.distanceTo line w.x w.y < E.distanceTo line v.x v.y) ∧
      (∀ w ∈ post, E.distanceTo line w.x w.y ≤ E.distanceTo line v.x v.y) := by
  induction vs generalizing d0 fv0 with
  | nil =>
    left
    exact ⟨rfl, by simp⟩
  | cons x rest ih =>
    unfold furthestVertex
    simp only []
    by_cases hx : E.distanceTo line x.x x.y > d0
    · rw [if_pos hx]
      right
      rcases ih (E.distanceTo line x.x x.y) (some x) with ⟨e, hall⟩ |
        ⟨pre, v, post, hsplit, e, hlt, hpre, hpost⟩
      · exact ⟨[], x, rest, rfl, e, hx, by simp, hall⟩
      · refine ⟨x :: pre, v, post, by rw [hsplit]; rfl, e, lt_trans hx hlt, ?_, hpost⟩
        intro w hw
        rcases List.mem_cons.1 hw with rfl | hw'
        · exact hlt
        · exact hpre w hw'
    · rw [if_neg hx]
      have hxle : E.distanceTo line x.x x.y ≤ d0 := not_lt.1 hx
      rcases ih d0 fv0 with ⟨e, hall⟩ | ⟨pre, v, post, hsplit, e, hlt, hpre, hpost⟩
      · left
        refine ⟨e, ?_⟩
        intro w hw
        rcases List.mem_cons.1 hw with rfl | hw'
        · exact hxle
        · exact hall w hw'
      · right
        refine ⟨x :: pre, v, post, by rw [hsplit]; rfl, e, hlt, ?_, hpost⟩
        intro w hw
        rcases List.mem_cons.1 hw with rfl | hw'
        · exact lt_of_le_of_lt hxle hlt
        · exact hpre w hw'

theorem furthestVertex_selected (E : Env) (line : MapLine) (vs : List MapVertex) (d : ℚ)
    (v : MapVertex) (h : furthestVertex E line vs 0 none = (d, some v)) :
    d = E.distanceTo line v.x v.y ∧ 0 < d ∧
    (∀ w ∈ vs, E.distanceTo line w.x w.y ≤ d) ∧
    ∃ (pre post : List MapVertex), vs = pre ++ v :: post ∧
      ∀ w ∈ pre, E.distanceTo line w.x w.y < d := by
  rcases furthestVertex_scan E line vs 0 none with ⟨e, _⟩ |
    ⟨pre, u, post, hsplit, e, hlt, hpre, hpost⟩
  · rw [e] at h
    simp at h
  · rw [e] at h
    simp only [Prod.mk.injEq, Option.some.injEq] at h
    obtain ⟨hd, hv⟩ := h
    subst hv
    subst hd
    refine ⟨rfl, hlt, ?_, pre, post, hsplit, hpre⟩
    intro w hw
    rw [hsplit] at hw
    rcases List.mem_append.1 hw with h1 | h2
    · exact le_of_lt (hpre w h1)
    · rcases List.mem_cons.1 h2 with rfl | h3
      · exact le_refl _
      · exact hpost w h3

theorem furthestVertex_far (E : Env) (line : MapLine) (vs : List MapVertex)
    (h : ∃ w ∈ vs, 1 / 100 ≤ E.distanceTo line w.x w.y) :
    ∃ (d : ℚ) (v : MapVertex), furthestVertex E line vs 0 none = (d, some v) ∧ 1 / 100 ≤ d := by
  obtain ⟨w, hw, hfar⟩ := h
  rcases furthestVertex_scan E line vs 0 none with ⟨_, hall⟩ |
    ⟨pre, u, post, hsplit, e, hlt, hpre, hpost⟩
  · have := hall w hw
    have h0 : (0 : ℚ) < 1 / 100 := by norm_num
    exact absurd (lt_of_lt_of_le h0 hfar) (not_lt.2 this)
  · refine ⟨_, u, e, ?_⟩
    have hmax := (furthestVertex_selected E line vs _ u e).2.2.1 w hw
    exact le_trans hfar hmax

/-- C21: the vertex that `applyPlaneAlign` selects has the greatest distance
to the line among the vertices of the target, and it is the earliest vertex
of that distance in list order: every vertex before it is strictly nearer. A
plane is fitted, to that vertex, exactly when some vertex is at distance 0.01
or more, which is when the greatest distance is; with no vertex, or all
distances below 0.01, the map is as before. -/
theorem furthestVertex_reference (E : Env) (line : MapLine) (vs : List MapVertex) :
    (∀ (d : ℚ) (v : MapVertex), furthestVertex E line vs 0 none = (d, some v) →
      d = E.distanceTo line v.x v.y ∧
      (∀ w ∈ vs, E.distanceTo line w.x w.y ≤ d) ∧
      ∃ (pre post : List MapVertex), vs = pre ++ v :: post ∧
        ∀ w ∈ pre, E.distanceTo line w.x w.y < d) ∧
    ((∃ w ∈ vs, 1 / 100 ≤ E.distanceTo line w.x w.y) ↔
      ∃ (d : ℚ) (v : MapVertex),
        furthestVertex E line vs 0 none = (d, some v) ∧ 1 / 100 ≤ d) ∧
    (∀ (p : PlaneType) (target model : Nat) (m : SLADEMap) (T M : MapSector),
      m.sectors[target]? = some T → m.sectors[model]? = some M → T.vertices = vs →
      ((∃ w ∈ vs, 1 / 100 ≤ E.distanceTo line w.x w.y) →
        ∃ (d : ℚ) (v : MapVertex), furthestVertex E line vs 0 none = (d, some v) ∧
          applyPlaneAlign E p line target model m =
            m.updateSector target fun s => s.setPlane p
              (planeFromTriangle { x := line.x1, y := line.y1, z := M.getPlaneHeight p }
                { x := line.x2, y := line.y2, z := M.getPlaneHeight p }
                { x := v.x, y := v.y, z := T.getPlaneHeight p })) ∧
      ((∀ w ∈ vs, E.distanceTo line w.x w.y < 1 / 100) →
        applyPlaneAlign E p line target model m = m)) := by
  refine ⟨?_, ?_, ?_⟩
  · intro d v h
    obtain ⟨h1, _, h3, h4⟩ := furthestVertex_selected E line vs d v h
    exact ⟨h1, h3, h4⟩
  · constructor
    · exact furthestVertex_far E line vs
    · rintro ⟨d, v, h, hd⟩
      obtain ⟨h1, _, _, pre, post, hsplit, _⟩ := furthestVertex_selected E line vs d v h
      exact ⟨v, by rw [hsplit]; simp, by rw [← h1]; exact hd⟩
  · intro p target model m T M hT hM hvs
    constructor
    · intro hfar
      obtain ⟨d, v, h, hd⟩ := furthestVertex_far E line vs hfar
      refine ⟨d, v, h, ?_⟩
      exact applyPlaneAlign_fitted E p line target model m T M v d hT hM (by rw [hvs]; exact h) hd
    · intro hall
      apply applyPlaneAlign_no_reference
      intro t ht w hw
      rw [hT] at ht
      cases ht
      rw [hvs] at hw
      exact hall w hw

/-- C21 on the back sector of the example map: the vertices (100, 64) and
(100, 0) are both at distance 100, the greatest, and the first of the two is
selected. -/
theorem furthestVertex_reference_witness :
    (100 : ℚ) = gridEnv.distanceTo (alignLine 2) (vtx 100 64).x (vtx 100 64).y ∧
    (∀ w ∈ backSector.vertices, gridEnv.distanceTo (alignLine 2) w.x w.y ≤ 100) ∧
    ∃ (pre post : List MapVertex), backSector.vertices = pre ++ vtx 100 64 :: post ∧
      ∀ w ∈ pre, gridEnv.distanceTo (alignLine 2) w.x w.y < 100 :=
  (furthestVertex_reference gridEnv (alignLine 2) backSector.vertices).1 100 (vtx 100 64)
    (backSector_farthest 2)

end MapSpecials
